import Mathlib

/-!
# LWM2M server core (LWM2MServer.cpp): a shallow embedding

The client directory (`m_devMap`), the lifecycle queue (`m_devEv`), the delete
grace list (`m_devDel`), the registration monitor `monitorCb`, the event
fan-out `checkEvents` / `notifyObservers`, the DM response callback
`readWriteResCb` and the blocking / non-blocking `read` and `write`.

Conventions of the embedding

* A `LWM2MDevice*` is the device record together with `addr`, the address of
  the heap object; two records with different `addr` are different objects.
* `std::map< std::string, LWM2MDevice* >` is an association list kept in
  increasing key order; `std::queue`, `std::list` and `std::vector` are lists
  (front first).
* What the code obtains from outside (the library context, `time(NULL)`, the
  address returned by `new`, the result of a library call, the callbacks the
  library makes while `runServer` runs) is an explicit argument.
* File-external parts of the repository that the code only uses are
  parameters: `devNameSize` is `sizeof(ev.param.devName)`, `getLifetime` is
  `LWM2MDevice::getLifetime`.
-/

namespace LWM2M

/-! ## CoAP status codes (liblwm2m.h, er-coap-13.h) -/

/-- The value `COAP_NO_ERROR` of liblwm2m.h. -/
def COAP_NO_ERROR : Int := 0
/-- The value `COAP_201_CREATED` (code 2.01). -/
def COAP_201_CREATED : Int := 65
/-- The value `COAP_202_DELETED` (code 2.02). -/
def COAP_202_DELETED : Int := 66
/-- The value `COAP_204_CHANGED` (code 2.04). -/
def COAP_204_CHANGED : Int := 68
/-- The value `COAP_205_CONTENT` (code 2.05). -/
def COAP_205_CONTENT : Int := 69
/-- The value `COAP_400_BAD_REQUEST` (code 4.00). -/
def COAP_400_BAD_REQUEST : Int := 128
/-- The value `NO_ERROR` of er-coap-13.h. -/
def NO_ERROR : Int := 0
/-- The value `CHANGED_2_04` of er-coap-13.h. -/
def CHANGED_2_04 : Int := 68
/-- The value `CONTENT_2_05` of er-coap-13.h. -/
def CONTENT_2_05 : Int := 69

/-! ## Library records -/

/-- One entry of a client's `objectList`: the object id and the ids of the
nodes of its `instanceList`. -/
structure lwm2m_client_object_t where
  id : Nat
  instanceList : List Nat
deriving DecidableEq, Repr

/-- A registered client as the library keeps it. -/
structure lwm2m_client_t where
  internalID : Nat
  name : String
  objectList : List lwm2m_client_object_t
deriving DecidableEq, Repr

/-- The library context; only the client list is read by the server. -/
structure lwm2m_context_t where
  clientList : List lwm2m_client_t
deriving DecidableEq, Repr

/-- The library's `lwm2m_list_find`: the node of the list with the given id. -/
def lwm2m_list_find : List lwm2m_client_t → Nat → Option lwm2m_client_t
  | [], _ => none
  | c :: rest, id => if c.internalID = id then some c else lwm2m_list_find rest id

/-! ## Resources, objects, devices -/

/-- LWM2MResource: the resource id and the registered observers. -/
structure LWM2MResource where
  m_resId : Nat
  m_vectObs : List Nat
deriving DecidableEq, Repr

/-- LWM2MObject: object id, instance id and the owned resources. -/
structure LWM2MObject where
  m_objId : Nat
  m_instId : Nat
  m_resVect : List LWM2MResource
deriving DecidableEq, Repr

/-- LWM2MDevice (LWM2MDevice.h): `m_name`, `m_id`, `m_objVect`; `addr` is the
address of the object. -/
structure LWM2MDevice where
  addr : Nat
  m_name : String
  m_id : Nat
  m_objVect : List LWM2MObject
deriving DecidableEq, Repr

/-- LWM2MDevice::getName. -/
def LWM2MDevice.getName (d : LWM2MDevice) : String := d.m_name

/-- LWM2MDevice::getID. -/
def LWM2MDevice.getID (d : LWM2MDevice) : Nat := d.m_id

/-- Modelled from the spec: LWM2MDevice::addObject, whose body is not part of
the sources at hand; the Device keeps an ordered collection of owned Objects,
so the Object is put at the end of `m_objVect`. -/
def LWM2MDevice.addObject (d : LWM2MDevice) (p_obj : LWM2MObject) : LWM2MDevice :=
  { d with m_objVect := d.m_objVect ++ [p_obj] }

/-! ## Lifecycle events and grace entries -/

/-- The kinds of lifecycle event. -/
inductive e_lwm2m_serverobserver_event_t where
  | e_lwm2m_serverobserver_event_register
  | e_lwm2m_serverobserver_event_deregister
  | e_lwm2m_serverobserver_event_update
deriving DecidableEq, Repr

open e_lwm2m_serverobserver_event_t

/-- The event parameter: `devName` is a character array of `devNameSize`
bytes; the field holds the characters written in front of the padding. -/
structure s_lwm2m_serverobserver_event_param_t where
  devName : List Char
deriving DecidableEq, Repr

/-- One element of the lifecycle queue. -/
structure s_devEvent_t where
  param : s_lwm2m_serverobserver_event_param_t
  event : e_lwm2m_serverobserver_event_t
deriving DecidableEq, Repr

/-- One element of the delete grace list: the device pointer (possibly NULL)
and the deadline `tot`. -/
structure s_devDel_t where
  p_dev : Option LWM2MDevice
  tot : Int
deriving DecidableEq, Repr

/-- The C function `strncpy( dst, src, n )` for a NUL-free source: at most the
first `n` characters of the source are written to the destination, the rest of
the destination is padding. -/
def strncpy (src : String) (n : Nat) : List Char := src.toList.take n

/-! ## The directory: `std::map< std::string, LWM2MDevice* >` -/

/-- The directory type. -/
abbrev DevMap := List (String × LWM2MDevice)

/-- The order of `std::string` keys (`std::less`): lexicographic comparison of
the characters. -/
def strLess : List Char → List Char → Bool
  | [], [] => false
  | [], _ :: _ => true
  | _ :: _, [] => false
  | a :: as, b :: bs =>
      if a.toNat < b.toNat then true
      else if b.toNat < a.toNat then false
      else strLess as bs

/-- The method `std::map::find`. -/
def mapFind : DevMap → String → Option LWM2MDevice
  | [], _ => none
  | (k, d) :: rest, key => if k = key then some d else mapFind rest key

/-- The method `std::map::erase( it )` for the iterator at key `key`. -/
def mapErase : DevMap → String → DevMap
  | [], _ => []
  | (k, d) :: rest, key => if k = key then rest else (k, d) :: mapErase rest key

/-- The method `std::map::insert`: the pair goes to its place in key order; a
map that already has the key is left as it is. -/
def mapInsert : DevMap → String → LWM2MDevice → DevMap
  | [], key, v => [(key, v)]
  | (k, d) :: rest, key, v =>
      if strLess key.toList k.toList then (key, v) :: (k, d) :: rest
      else if key = k then (k, d) :: rest
      else (k, d) :: mapInsert rest key v

/-- The scan of `m_devMap` from `begin()` for the first device with
`getID() == clientID` (monitorCb, readWriteResCb, notifyResCb, notifyObjCb). -/
def findDevByID : DevMap → Nat → Option (String × LWM2MDevice)
  | [], _ => none
  | (k, d) :: rest, clientID =>
      if d.getID = clientID then some (k, d) else findDevByID rest clientID

/-! ## The server -/

/-- The members of LWM2MServer that the monitor and the event fan-out use. -/
structure LWM2MServer where
  m_devMap : DevMap
  m_devEv : List s_devEvent_t
  m_devDel : List s_devDel_t
  m_vectObs : List Nat
deriving DecidableEq, Repr

/-- A server without devices, events, grace entries and observers. -/
def LWM2MServer.empty : LWM2MServer :=
  { m_devMap := [], m_devEv := [], m_devDel := [], m_vectObs := [] }

/-- LWM2MServer::getLWM2MDevice: the loop over `m_devMap` for `it->first == client`. -/
def getLWM2MDevice : DevMap → String → Option LWM2MDevice
  | [], _ => none
  | (k, d) :: rest, client => if k = client then some d else getLWM2MDevice rest client

/-- The two nested loops of monitorCb over `targetP->objectList` and each
`instanceList`: one `LWM2MObject( objectP->id, instanceP->id )` per instance;
the instance id of an Object has 8 bits. -/
def addInstances (objId : Nat) : List Nat → LWM2MDevice → LWM2MDevice
  | [], p_dev => p_dev
  | instId :: rest, p_dev =>
      addInstances objId rest (p_dev.addObject ⟨objId, instId % 2 ^ 8, []⟩)

/-- The loop of monitorCb over `targetP->objectList`. -/
def addObjects : List lwm2m_client_object_t → LWM2MDevice → LWM2MDevice
  | [], p_dev => p_dev
  | objectP :: rest, p_dev => addObjects rest (addInstances objectP.id objectP.instanceList p_dev)

/-- The device monitorCb builds for a client: `new LWM2MDevice( targetP->name,
targetP->internalID, p_srv )` at address `newAddr`, then the objects. -/
def newDevice (newAddr : Nat) (targetP : lwm2m_client_t) : LWM2MDevice :=
  addObjects targetP.objectList ⟨newAddr, targetP.name, targetP.internalID, []⟩

/-- The event pushed for a device name. -/
def mkEvent (devNameSize : Nat) (name : String) (ev : e_lwm2m_serverobserver_event_t) :
    s_devEvent_t :=
  ⟨⟨strncpy name devNameSize⟩, ev⟩

/-- The conversion of an integer to `int32_t` (two's complement). -/
def toInt32 (x : Int) : Int := (x + 2 ^ 31) % 2 ^ 32 - 2 ^ 31

/-- The block shared by the CREATED and the DELETED case: push a deregister
event for the device, append it to the grace list with deadline
`time(NULL) + getLifetime() * 2`, erase the map entry at `key`.
`getLifetime()` is an `int32_t` and the product with 2 is taken in `int`: a
product that leaves the 32 bits wraps (as the usual targets do; in C the
overflow is undefined). The sum with `time(NULL)` is taken in `time_t`, wide
enough for it. -/
def moveToDeleted (devNameSize : Nat) (getLifetime : lwm2m_context_t → LWM2MDevice → Int)
    (lwm2mH : lwm2m_context_t) (now : Int) (p_srv : LWM2MServer) (key : String)
    (d : LWM2MDevice) : LWM2MServer :=
  { p_srv with
    m_devEv := p_srv.m_devEv ++ [mkEvent devNameSize d.getName e_lwm2m_serverobserver_event_deregister]
    m_devDel := p_srv.m_devDel ++ [⟨some d, now + toInt32 (toInt32 (getLifetime lwm2mH d) * 2)⟩]
    m_devMap := mapErase p_srv.m_devMap key }

/-- LWM2MServer::monitorCb. `lwm2mH` is the library context `p_srv->mp_lwm2mH`
at the time of the call, `now` the value of `time(NULL)`, `newAddr` the address
`new LWM2MDevice` returns. -/
def monitorCb (devNameSize : Nat) (getLifetime : lwm2m_context_t → LWM2MDevice → Int)
    (p_srv : LWM2MServer) (lwm2mH : lwm2m_context_t) (clientID : Nat) (status : Int)
    (now : Int) (newAddr : Nat) : LWM2MServer :=
  if status = COAP_201_CREATED then
    match lwm2m_list_find lwm2mH.clientList clientID with
    | none => p_srv
    | some targetP =>
      let s1 :=
        match mapFind p_srv.m_devMap targetP.name with
        | some d => moveToDeleted devNameSize getLifetime lwm2mH now p_srv targetP.name d
        | none => p_srv
      let p_dev := newDevice newAddr targetP
      { s1 with
        m_devMap := mapInsert s1.m_devMap p_dev.getName p_dev
        m_devEv := s1.m_devEv ++ [mkEvent devNameSize p_dev.getName e_lwm2m_serverobserver_event_register] }
  else if status = COAP_202_DELETED then
    match findDevByID p_srv.m_devMap clientID with
    | none => p_srv
    | some (key, d) => moveToDeleted devNameSize getLifetime lwm2mH now p_srv key d
  else
    p_srv

/-- The arguments of one monitoring callback together with what the callback
reads from outside. -/
structure MonitorCall where
  lwm2mH : lwm2m_context_t
  clientID : Nat
  status : Int
  now : Int
  newAddr : Nat
deriving DecidableEq, Repr

/-- A sequence of monitoring callbacks, applied in order. -/
def runMonitor (devNameSize : Nat) (getLifetime : lwm2m_context_t → LWM2MDevice → Int) :
    LWM2MServer → List MonitorCall → LWM2MServer
  | s, [] => s
  | s, c :: rest =>
      runMonitor devNameSize getLifetime
        (monitorCb devNameSize getLifetime s c.lwm2mH c.clientID c.status c.now c.newAddr) rest

/-- The addresses of the devices the server owns: those of the directory and
those of the grace list. -/
def liveAddrs (s : LWM2MServer) : List Nat :=
  s.m_devMap.map (fun p => p.2.addr) ++ s.m_devDel.filterMap (fun e => e.p_dev.map (fun d => d.addr))

/-- The keys of the directory. -/
def keys (m : DevMap) : List String := m.map Prod.fst

/-! ## Example data -/

/-- A client named sensor-01 with internal id 1 that advertises the object
instance (3,0). -/
def exClient : lwm2m_client_t := ⟨1, "sensor-01", [⟨3, [0]⟩]⟩

/-- A library context that holds `exClient`. -/
def exContext : lwm2m_context_t := ⟨[exClient]⟩

/-- A lifetime accessor that answers 60 seconds for every device. -/
def exLifetime : lwm2m_context_t → LWM2MDevice → Int := fun _ _ => 60

/-- The device registered for `exClient` at address 7. -/
def exDevice : LWM2MDevice := ⟨7, "sensor-01", 1, [⟨3, 0, []⟩]⟩

/-- A server whose directory holds `exDevice` under its name. -/
def exServer : LWM2MServer :=
  { m_devMap := [("sensor-01", exDevice)], m_devEv := [], m_devDel := [], m_vectObs := [] }

/-! ## Invariants of the directory -/

/-- The directory invariant: the keys are pairwise different (it is a map) and
every entry is keyed by the name of its device. -/
def DirInv (m : DevMap) : Prop :=
  (keys m).Nodup ∧ ∀ p ∈ m, p.2.getName = p.1

/-! ## Event fan-out (notifyObservers, checkEvents) -/

/-- One call `(*it)->notify( param, ev )` on a server observer. -/
structure ServerNotify where
  observer : Nat
  param : s_lwm2m_serverobserver_event_param_t
  event : e_lwm2m_serverobserver_event_t
deriving DecidableEq, Repr

/-- LWM2MServer::notifyObservers: the loop over `m_vectObs`; every call of
`notify` is appended to `log`. -/
def notifyObservers : List Nat → s_lwm2m_serverobserver_event_param_t →
    e_lwm2m_serverobserver_event_t → List ServerNotify → List ServerNotify
  | [], _, _, log => log
  | it :: rest, param, ev, log => notifyObservers rest param ev (log ++ [⟨it, param, ev⟩])

/-- The loop of checkEvents on the queue: take the front, pop it, notify. The
result is the queue left when `m_devEv.size()` is zero and the log. -/
def checkEventsLoop (m_vectObs : List Nat) :
    List s_devEvent_t → List ServerNotify → List s_devEvent_t × List ServerNotify
  | [], log => ([], log)
  | ev :: rest, log => checkEventsLoop m_vectObs rest (notifyObservers m_vectObs ev.param ev.event log)

/-- LWM2MServer::checkEvents. -/
def checkEvents (s : LWM2MServer) (log : List ServerNotify) : LWM2MServer × List ServerNotify :=
  ({ s with m_devEv := (checkEventsLoop s.m_vectObs s.m_devEv log).1 },
   (checkEventsLoop s.m_vectObs s.m_devEv log).2)

/-- The deliveries the ordering rule asks for: the events in queue (arrival)
order and, within one event, the observers in registration order. -/
def fifoDeliveries (q : List s_devEvent_t) (os : List Nat) : List ServerNotify :=
  q.flatMap (fun ev => os.map (fun o => ⟨o, ev.param, ev.event⟩))

/-! ## DM transactions: slots, the response callback, read and write -/

/-- The URI of a request: flag bits and the three ids. -/
structure lwm2m_uri_t where
  flag : Nat
  objectId : Nat
  instanceId : Nat
  resourceId : Nat
deriving DecidableEq, Repr

/-- The value `LWM2M_URI_FLAG_OBJECT_ID` of liblwm2m.h. -/
def LWM2M_URI_FLAG_OBJECT_ID : Nat := 4
/-- The value `LWM2M_URI_FLAG_INSTANCE_ID` of liblwm2m.h. -/
def LWM2M_URI_FLAG_INSTANCE_ID : Nat := 2
/-- The value `LWM2M_URI_FLAG_RESOURCE_ID` of liblwm2m.h. -/
def LWM2M_URI_FLAG_RESOURCE_ID : Nat := 1

/-- The macro `LWM2M_URI_IS_SET_INSTANCE`. -/
def LWM2M_URI_IS_SET_INSTANCE (uriP : lwm2m_uri_t) : Bool :=
  uriP.flag &&& LWM2M_URI_FLAG_INSTANCE_ID != 0

/-- The macro `LWM2M_URI_IS_SET_RESOURCE`. -/
def LWM2M_URI_IS_SET_RESOURCE (uriP : lwm2m_uri_t) : Bool :=
  uriP.flag &&& LWM2M_URI_FLAG_RESOURCE_ID != 0

/-- One element of a parsed payload. -/
structure lwm2m_data_t where
  id : Nat
  value : String
deriving DecidableEq, Repr

/-- A `lwm2m_data_t*`: the parsed array and the position pointed to. -/
structure DataPtr where
  arr : List lwm2m_data_t
  idx : Nat
deriving DecidableEq, Repr

/-- The slot `s_lwm2m_obsparams_t`, with the fields the code uses. -/
structure s_lwm2m_obsparams_t where
  clientID : Nat
  uriP : Option lwm2m_uri_t
  status : Int
  format : Nat
  data : Option DataPtr
  dataLen : Int
  buffer : Option (List Nat)
  bufferLen : Int
deriving DecidableEq, Repr

/-- The slot after `memset( p_cbData, 0, sizeof(s_lwm2m_obsparams_t) )`. -/
def zeroSlot : s_lwm2m_obsparams_t := ⟨0, none, 0, 0, none, 0, none, 0⟩

/-- Modelled from the spec: LWM2MDevice::getObject, declared in LWM2MDevice.h,
body not part of the sources at hand; lookup equality is (ObjID, InstID). -/
def LWM2MDevice.getObject (d : LWM2MDevice) (objID instID : Nat) : Option LWM2MObject :=
  d.m_objVect.find? (fun o => o.m_objId = objID ∧ o.m_instId = instID)

/-- Modelled from the spec: LWM2MObject::getResource, not part of the sources
at hand; Resources are matched by Resource ID. -/
def LWM2MObject.getResource (o : LWM2MObject) (resID : Nat) : Option LWM2MResource :=
  o.m_resVect.find? (fun r => r.m_resId = resID)

/-- LWM2MResource::getResId. -/
def LWM2MResource.getResId (r : LWM2MResource) : Nat := r.m_resId

/-- One call `(*it)->notifyObservers( p_cbParams )`: the Resource and the slot
as it is at the call. -/
abbrev ResNotify := LWM2MResource × s_lwm2m_obsparams_t

/-- The inner `for( int i = 0; i < ret; i++ )` loop of the Object branch of
readWriteResCb for the resource `r`: `n` iterations are left, `idx` is the
position of `p_lwm2mData`, `cur` the position of `p_lwm2mDataCur`. A read of
`p_lwm2mData->id` outside the parsed array has no defined result (`none`). -/
def rwObjInner (r : LWM2MResource) (arr : List lwm2m_data_t) (cur : Nat) :
    Nat → Nat → s_lwm2m_obsparams_t → List ResNotify →
      Option (Nat × s_lwm2m_obsparams_t × List ResNotify)
  | 0, idx, p, log => some (idx, p, log)
  | n + 1, idx, p, log =>
      match arr[idx]? with
      | none => none
      | some e =>
          if e.id = r.getResId then
            rwObjInner r arr cur n (idx + 1) { p with data := some ⟨arr, cur⟩ }
              (log ++ [(r, { p with data := some ⟨arr, cur⟩ })])
          else
            rwObjInner r arr cur n (idx + 1) p log

/-- The outer `while( it != p_obj->resourceEnd() )` loop of the Object branch
of readWriteResCb; `p_lwm2mDataCur` is set to `p_lwm2mData` for each resource
and `p_lwm2mData` keeps its position from one resource to the next. -/
def rwObjOuter (arr : List lwm2m_data_t) (ret : Nat) :
    List LWM2MResource → Nat → s_lwm2m_obsparams_t → List ResNotify →
      Option (Nat × s_lwm2m_obsparams_t × List ResNotify)
  | [], idx, p, log => some (idx, p, log)
  | r :: rest, idx, p, log =>
      match rwObjInner r arr idx ret idx p log with
      | none => none
      | some (idx1, p1, log1) => rwObjOuter arr ret rest idx1 p1 log1

/-- LWM2MServer::readWriteResCb. `lwm2m_data_parse` is the library's parser
(its return value is the length of the array it yields), `m_devMap` the
directory of the server instance, `p_cbParams` the slot passed as user data.
The result is the slot after the call and the observer notifications made;
`none` stands for a read outside the parsed array. The release of the array
(`lwm2m_data_free`) is not represented. -/
def readWriteResCb
    (lwm2m_data_parse : lwm2m_uri_t → List Nat → Int → Nat → List lwm2m_data_t)
    (m_devMap : DevMap) (clientID : Nat) (uriP : lwm2m_uri_t) (status : Int) (format : Nat)
    (data : List Nat) (dataLength : Int) (p_cbParams : s_lwm2m_obsparams_t) :
    Option (s_lwm2m_obsparams_t × List ResNotify) :=
  let p : s_lwm2m_obsparams_t :=
    { p_cbParams with
      clientID := clientID, uriP := some uriP, status := status, format := format,
      data := none, buffer := some data, bufferLen := dataLength }
  match findDevByID m_devMap p.clientID with
  | none => some (p, [])
  | some (_, p_dev) =>
    let p_obj : Option LWM2MObject :=
      if LWM2M_URI_IS_SET_INSTANCE uriP then
        p_dev.getObject uriP.objectId (uriP.instanceId % 2 ^ 8)
      else none
    let p_res : Option LWM2MResource :=
      match p_obj with
      | some o => if LWM2M_URI_IS_SET_RESOURCE uriP then o.getResource uriP.resourceId else none
      | none => none
    match p_res, p_obj with
    | some _, _ =>
        let p_lwm2mData := lwm2m_data_parse uriP data dataLength format
        let ret : Int := p_lwm2mData.length
        some ({ p with
                data := if ret > 0 then some ⟨p_lwm2mData, 0⟩ else p.data,
                dataLen := ret }, [])
    | none, some o =>
        let p_lwm2mData := lwm2m_data_parse uriP data dataLength format
        match rwObjOuter p_lwm2mData p_lwm2mData.length o.m_resVect 0
            { p with buffer := none } [] with
        | none => none
        | some (_, p1, log) => some (p1, log)
    | none, none => some (p, [])

/-- One DM response callback the library makes with the caller's slot as user
data: the directory at that moment and the arguments of the callback. -/
structure DmCall where
  m_devMap : DevMap
  clientID : Nat
  uriP : lwm2m_uri_t
  status : Int
  format : Nat
  data : List Nat
  dataLength : Int
deriving DecidableEq, Repr

/-- How a call ends: it returns a value, it never returns (the wait loop
spins forever), or it runs into undefined behaviour. -/
inductive Outcome (α : Type) where
  | returns (a : α)
  | hangs
  | fault
deriving DecidableEq, Repr

/-- The response callbacks of one `runServer()` call, applied to the slot in
order. -/
def runCalls (lwm2m_data_parse : lwm2m_uri_t → List Nat → Int → Nat → List lwm2m_data_t) :
    List DmCall → s_lwm2m_obsparams_t → Option s_lwm2m_obsparams_t
  | [], p => some p
  | c :: rest, p =>
      match readWriteResCb lwm2m_data_parse c.m_devMap c.clientID c.uriP c.status c.format
          c.data c.dataLength p with
      | none => none
      | some (p1, _) => runCalls lwm2m_data_parse rest p1

/-- The wait loop of read and write: `while( true )`, call `runServer()`, read
`p_cbData->status`, leave the loop when it differs from NO_ERROR. `spins`
lists, for the successive `runServer()` calls, the response callbacks made for
this slot; after the last listed call no callback arrives any more. -/
def waitLoop (lwm2m_data_parse : lwm2m_uri_t → List Nat → Int → Nat → List lwm2m_data_t) :
    List (List DmCall) → s_lwm2m_obsparams_t → Outcome s_lwm2m_obsparams_t
  | [], p => if p.status ≠ NO_ERROR then Outcome.returns p else Outcome.hangs
  | spin :: rest, p =>
      match runCalls lwm2m_data_parse spin p with
      | none => Outcome.fault
      | some p1 =>
          if p1.status ≠ NO_ERROR then Outcome.returns p1
          else waitLoop lwm2m_data_parse rest p1

/-- A `const LWM2MObject*` as read and write use it: the object and what
`getDevice()` returns for it. -/
structure ObjectPtr where
  obj : LWM2MObject
  getDevice : Option LWM2MDevice
deriving DecidableEq, Repr

/-- A `const LWM2MResource*` (not NULL) as read and write use it: the resource
and what `getObject()` returns for it. -/
structure ResourcePtr where
  res : LWM2MResource
  getObject : Option ObjectPtr
deriving DecidableEq, Repr

/-- LWM2MServer::getDevice: NULL when the server is not alive, else the first
client of the library's client list with the name. -/
def getDevice (isAlive : Bool) (lwm2mH : lwm2m_context_t) (client : String) :
    Option lwm2m_client_t :=
  if !isAlive then none
  else lwm2mH.clientList.find? (fun p_targetP => client = p_targetP.name)

/-- The conversion of an `int` to `int8_t`. -/
def toInt8 (x : Int) : Int := (x + 2 ^ 7) % 2 ^ 8 - 2 ^ 7

/-- What read hands back: the return value, the value stored to `*val` (if
any) and the slot `*p_cbData` at the return. -/
structure ReadResult where
  ret : Int
  val : Option (Option DataPtr)
  slot : s_lwm2m_obsparams_t
deriving DecidableEq, Repr

/-- What write hands back: the return value and the slot `*p_cbData` at the
return. -/
structure WriteResult where
  ret : Int
  slot : s_lwm2m_obsparams_t
deriving DecidableEq, Repr

/-- The checks of read and write in front of the submission (`ret` stays 0):
the object of the resource, its device, the registered client of that name;
the result is the client and the URI of the request. -/
def resolveTarget (isAlive : Bool) (lwm2mH : lwm2m_context_t) (p_res : ResourcePtr) :
    Option (lwm2m_client_t × lwm2m_uri_t) :=
  match p_res.getObject with
  | none => none
  | some p_obj =>
    match p_obj.getDevice with
    | none => none
    | some p_dev =>
      match getDevice isAlive lwm2mH p_dev.getName with
      | none => none
      | some p_cli =>
        some (p_cli,
          { objectId := p_obj.obj.m_objId, instanceId := p_obj.obj.m_instId,
            resourceId := p_res.res.getResId,
            flag := LWM2M_URI_FLAG_OBJECT_ID ||| LWM2M_URI_FLAG_INSTANCE_ID |||
              LWM2M_URI_FLAG_RESOURCE_ID })

/-- LWM2MServer::read. `p_cbParams = none` is the blocking call (a local,
zeroed slot), `lwm2mRet` is what `lwm2m_dm_read` returns for the submission,
`spins` what the library delivers while the call waits. -/
def read (lwm2m_data_parse : lwm2m_uri_t → List Nat → Int → Nat → List lwm2m_data_t)
    (isAlive : Bool) (lwm2mH : lwm2m_context_t) (p_res : Option ResourcePtr)
    (p_cbParams : Option s_lwm2m_obsparams_t) (lwm2mRet : Int) (spins : List (List DmCall)) :
    Outcome ReadResult :=
  let p_cbData : s_lwm2m_obsparams_t :=
    match p_cbParams with
    | none => zeroSlot
    | some p => p
  match p_res with
  | none => Outcome.returns ⟨-1, none, p_cbData⟩
  | some r =>
    if !isAlive then Outcome.returns ⟨-1, none, p_cbData⟩
    else
      match resolveTarget isAlive lwm2mH r with
      | none => Outcome.returns ⟨-1, none, p_cbData⟩
      | some _ =>
        let p1 : s_lwm2m_obsparams_t := { p_cbData with status := NO_ERROR }
        if lwm2mRet ≠ COAP_NO_ERROR then Outcome.returns ⟨-1, none, p1⟩
        else
          match p_cbParams with
          | none =>
            match waitLoop lwm2m_data_parse spins p1 with
            | Outcome.returns p2 =>
                if p2.status = CONTENT_2_05 then
                  Outcome.returns ⟨toInt8 p2.dataLen, some p2.data, p2⟩
                else Outcome.returns ⟨-1, none, p2⟩
            | Outcome.hangs => Outcome.hangs
            | Outcome.fault => Outcome.fault
          | some _ => Outcome.returns ⟨0, none, p1⟩

/-- The last statement of write: `if( p_cbData->status == CHANGED_2_04 ) ret = 0;`. -/
def writeEpilogue (ret : Int) (p_cbData : s_lwm2m_obsparams_t) : WriteResult :=
  if p_cbData.status = CHANGED_2_04 then ⟨0, p_cbData⟩ else ⟨ret, p_cbData⟩

/-- LWM2MServer::write, with the arguments of `read`. `p_res->getObject()` is
evaluated whatever the first check found; with `p_res == NULL` that is a NULL
dereference. -/
def write (lwm2m_data_parse : lwm2m_uri_t → List Nat → Int → Nat → List lwm2m_data_t)
    (isAlive : Bool) (lwm2mH : lwm2m_context_t) (p_res : Option ResourcePtr) (val : String)
    (p_cbParams : Option s_lwm2m_obsparams_t) (lwm2mRet : Int) (spins : List (List DmCall)) :
    Outcome WriteResult :=
  let p_cbData : s_lwm2m_obsparams_t :=
    match p_cbParams with
    | none => zeroSlot
    | some p => p
  match p_res with
  | none => Outcome.fault
  | some r =>
    if !isAlive then Outcome.returns (writeEpilogue (-1) p_cbData)
    else
      match resolveTarget isAlive lwm2mH r with
      | none => Outcome.returns (writeEpilogue (-1) p_cbData)
      | some _ =>
        let p1 : s_lwm2m_obsparams_t := { p_cbData with status := NO_ERROR }
        if lwm2mRet ≠ COAP_NO_ERROR then Outcome.returns (writeEpilogue (-1) p1)
        else
          match p_cbParams with
          | none =>
            match waitLoop lwm2m_data_parse spins p1 with
            | Outcome.returns p2 => Outcome.returns (writeEpilogue 0 p2)
            | Outcome.hangs => Outcome.hangs
            | Outcome.fault => Outcome.fault
          | some _ => Outcome.returns (writeEpilogue 0 p1)


/-! ## Example data for DM transactions -/

/-- A parser that yields one element per payload byte, with the byte as id. -/
def exParse : lwm2m_uri_t → List Nat → Int → Nat → List lwm2m_data_t :=
  fun _ data _ _ => data.map (fun b => ⟨b, ""⟩)

/-- The device of `exClient` after the application gave its object (3,0) the
resource 0 with one observer. -/
def exDeviceRes : LWM2MDevice := ⟨7, "sensor-01", 1, [⟨3, 0, [⟨0, [5]⟩]⟩]⟩

/-- The directory that holds `exDeviceRes`. -/
def exDirectory : DevMap := [("sensor-01", exDeviceRes)]

/-- A pointer to resource 0 of object (3,0) of `exDeviceRes`. -/
def exResPtr : ResourcePtr := ⟨⟨0, [5]⟩, some ⟨⟨3, 0, [⟨0, [5]⟩]⟩, some exDeviceRes⟩⟩

/-- The URI /3/0/0. -/
def exUri : lwm2m_uri_t := ⟨7, 3, 0, 0⟩

/-- The response to a request on /3/0/0 with status 4.00 and no payload. -/
def exBadRequest : DmCall := ⟨exDirectory, 1, exUri, COAP_400_BAD_REQUEST, 0, [], 0⟩

/-- The response to a read of /3/0/0 with status 2.05 and a payload that
`exParse` turns into 128 elements. -/
def exContent128 : DmCall :=
  ⟨exDirectory, 1, exUri, COAP_205_CONTENT, 0, List.replicate 128 0, 128⟩

/-- A caller's slot that still holds the result of an earlier write:
status CHANGED_2_04. -/
def exUsedSlot : s_lwm2m_obsparams_t := ⟨1, some exUri, CHANGED_2_04, 0, none, 0, none, 0⟩

/-- The value `COAP_404_NOT_FOUND` (code 4.04), one of the results with which
the library rejects a submission. -/
def COAP_404_NOT_FOUND : Int := 132


/-! ## Alternation of Registered and Deregistered events -/

/-- The Registered and Deregistered events of a queue that carry the given
devName: their kinds, in queue order. -/
def regDeregKinds (devName : List Char) (q : List s_devEvent_t) :
    List e_lwm2m_serverobserver_event_t :=
  (q.filter (fun ev =>
      decide (ev.param.devName = devName) &&
        (decide (ev.event = e_lwm2m_serverobserver_event_register) ||
         decide (ev.event = e_lwm2m_serverobserver_event_deregister)))).map (fun ev => ev.event)

/-- The other one of the two kinds Registered and Deregistered. -/
def otherKind : e_lwm2m_serverobserver_event_t → e_lwm2m_serverobserver_event_t
  | e_lwm2m_serverobserver_event_register => e_lwm2m_serverobserver_event_deregister
  | e_lwm2m_serverobserver_event_deregister => e_lwm2m_serverobserver_event_register
  | e_lwm2m_serverobserver_event_update => e_lwm2m_serverobserver_event_update

/-- The list of kinds alternates and begins with `first`. -/
def alternatesFrom : e_lwm2m_serverobserver_event_t → List e_lwm2m_serverobserver_event_t → Bool
  | _, [] => true
  | first, k :: rest => decide (k = first) && alternatesFrom (otherKind first) rest

/-- Two clients whose names have 21 characters and differ in the last one. -/
def exContextLongNames : lwm2m_context_t :=
  ⟨[⟨1, "temperature-sensor-01", []⟩, ⟨2, "temperature-sensor-02", []⟩]⟩

/-- The registration of the first and then of the second client of
`exContextLongNames`. -/
def exCallsLongNames : List MonitorCall :=
  [⟨exContextLongNames, 1, COAP_201_CREATED, 1000, 7⟩,
   ⟨exContextLongNames, 2, COAP_201_CREATED, 1001, 8⟩]

/-- For a buffer of `n` bytes: two clients whose names have `n + 1`
characters and differ in the last one only. -/
def longNamesContext (n : Nat) : lwm2m_context_t :=
  ⟨[⟨1, String.mk (List.replicate n 'a' ++ ['1']), []⟩,
    ⟨2, String.mk (List.replicate n 'a' ++ ['2']), []⟩]⟩

/-- The registration of the first and then of the second client of
`longNamesContext n`. -/
def longNamesCalls (n : Nat) : List MonitorCall :=
  [⟨longNamesContext n, 1, COAP_201_CREATED, 1000, 7⟩,
   ⟨longNamesContext n, 2, COAP_201_CREATED, 1001, 8⟩]

/-- The invariant behind the alternation, for a devName buffer of `size`
bytes: the directory invariant, every key fits the buffer, and for every
devName the Registered / Deregistered history alternates from Registered and
is open (odd length) exactly when a directory key has that devName. -/
def HistInv (size : Nat) (s : LWM2MServer) : Prop :=
  DirInv s.m_devMap ∧ (∀ k ∈ keys s.m_devMap, k.length ≤ size) ∧
  ∀ dn : List Char,
    alternatesFrom e_lwm2m_serverobserver_event_register (regDeregKinds dn s.m_devEv) = true ∧
    ((regDeregKinds dn s.m_devEv).length % 2 = 1 ↔ ∃ k ∈ keys s.m_devMap, k.toList = dn)


/-! ## Key order -/

/-- The keys of the directory are in strictly increasing order. -/
def SortedKeys (m : DevMap) : Prop :=
  (keys m).Pairwise (fun a b => strLess a.toList b.toList = true)


/-! ## The observation registries and the grace sweep -/

/-- A `const LWM2MResource*` that points to a Resource owned by a Device: the
address of the Device, the position of the Object in `m_objVect` and the
position of the Resource in `m_resVect`. -/
structure ResKey where
  dev : Nat
  obj : Nat
  res : Nat
deriving DecidableEq, Repr

/-- A `const LWM2MObject*` that points to an Object owned by a Device: the
address of the Device and the position of the Object in `m_objVect`. -/
structure ObjKey where
  dev : Nat
  obj : Nat
deriving DecidableEq, Repr

/-- A `s_lwm2m_obsparams_t*` made with `new` (an Entry): the address of the
heap object and its content. -/
structure ObsEntry where
  addr : Nat
  params : s_lwm2m_obsparams_t
deriving DecidableEq, Repr

/-- The two registries `m_obsResMap` and `m_obsObjMap`. The code searches,
extends and shrinks them and never iterates over them, so the place of a node
is of no account; a new node is put in front. -/
structure ObsRegistry where
  m_obsResMap : List (ResKey × ObsEntry)
  m_obsObjMap : List (ObjKey × ObsEntry)
deriving DecidableEq, Repr

/-- The method `std::map::find` of a registry. -/
def obsFind {κ α : Type} [DecidableEq κ] : List (κ × α) → κ → Option α
  | [], _ => none
  | (k, v) :: rest, key => if k = key then some v else obsFind rest key

/-- The method `std::map::erase( it )` of a registry for the iterator at `key`. -/
def obsErase {κ α : Type} [DecidableEq κ] : List (κ × α) → κ → List (κ × α)
  | [], _ => []
  | (k, v) :: rest, key => if k = key then rest else (k, v) :: obsErase rest key

/-- The method `std::map::insert` of a registry: a map that has the key is
left as it is. -/
def obsInsert {κ α : Type} [DecidableEq κ] (m : List (κ × α)) (key : κ) (v : α) :
    List (κ × α) :=
  match obsFind m key with
  | some _ => m
  | none => (key, v) :: m

/-- A store through the pointer `it->second` of the node at `key`: the content
of the Entry is replaced, its address stays. -/
def obsStore {κ : Type} [DecidableEq κ] :
    List (κ × ObsEntry) → κ → s_lwm2m_obsparams_t → List (κ × ObsEntry)
  | [], _, _ => []
  | (k, e) :: rest, key, p =>
      if k = key then (k, ⟨e.addr, p⟩) :: rest else (k, e) :: obsStore rest key p

/-- The registry as the map itself holds it: handle and address of the Entry. -/
def obsPtrs {κ : Type} (m : List (κ × ObsEntry)) : List (κ × Nat) :=
  m.map (fun p => (p.1, p.2.addr))

/-- The inner loop of deletedObserveParams over the Resources of the Object at
position `obj` of the Device at `dev`: `j` is the position of `*resIt`; an
Entry found for the Resource is deleted and its node erased. -/
def deleteResParams (dev obj : Nat) :
    List LWM2MResource → Nat → List (ResKey × ObsEntry) → List (ResKey × ObsEntry)
  | [], _, m => m
  | _ :: rest, j, m =>
      match obsFind m ⟨dev, obj, j⟩ with
      | some _ => deleteResParams dev obj rest (j + 1) (obsErase m ⟨dev, obj, j⟩)
      | none => deleteResParams dev obj rest (j + 1) m

/-- The outer loop of deletedObserveParams over the Objects of the Device at
`dev`: `i` is the position of `*objIt`. -/
def deleteObjParams (dev : Nat) :
    List LWM2MObject → Nat → List (ResKey × ObsEntry) → List (ResKey × ObsEntry)
  | [], _, m => m
  | o :: rest, i, m => deleteObjParams dev rest (i + 1) (deleteResParams dev i o.m_resVect 0 m)

/-- LWM2MServer::deletedObserveParams. -/
def deletedObserveParams (p_dev : Option LWM2MDevice) (r : ObsRegistry) : ObsRegistry :=
  match p_dev with
  | none => r
  | some d => { r with m_obsResMap := deleteObjParams d.addr d.m_objVect 0 r.m_obsResMap }

/-- The loop of checkDeletedDevices over `m_devDel`; `time k` is the value of
the `k`-th call of `time(NULL)` in this sweep. An expired head is removed:
its observe parameters are deleted, the Device is deleted, `pop_front()`. -/
def checkDeletedDevicesLoop (time : Nat → Int) :
    Nat → List s_devDel_t → ObsRegistry → List s_devDel_t × ObsRegistry
  | _, [], r => ([], r)
  | k, it :: rest, r =>
      if it.tot < time k then
        checkDeletedDevicesLoop time (k + 1) rest
          (match it.p_dev with
           | some d => deletedObserveParams (some d) r
           | none => r)
      else (it :: rest, r)

/-- LWM2MServer::checkDeletedDevices. -/
def checkDeletedDevices (time : Nat → Int) (s : LWM2MServer) (r : ObsRegistry) :
    LWM2MServer × ObsRegistry :=
  ({ s with m_devDel := (checkDeletedDevicesLoop time 0 s.m_devDel r).1 },
   (checkDeletedDevicesLoop time 0 s.m_devDel r).2)

/-- The clock that shows `now` at every call. -/
def constTime (now : Int) : Nat → Int := fun _ => now

/-- The handle is a Resource of the Device: it points into the Device, at an
Object and a Resource that are there. -/
def ResKey.isOf (k : ResKey) (d : LWM2MDevice) : Prop :=
  k.dev = d.addr ∧ ∃ o, d.m_objVect[k.obj]? = some o ∧ k.res < o.m_resVect.length

/-- The handle is an Object of the Device. -/
def ObjKey.isOf (k : ObjKey) (d : LWM2MDevice) : Prop :=
  k.dev = d.addr ∧ k.obj < d.m_objVect.length

/-- A lifetime accessor that answers 0 seconds for every device. -/
def exLifetimeZero : lwm2m_context_t → LWM2MDevice → Int := fun _ _ => 0

/-- A registry with an Entry for the Resource 0 of Object 0 of the Device at
address 7 and an Entry for that Object. -/
def exRegistry : ObsRegistry :=
  { m_obsResMap := [(⟨7, 0, 0⟩, ⟨100, zeroSlot⟩)], m_obsObjMap := [(⟨7, 0⟩, ⟨101, zeroSlot⟩)] }

/-- A server whose grace list holds `exDeviceRes` with deadline 900. -/
def exServerGrace : LWM2MServer :=
  { m_devMap := [], m_devEv := [], m_devDel := [⟨some exDeviceRes, 900⟩], m_vectObs := [] }


/-! ## The notification callbacks (notifyResCb, notifyObjCb) -/

/-- The seven stores every notification callback makes into the Entry before
it looks for the Device. -/
def storeCallbackArgs (p_cbParams : s_lwm2m_obsparams_t) (clientID : Nat) (uriP : lwm2m_uri_t)
    (status : Int) (format : Nat) (data : List Nat) (dataLength : Int) : s_lwm2m_obsparams_t :=
  { p_cbParams with
    clientID := clientID, uriP := some uriP, status := status, format := format,
    data := none, buffer := some data, bufferLen := dataLength }

/-- LWM2MServer::notifyResCb. `userData` is the handle the library hands back,
`m_devMap` the directory of the server instance. The result is the registry
after the call and the observer notifications made. The release of the parsed
array is not represented. -/
def notifyResCb
    (lwm2m_data_parse : lwm2m_uri_t → List Nat → Int → Nat → List lwm2m_data_t)
    (m_devMap : DevMap) (clientID : Nat) (uriP : lwm2m_uri_t) (status : Int) (format : Nat)
    (data : List Nat) (dataLength : Int) (userData : ResKey) (r : ObsRegistry) :
    ObsRegistry × List ResNotify :=
  match obsFind r.m_obsResMap userData with
  | none => (r, [])
  | some it =>
    let p := storeCallbackArgs it.params clientID uriP status format data dataLength
    match findDevByID m_devMap p.clientID with
    | none => ({ r with m_obsResMap := obsStore r.m_obsResMap userData p }, [])
    | some (_, p_dev) =>
      let p_obj : Option LWM2MObject :=
        if LWM2M_URI_IS_SET_INSTANCE uriP then
          p_dev.getObject uriP.objectId (uriP.instanceId % 2 ^ 8)
        else none
      let p_res : Option LWM2MResource :=
        match p_obj with
        | some o => if LWM2M_URI_IS_SET_RESOURCE uriP then o.getResource uriP.resourceId else none
        | none => none
      match p_res with
      | some res =>
          let p_lwm2mData := lwm2m_data_parse uriP data dataLength format
          let ret : Int := p_lwm2mData.length
          let p1 : s_lwm2m_obsparams_t :=
            { p with data := if ret > 0 then some ⟨p_lwm2mData, 0⟩ else p.data }
          ({ r with m_obsResMap := obsStore r.m_obsResMap userData p1 }, [(res, p1)])
      | none => ({ r with m_obsResMap := obsStore r.m_obsResMap userData p }, [])

/-- The inner `for( int i = 0; i < ret; i++ )` loop of notifyObjCb for the
resource `r`: `p_lwm2mDataCur` starts at the array and is advanced once per
round, so the rounds see the elements of the array in order; `i` is the
position of `p_lwm2mDataCur`. -/
def notifyObjInner (r : LWM2MResource) (arr : List lwm2m_data_t) :
    List lwm2m_data_t → Nat → s_lwm2m_obsparams_t → List ResNotify →
      s_lwm2m_obsparams_t × List ResNotify
  | [], _, p, log => (p, log)
  | cur :: rest, i, p, log =>
      if cur.id = r.getResId then
        notifyObjInner r arr rest (i + 1) { p with data := some ⟨arr, i⟩ }
          (log ++ [(r, { p with data := some ⟨arr, i⟩ })])
      else
        notifyObjInner r arr rest (i + 1) p log

/-- The outer `while( it != p_obj->resourceEnd() )` loop of notifyObjCb. -/
def notifyObjOuter (arr : List lwm2m_data_t) :
    List LWM2MResource → s_lwm2m_obsparams_t → List ResNotify →
      s_lwm2m_obsparams_t × List ResNotify
  | [], p, log => (p, log)
  | it :: rest, p, log =>
      notifyObjOuter arr rest (notifyObjInner it arr arr 0 p log).1
        (notifyObjInner it arr arr 0 p log).2

/-- LWM2MServer::notifyObjCb, with the arguments of `notifyResCb`. -/
def notifyObjCb
    (lwm2m_data_parse : lwm2m_uri_t → List Nat → Int → Nat → List lwm2m_data_t)
    (m_devMap : DevMap) (clientID : Nat) (uriP : lwm2m_uri_t) (status : Int) (format : Nat)
    (data : List Nat) (dataLength : Int) (userData : ObjKey) (r : ObsRegistry) :
    ObsRegistry × List ResNotify :=
  match obsFind r.m_obsObjMap userData with
  | none => (r, [])
  | some it =>
    let p := storeCallbackArgs it.params clientID uriP status format data dataLength
    match findDevByID m_devMap p.clientID with
    | none => ({ r with m_obsObjMap := obsStore r.m_obsObjMap userData p }, [])
    | some (_, p_dev) =>
      let p_obj : Option LWM2MObject :=
        if LWM2M_URI_IS_SET_INSTANCE uriP then
          p_dev.getObject uriP.objectId (uriP.instanceId % 2 ^ 8)
        else none
      match p_obj with
      | some o =>
          let p_lwm2mData := lwm2m_data_parse uriP data dataLength format
          let res := notifyObjOuter p_lwm2mData o.m_resVect { p with buffer := none } []
          ({ r with m_obsObjMap := obsStore r.m_obsObjMap userData res.1 }, res.2)
      | none => ({ r with m_obsObjMap := obsStore r.m_obsObjMap userData p }, [])

/-- The notifications the fan-out rule for an Object Entry asks for: for each
Resource of the Object, in order, one call per payload element whose id is the
Resource ID, in payload order, with a pointer to that element as data and the
other fields of the slot as in `base`. -/
def expectedObjNotifications (rs : List LWM2MResource) (payload : List lwm2m_data_t)
    (base : s_lwm2m_obsparams_t) : List ResNotify :=
  rs.flatMap (fun R =>
    ((payload.enumFrom 0).filter (fun ie => decide (ie.2.id = R.m_resId))).map
      (fun ie => (R, { base with data := some ⟨payload, ie.1⟩ })))

/-- The Object the callbacks look up for a URI (`p_obj`): with the instance
flag set, `p_dev->getObject( objectId, instanceId )`, else NULL. -/
def uriObject (p_dev : LWM2MDevice) (uriP : lwm2m_uri_t) : Option LWM2MObject :=
  if LWM2M_URI_IS_SET_INSTANCE uriP then
    p_dev.getObject uriP.objectId (uriP.instanceId % 2 ^ 8)
  else none

/-- The Resource the callbacks look up for a URI (`p_res`): with an Object and
the resource flag set, `p_obj->getResource( resourceId )`, else NULL. -/
def uriResource (p_obj : Option LWM2MObject) (uriP : lwm2m_uri_t) : Option LWM2MResource :=
  match p_obj with
  | some o => if LWM2M_URI_IS_SET_RESOURCE uriP then o.getResource uriP.resourceId else none
  | none => none

/-- The Resource belongs to an Object of a Device of the directory that has the
internal ID. -/
def InDirectory (m_devMap : DevMap) (clientID : Nat) (res : LWM2MResource) : Prop :=
  ∃ q ∈ m_devMap, q.2.getID = clientID ∧ ∃ o ∈ q.2.m_objVect, res ∈ o.m_resVect

/-- The device sensor-01 with the Resources 0 and 1 in its Object (3,0). -/
def exDeviceTwoRes : LWM2MDevice := ⟨7, "sensor-01", 1, [⟨3, 0, [⟨0, [5]⟩, ⟨1, [6]⟩]⟩]⟩

/-- The directory that holds `exDeviceTwoRes`. -/
def exDirectoryTwoRes : DevMap := [("sensor-01", exDeviceTwoRes)]

/-- The URI /3/0. -/
def exUriObj : lwm2m_uri_t := ⟨6, 3, 0, 0⟩


/-! ## observe (both overloads) -/

/-- A notification callback the library makes: notifyResCb or notifyObjCb with
the handle given as user data, the directory at that moment and the arguments
of the callback. -/
inductive ObsCall where
  | res (userData : ResKey) (c : DmCall)
  | obj (userData : ObjKey) (c : DmCall)
deriving DecidableEq, Repr

/-- The notification callbacks of one `runServer()` call, applied to the
registries in order. -/
def runObsCalls (lwm2m_data_parse : lwm2m_uri_t → List Nat → Int → Nat → List lwm2m_data_t) :
    List ObsCall → ObsRegistry → ObsRegistry
  | [], r => r
  | ObsCall.res userData c :: rest, r =>
      runObsCalls lwm2m_data_parse rest
        (notifyResCb lwm2m_data_parse c.m_devMap c.clientID c.uriP c.status c.format c.data
          c.dataLength userData r).1
  | ObsCall.obj userData c :: rest, r =>
      runObsCalls lwm2m_data_parse rest
        (notifyObjCb lwm2m_data_parse c.m_devMap c.clientID c.uriP c.status c.format c.data
          c.dataLength userData r).1

/-- One `runServer()` call as the wait loop of observe meets it: the clock and
the delete grace list its `checkDeletedDevices()` finds, and the notification
callbacks the library makes afterwards (in `lwm2m_step` and
`lwm2m_handle_packet`). -/
structure ObsPass where
  time : Nat → Int
  m_devDel : List s_devDel_t
  calls : List ObsCall

/-- The registries after one `runServer()` call: first the grace sweep, which
for every Device it evicts deletes the observe parameters of its Resources
(`deletedObserveParams`), then the notification callbacks. -/
def runObsPass (lwm2m_data_parse : lwm2m_uri_t → List Nat → Int → Nat → List lwm2m_data_t)
    (p : ObsPass) (r : ObsRegistry) : ObsRegistry :=
  runObsCalls lwm2m_data_parse p.calls (checkDeletedDevicesLoop p.time 0 p.m_devDel r).2

/-- The wait loop of observe: `while( true )`, call `runServer()`, read
`p_cbData->status`, leave the loop when it differs from -1. `status` reads the
field through `p_cbData` (`none`: `p_cbData` is NULL or points to an Entry
that has been deleted); `spins` lists the successive `runServer()` calls;
after the last listed call the sweep evicts nothing and no callback arrives
any more. This is the loop of the build without OPCUA_LWM2M_SERVER_USE_THREAD,
in which every pass calls `runServer()` itself. -/
def obsWaitLoop (lwm2m_data_parse : lwm2m_uri_t → List Nat → Int → Nat → List lwm2m_data_t)
    (status : ObsRegistry → Option Int) :
    List ObsPass → ObsRegistry → Outcome ObsRegistry
  | [], r =>
      match status r with
      | none => Outcome.fault
      | some st => if st ≠ -1 then Outcome.returns r else Outcome.hangs
  | spin :: rest, r =>
      match status (runObsPass lwm2m_data_parse spin r) with
      | none => Outcome.fault
      | some st =>
          if st ≠ -1 then Outcome.returns (runObsPass lwm2m_data_parse spin r)
          else obsWaitLoop lwm2m_data_parse status rest (runObsPass lwm2m_data_parse spin r)

/-- A `const LWM2MResource*` (not NULL) given to observe: the pointer as the
key of the registry and what it points to. -/
structure ResHandle where
  key : ResKey
  ptr : ResourcePtr
deriving DecidableEq, Repr

/-- A `const LWM2MObject*` (not NULL) given to observe. -/
structure ObjHandle where
  key : ObjKey
  ptr : ObjectPtr
deriving DecidableEq, Repr

/-- A call of `lwm2m_observe` (`cancel = false`) or `lwm2m_observe_cancel`
(`cancel = true`) with its arguments. -/
structure ObsRequest (κ : Type) where
  cancel : Bool
  clientID : Nat
  uri : lwm2m_uri_t
  userData : κ
deriving DecidableEq, Repr

/-- What observe hands back: the return value, the registries at the return
and the calls of the library it made. -/
structure ObserveResult (κ : Type) where
  ret : Int
  reg : ObsRegistry
  requests : List (ObsRequest κ)
deriving DecidableEq, Repr

/-- The checks of the Object overload of observe in front of the submission:
the device of the object, the registered client of that name; the result is
the client and the URI of the request. The source does not store
`uri.resourceId` (the flag says it is not set); it is 0 here. -/
def resolveTargetObj (isAlive : Bool) (lwm2mH : lwm2m_context_t) (p_obj : ObjectPtr) :
    Option (lwm2m_client_t × lwm2m_uri_t) :=
  match p_obj.getDevice with
  | none => none
  | some p_dev =>
    match getDevice isAlive lwm2mH p_dev.getName with
    | none => none
    | some p_cli =>
      some (p_cli,
        { objectId := p_obj.obj.m_objId, instanceId := p_obj.obj.m_instId,
          resourceId := 0,
          flag := LWM2M_URI_FLAG_OBJECT_ID ||| LWM2M_URI_FLAG_INSTANCE_ID })

/-- The field `p_cbData->status` of the Entry of a handle; `none` when the
handle has no Entry in the registry (`p_cbData` is NULL, or the Entry it
pointed to has been deleted with its node). -/
def entryStatus {κ : Type} [DecidableEq κ] (m : List (κ × ObsEntry)) (key : κ) : Option Int :=
  match obsFind m key with
  | none => none
  | some e => some e.params.status

/-- The store `p_cbData->status = st` into the Entry of a handle. -/
def setEntryStatus {κ : Type} [DecidableEq κ] (m : List (κ × ObsEntry)) (key : κ) (st : Int) :
    List (κ × ObsEntry) :=
  match obsFind m key with
  | none => m
  | some e => obsStore m key { e.params with status := st }

/-- LWM2MServer::observe( const LWM2MResource*, bool ). `newEntry` is the
address `new s_lwm2m_obsparams_t()` returns, `lwm2mRet` what `lwm2m_observe` or
`lwm2m_observe_cancel` returns, `spins` what the library delivers while the
call waits. The Entry of a handle without one is made (for `observe == true`)
before the checks; `erase( it )` uses the iterator found there. A read through
`p_cbData == NULL`, or through a `p_cbData` whose Entry a grace sweep of the
wait has deleted, is a fault. -/
def observeRes (lwm2m_data_parse : lwm2m_uri_t → List Nat → Int → Nat → List lwm2m_data_t)
    (isAlive : Bool) (lwm2mH : lwm2m_context_t) (r : ObsRegistry) (p_res : Option ResHandle)
    (observe : Bool) (newEntry : Nat) (lwm2mRet : Int) (spins : List ObsPass) :
    Outcome (ObserveResult ResKey) :=
  match p_res with
  | none => Outcome.returns ⟨-1, r, []⟩
  | some h =>
    let r1 : ObsRegistry :=
      match obsFind r.m_obsResMap h.key with
      | none =>
          if observe then
            { r with m_obsResMap := obsInsert r.m_obsResMap h.key ⟨newEntry, zeroSlot⟩ }
          else r
      | some _ => r
    if !isAlive then Outcome.returns ⟨-1, r1, []⟩
    else
      match resolveTarget isAlive lwm2mH h.ptr with
      | none => Outcome.returns ⟨-1, r1, []⟩
      | some (p_cli, uri) =>
        let r2 : ObsRegistry :=
          if observe then { r1 with m_obsResMap := setEntryStatus r1.m_obsResMap h.key (-1) }
          else r1
        if lwm2mRet ≠ COAP_NO_ERROR then
          Outcome.returns ⟨-1, r2, [⟨!observe, p_cli.internalID, uri, h.key⟩]⟩
        else
          match obsWaitLoop lwm2m_data_parse (fun x => entryStatus x.m_obsResMap h.key)
              spins r2 with
          | Outcome.returns r3 =>
              if entryStatus r3.m_obsResMap h.key = some NO_ERROR then
                if observe then
                  Outcome.returns ⟨0, r3, [⟨!observe, p_cli.internalID, uri, h.key⟩]⟩
                else
                  Outcome.returns
                    ⟨0, { r3 with m_obsResMap := obsErase r3.m_obsResMap h.key },
                      [⟨!observe, p_cli.internalID, uri, h.key⟩]⟩
              else Outcome.returns ⟨-1, r3, [⟨!observe, p_cli.internalID, uri, h.key⟩]⟩
          | Outcome.hangs => Outcome.hangs
          | Outcome.fault => Outcome.fault

/-- LWM2MServer::observe( const LWM2MObject*, bool ), with the arguments of
`observeRes`. -/
def observeObj (lwm2m_data_parse : lwm2m_uri_t → List Nat → Int → Nat → List lwm2m_data_t)
    (isAlive : Bool) (lwm2mH : lwm2m_context_t) (r : ObsRegistry) (p_obj : Option ObjHandle)
    (observe : Bool) (newEntry : Nat) (lwm2mRet : Int) (spins : List ObsPass) :
    Outcome (ObserveResult ObjKey) :=
  match p_obj with
  | none => Outcome.returns ⟨-1, r, []⟩
  | some h =>
    let r1 : ObsRegistry :=
      match obsFind r.m_obsObjMap h.key with
      | none =>
          if observe then
            { r with m_obsObjMap := obsInsert r.m_obsObjMap h.key ⟨newEntry, zeroSlot⟩ }
          else r
      | some _ => r
    if !isAlive then Outcome.returns ⟨-1, r1, []⟩
    else
      match resolveTargetObj isAlive lwm2mH h.ptr with
      | none => Outcome.returns ⟨-1, r1, []⟩
      | some (p_cli, uri) =>
        let r2 : ObsRegistry :=
          if observe then { r1 with m_obsObjMap := setEntryStatus r1.m_obsObjMap h.key (-1) }
          else r1
        if lwm2mRet ≠ COAP_NO_ERROR then
          Outcome.returns ⟨-1, r2, [⟨!observe, p_cli.internalID, uri, h.key⟩]⟩
        else
          match obsWaitLoop lwm2m_data_parse (fun x => entryStatus x.m_obsObjMap h.key)
              spins r2 with
          | Outcome.returns r3 =>
              if entryStatus r3.m_obsObjMap h.key = some NO_ERROR then
                if observe then
                  Outcome.returns ⟨0, r3, [⟨!observe, p_cli.internalID, uri, h.key⟩]⟩
                else
                  Outcome.returns
                    ⟨0, { r3 with m_obsObjMap := obsErase r3.m_obsObjMap h.key },
                      [⟨!observe, p_cli.internalID, uri, h.key⟩]⟩
              else Outcome.returns ⟨-1, r3, [⟨!observe, p_cli.internalID, uri, h.key⟩]⟩
          | Outcome.hangs => Outcome.hangs
          | Outcome.fault => Outcome.fault


/-- The two registries as the maps themselves hold them: for each handle the
address of its Entry. -/
def regPtrs (r : ObsRegistry) : List (ResKey × Nat) × List (ObjKey × Nat) :=
  (obsPtrs r.m_obsResMap, obsPtrs r.m_obsObjMap)


/-! ## Example data for observe -/

/-- The registries without any Entry. -/
def exNoEntries : ObsRegistry := { m_obsResMap := [], m_obsObjMap := [] }

/-- The handle of Resource 0 of Object 0 of the device at address 7. -/
def exResHandle : ResHandle := ⟨⟨7, 0, 0⟩, exResPtr⟩

/-- The handle of Object 0 of the device at address 7. -/
def exObjHandle : ObjHandle := ⟨⟨7, 0⟩, ⟨⟨3, 0, [⟨0, [5]⟩]⟩, some exDeviceRes⟩⟩

/-- The library's answer to an Observe or Cancel-Observe on /3/0/0: the
callback for `exResHandle` with status 0 and the payload 42. -/
def exResAnswer : ObsCall := ObsCall.res ⟨7, 0, 0⟩ ⟨exDirectory, 1, exUri, 0, 0, [42], 1⟩

/-- The library's answer to an Observe or Cancel-Observe on /3/0: the callback
for `exObjHandle` with status 0 and the payload 0. -/
def exObjAnswer : ObsCall := ObsCall.obj ⟨7, 0⟩ ⟨exDirectory, 1, exUriObj, 0, 0, [0], 1⟩

/-- A `runServer()` call at time 1000 that finds the grace list empty and
makes the given callbacks. -/
def exQuietPass (calls : List ObsCall) : ObsPass := ⟨constTime 1000, [], calls⟩

/-- The value a call returns (a failure record stands in when it does not). -/
def Outcome.value {κ : Type} (o : Outcome (ObserveResult κ)) : ObserveResult κ :=
  match o with
  | Outcome.returns a => a
  | _ => ⟨-1, exNoEntries, []⟩

/-- The result of observe( exResHandle, true ) on the registries without
Entry, answered with `exResAnswer`; the new Entry is at address 100. -/
def exResObserved : ObserveResult ResKey :=
  (observeRes exParse true exContext exNoEntries (some exResHandle) true 100 COAP_NO_ERROR
    [exQuietPass [exResAnswer]]).value

/-- What one loop iteration works on: the members of the server, the
registries, `mp_connList` (the head of the connection list, `none` for NULL)
and the log of the calls made on the server observers. -/
structure LoopState where
  srv : LWM2MServer
  reg : ObsRegistry
  mp_connList : Option Nat
  log : List ServerNotify
deriving DecidableEq, Repr

/-- What the system answers during one `runServer()` call: `m_threadRun`
(`none` in a build without OPCUA_LWM2M_SERVER_USE_THREAD), the clock of the
grace sweep, the result of `select`, `FD_ISSET( m_sock, &readfds )` after it,
the result of `recvfrom` and the bytes it stored, the results of
`connection_find` and `connection_new_incoming` (`none` for NULL). -/
structure LoopEnv where
  m_threadRun : Option Bool
  time : Nat → Int
  selectResult : Int
  fdIsSet : Bool
  numBytes : Int
  buffer : List Nat
  connFind : Option Nat
  connNewIncoming : Option Nat

/-- What one `runServer()` call hands back: the return value, the state at the
return, whether `select` and `recvfrom` were called, and the arguments of the
`lwm2m_handle_packet` call (`none` when there was none). -/
structure LoopResult where
  ret : Int
  state : LoopState
  selectCalled : Bool
  recvfromCalled : Bool
  handled : Option (List Nat × Int × Nat)
deriving DecidableEq, Repr

/-- LWM2MServer::runServer. `lwm2m_step` and `lwm2m_handle_packet` are the
library: they return through the callbacks a changed state. Each
`if( ret == 0 )` block of the source is one level of nesting here; once `ret`
is -1 no later block runs. The value of `recvfrom` is only tested by
`numBytes > 0`. -/
def runServer (lwm2m_step : LoopState → Int × LoopState)
    (lwm2m_handle_packet : List Nat → Int → Nat → LoopState → LoopState)
    (env : LoopEnv) (s : LoopState) : LoopResult :=
  let ev := checkEvents s.srv s.log
  let sw := checkDeletedDevices env.time ev.1 s.reg
  let s1 : LoopState := { s with srv := sw.1, reg := sw.2, log := ev.2 }
  if env.m_threadRun = some false then ⟨-1, s1, false, false, none⟩
  else
    if (lwm2m_step s1).1 ≠ 0 then ⟨-1, (lwm2m_step s1).2, false, false, none⟩
    else
      if env.selectResult < 0 then ⟨-1, (lwm2m_step s1).2, true, false, none⟩
      else
        if env.selectResult > 0 then
          if env.fdIsSet then
            if env.numBytes > 0 then
              match env.connFind with
              | some connP =>
                  ⟨0, lwm2m_handle_packet env.buffer env.numBytes connP (lwm2m_step s1).2,
                    true, true, some (env.buffer, env.numBytes, connP)⟩
              | none =>
                match env.connNewIncoming with
                | some connP =>
                    ⟨0, lwm2m_handle_packet env.buffer env.numBytes connP
                        { (lwm2m_step s1).2 with mp_connList := some connP },
                      true, true, some (env.buffer, env.numBytes, connP)⟩
                | none => ⟨0, (lwm2m_step s1).2, true, true, none⟩
            else ⟨0, (lwm2m_step s1).2, true, true, none⟩
          else ⟨0, (lwm2m_step s1).2, true, false, none⟩
        else ⟨0, (lwm2m_step s1).2, true, false, none⟩

/-- A `lwm2m_step` that has nothing to do: it returns 0. -/
def exStep : LoopState → Int × LoopState := fun s => (0, s)

/-- A `lwm2m_handle_packet` whose packet makes no callback. -/
def exHandlePacket : List Nat → Int → Nat → LoopState → LoopState := fun _ _ _ s => s

/-- The server of `exServer` with the registries of `exRegistry`, no
connection and an empty log. -/
def exLoopState : LoopState := ⟨exServer, exRegistry, none, []⟩

/-- An iteration in which `select` returns -1. -/
def exSelectError : LoopEnv :=
  { m_threadRun := none, time := constTime 1000, selectResult := -1, fdIsSet := false,
    numBytes := 0, buffer := [], connFind := none, connNewIncoming := none }

/-- An iteration in which `select` returns 1 with the socket readable and
`recvfrom` returns -1. -/
def exRecvError : LoopEnv :=
  { m_threadRun := none, time := constTime 1000, selectResult := 1, fdIsSet := true,
    numBytes := -1, buffer := [], connFind := none, connNewIncoming := none }


/-! ## Example data for the sweep order -/

/-- A grace list whose second entry has not expired at time 1000 while the
entries in front of it and behind it have. -/
def exGraceMixed : List s_devDel_t :=
  [⟨some exDeviceRes, 900⟩, ⟨some exDevice, 1100⟩, ⟨some exDeviceTwoRes, 950⟩]

/-- A server with the grace list `exGraceMixed`. -/
def exServerGraceMixed : LWM2MServer :=
  { m_devMap := [], m_devEv := [], m_devDel := exGraceMixed, m_vectObs := [] }


/-! ## Example data for calls that submit nothing -/

/-- A context whose client list is empty: no Device name is registered. -/
def exContextNoClient : lwm2m_context_t := ⟨[]⟩

/-- A pointer to a Resource that has no parent Object. -/
def exResPtrNoObject : ResourcePtr := ⟨⟨0, [5]⟩, none⟩

/-- A pointer to a Resource whose Object has no Device. -/
def exResPtrNoDevice : ResourcePtr := ⟨⟨0, [5]⟩, some ⟨⟨3, 0, [⟨0, [5]⟩]⟩, none⟩⟩


/-! ## The Object branch of readWriteResCb against notifyObjCb -/

/-- The (Resource, payload element) pairs of a sequence of observer calls: the
Resource notified and the element its data pointer points to. -/
def notifiedElements (log : List ResNotify) : List (LWM2MResource × Option lwm2m_data_t) :=
  log.map (fun n => (n.1, n.2.data.bind (fun d => d.arr[d.idx]?)))


/-! ## Example data for the bounds of devName and of the deadline -/

/-- A Device whose name has 21 characters. -/
def exDeviceLongName : LWM2MDevice := ⟨7, "temperature-sensor-01", 1, []⟩

/-- A server whose directory holds `exDeviceLongName` under its name. -/
def exServerLongName : LWM2MServer :=
  { m_devMap := [("temperature-sensor-01", exDeviceLongName)], m_devEv := [], m_devDel := [],
    m_vectObs := [] }

/-- A lifetime of 2^30 seconds, an `int32_t` value whose double is not one. -/
def exLifetimeHuge : lwm2m_context_t → LWM2MDevice → Int := fun _ _ => 2 ^ 30


/-! ## The grace sweeps of a wait, as erasures -/

/-- The nodes of the handles `ks`, erased one after the other. -/
def eraseKeys {κ α : Type} [DecidableEq κ] (ks : List κ) (m : List (κ × α)) : List (κ × α) :=
  ks.foldl obsErase m

/-- The handles the inner loop of deletedObserveParams looks up: those of the
Resources of the Object at position `obj`, from position `j` on. -/
def resKeys (dev obj : Nat) : List LWM2MResource → Nat → List ResKey
  | [], _ => []
  | _ :: rest, j => ⟨dev, obj, j⟩ :: resKeys dev obj rest (j + 1)

/-- The handles deletedObserveParams looks up for the Objects of a Device,
from position `i` on. -/
def objKeys (dev : Nat) : List LWM2MObject → Nat → List ResKey
  | [], _ => []
  | o :: rest, i => resKeys dev i o.m_resVect 0 ++ objKeys dev rest (i + 1)

/-- The handles the loop of checkDeletedDevices looks up: those of the
Resources of the Devices it evicts, in the order of the sweep. -/
def sweptKeys (time : Nat → Int) : Nat → List s_devDel_t → List ResKey
  | _, [] => []
  | k, it :: rest =>
      if it.tot < time k then
        (match it.p_dev with
         | some d => objKeys d.addr d.m_objVect 0
         | none => []) ++ sweptKeys time (k + 1) rest
      else []

/-- The handles the sweeps of a sequence of `runServer()` calls look up. -/
def passKeys (used : List ObsPass) : List ResKey :=
  used.flatMap (fun p => sweptKeys p.time 0 p.m_devDel)

/-- The grace sweeps of a sequence of `runServer()` calls, applied to the
registries in order (the callbacks of the calls left out). -/
def sweepPasses (used : List ObsPass) (r : ObsRegistry) : ObsRegistry :=
  used.foldl (fun acc p => (checkDeletedDevicesLoop p.time 0 p.m_devDel acc).2) r

/-- No grace list of the passes holds a Device at the address `dev`. -/
def GraceFree (dev : Nat) (spins : List ObsPass) : Prop :=
  ∀ p ∈ spins, ∀ e ∈ p.m_devDel, e.p_dev.map (fun d => d.addr) ≠ some dev

/-! ## Example data for sweeps during a wait -/

/-- A deregistered Device at address 9 with one Object /3/0 and its Resource 0. -/
def exDeviceOld : LWM2MDevice := ⟨9, "sensor-02", 2, [⟨3, 0, [⟨0, [6]⟩]⟩]⟩

/-- A `runServer()` call at time 1000 that finds `exDeviceOld` on the grace
list with deadline 900 and makes the given callbacks. -/
def exSweepPass (calls : List ObsCall) : ObsPass :=
  ⟨constTime 1000, [⟨some exDeviceOld, 900⟩], calls⟩

/-- A registry that holds an Entry (at address 200) for the Resource 0 of
`exDeviceOld`. -/
def exRegistryOld : ObsRegistry :=
  { m_obsResMap := [(⟨9, 0, 0⟩, ⟨200, zeroSlot⟩)], m_obsObjMap := [] }

/-- A registry that holds an Entry (at address 100) for the Resource /3/0/0 of
sensor-01, one (at address 200) for the Resource 0 of `exDeviceOld` and one
(at address 101) for the Object /3/0 of sensor-01. -/
def exRegistryBoth : ObsRegistry :=
  { m_obsResMap := [(⟨7, 0, 0⟩, ⟨100, zeroSlot⟩), (⟨9, 0, 0⟩, ⟨200, zeroSlot⟩)],
    m_obsObjMap := [(⟨7, 0⟩, ⟨101, zeroSlot⟩)] }

/-- The library's answer to a Cancel-Observe on /3/0 with status 4.00. -/
def exObjAnswerBad : ObsCall :=
  ObsCall.obj ⟨7, 0⟩ ⟨exDirectory, 1, exUriObj, COAP_400_BAD_REQUEST, 0, [], 0⟩


/-- The result of observe( exObjHandle, true ) on `exRegistryOld`, answered
with `exObjAnswer` in a `runServer()` call whose sweep evicts `exDeviceOld`;
the new Entry is at address 101. -/
def exObjObservedSweep : ObserveResult ObjKey :=
  (observeObj exParse true exContext exRegistryOld (some exObjHandle) true 101 COAP_NO_ERROR
    [exSweepPass [exObjAnswer]]).value

/-- The result of observe( exObjHandle, false ) after `exObjObservedSweep`. -/
def exObjCancelledSweep : ObserveResult ObjKey :=
  (observeObj exParse true exContext exObjObservedSweep.reg (some exObjHandle) false 103
    COAP_NO_ERROR [exQuietPass [exObjAnswer]]).value

/-- The result of observe( exObjHandle, false ) on `exRegistryBoth`, answered
with status 4.00 in a `runServer()` call whose sweep evicts `exDeviceOld`. -/
def exObjCancelFailedSweep : ObserveResult ObjKey :=
  (observeObj exParse true exContext exRegistryBoth (some exObjHandle) false 103 COAP_NO_ERROR
    [exSweepPass [exObjAnswerBad]]).value


/-- A Device object at address 9 that was deregistered under the name
sensor-01 (a client of that name is registered again). -/
def exDeviceStale : LWM2MDevice := ⟨9, "sensor-01", 1, [⟨3, 0, [⟨0, [6]⟩]⟩]⟩

/-- The handle of Resource 0 of Object 0 of `exDeviceStale`. -/
def exStaleHandle : ResHandle :=
  ⟨⟨9, 0, 0⟩, ⟨⟨0, [6]⟩, some ⟨⟨3, 0, [⟨0, [6]⟩]⟩, some exDeviceStale⟩⟩⟩

/-- A `runServer()` call at time 1000 that finds `exDeviceStale` on the grace
list with deadline 900 and makes no callback. -/
def exStalePass : ObsPass := ⟨constTime 1000, [⟨some exDeviceStale, 900⟩], []⟩


/-! ## Theorems -/

/-! ### The directory operations -/

theorem mapFind_mem {m : DevMap} {key : String} {d : LWM2MDevice}
    (h : mapFind m key = some d) : (key, d) ∈ m := by
  induction m with
  | nil => simp [mapFind] at h
  | cons p rest ih =>
    obtain ⟨k, e⟩ := p
    by_cases hk : k = key
    · simp [mapFind, hk] at h
      simp [hk, h]
    · simp [mapFind, hk] at h
      exact List.mem_cons_of_mem _ (ih h)

theorem mapFind_eq_none {m : DevMap} {key : String} (h : key ∉ keys m) :
    mapFind m key = none := by
  induction m with
  | nil => rfl
  | cons p rest ih =>
    obtain ⟨k, e⟩ := p
    simp [keys] at h
    have hk : ¬ k = key := fun hh => h.1 hh.symm
    simp only [mapFind, hk, if_false]
    exact ih (by simpa [keys] using h.2)

theorem mapFind_of_mem {m : DevMap} {key : String} {d : LWM2MDevice}
    (hnd : (keys m).Nodup) (h : (key, d) ∈ m) : mapFind m key = some d := by
  induction m with
  | nil => simp at h
  | cons p rest ih =>
    obtain ⟨k, e⟩ := p
    simp only [keys, List.map_cons, List.nodup_cons] at hnd
    rcases List.mem_cons.mp h with heq | hin
    · cases heq
      simp [mapFind]
    · have hk : ¬ k = key := by
        intro hh
        apply hnd.1
        rw [hh]
        exact List.mem_map_of_mem Prod.fst hin
      simp only [mapFind, hk, if_false]
      exact ih hnd.2 hin

theorem getLWM2MDevice_eq_mapFind (m : DevMap) (key : String) :
    getLWM2MDevice m key = mapFind m key := by
  induction m with
  | nil => rfl
  | cons p rest ih =>
    obtain ⟨k, e⟩ := p
    simp only [getLWM2MDevice, mapFind, ih]

theorem mem_of_mem_mapErase {m : DevMap} {key : String} {p : String × LWM2MDevice}
    (h : p ∈ mapErase m key) : p ∈ m := by
  induction m with
  | nil => simp [mapErase] at h
  | cons q rest ih =>
    obtain ⟨k, e⟩ := q
    by_cases hk : k = key
    · simp only [mapErase, hk, if_true] at h
      exact List.mem_cons_of_mem _ h
    · simp only [mapErase, hk, if_false] at h
      rcases List.mem_cons.mp h with heq | hin
      · simp [heq]
      · exact List.mem_cons_of_mem _ (ih hin)

theorem keys_mapErase_sublist (m : DevMap) (key : String) :
    (keys (mapErase m key)).Sublist (keys m) := by
  induction m with
  | nil => simp [mapErase, keys]
  | cons q rest ih =>
    obtain ⟨k, e⟩ := q
    by_cases hk : k = key
    · simp only [mapErase, hk, if_true, keys, List.map_cons]
      exact List.sublist_cons_self _ _
    · simp only [mapErase, hk, if_false, keys, List.map_cons]
      exact List.Sublist.cons₂ _ ih

theorem nodup_keys_mapErase {m : DevMap} (key : String) (hnd : (keys m).Nodup) :
    (keys (mapErase m key)).Nodup :=
  List.Nodup.sublist (keys_mapErase_sublist m key) hnd

theorem not_mem_keys_mapErase {m : DevMap} (key : String) (hnd : (keys m).Nodup) :
    key ∉ keys (mapErase m key) := by
  induction m with
  | nil => simp [mapErase, keys]
  | cons q rest ih =>
    obtain ⟨k, e⟩ := q
    simp only [keys, List.map_cons, List.nodup_cons] at hnd
    by_cases hk : k = key
    · simp only [mapErase, hk, if_true]
      rw [← hk]
      exact hnd.1
    · simp only [mapErase, hk, if_false, keys, List.map_cons, List.mem_cons, not_or]
      exact ⟨fun hh => hk hh.symm, ih hnd.2⟩

theorem mem_keys_mapErase_of_ne {m : DevMap} {key k : String} (hne : k ≠ key)
    (h : k ∈ keys m) : k ∈ keys (mapErase m key) := by
  induction m with
  | nil => simp [keys] at h
  | cons q rest ih =>
    obtain ⟨k1, e⟩ := q
    by_cases hk : k1 = key
    · simp only [mapErase, hk, if_true]
      simp only [keys, List.map_cons, List.mem_cons] at h
      rcases h with h | h
      · exact absurd (h.trans hk) hne
      · exact h
    · simp only [mapErase, hk, if_false, keys, List.map_cons, List.mem_cons]
      simp only [keys, List.map_cons, List.mem_cons] at h
      rcases h with h | h
      · exact Or.inl h
      · exact Or.inr (ih h)

theorem mem_mapInsert {m : DevMap} {key : String} {v : LWM2MDevice}
    {p : String × LWM2MDevice} (h : p ∈ mapInsert m key v) : p ∈ m ∨ p = (key, v) := by
  induction m with
  | nil =>
    simp only [mapInsert, List.mem_singleton] at h
    exact Or.inr h
  | cons q rest ih =>
    obtain ⟨k, e⟩ := q
    simp only [mapInsert] at h
    split at h
    · rcases List.mem_cons.mp h with heq | hin
      · exact Or.inr heq
      · exact Or.inl hin
    · split at h
      · exact Or.inl h
      · rcases List.mem_cons.mp h with heq | hin
        · exact Or.inl (by simp [heq])
        · rcases ih hin with h1 | h1
          · exact Or.inl (List.mem_cons_of_mem _ h1)
          · exact Or.inr h1

theorem keys_mapInsert_perm {m : DevMap} {key : String} (v : LWM2MDevice)
    (h : key ∉ keys m) : (keys (mapInsert m key v)).Perm (key :: keys m) := by
  induction m with
  | nil => simp [mapInsert, keys]
  | cons q rest ih =>
    obtain ⟨k, e⟩ := q
    simp only [keys, List.map_cons, List.mem_cons, not_or] at h
    simp only [mapInsert]
    split
    · simp [keys]
    · rw [if_neg h.1]
      simp only [keys, List.map_cons]
      exact ((ih h.2).cons k).trans (List.Perm.swap key k _)

theorem mapFind_mapInsert {m : DevMap} {key : String} (v : LWM2MDevice)
    (h : key ∉ keys m) : mapFind (mapInsert m key v) key = some v := by
  induction m with
  | nil => simp [mapInsert, mapFind]
  | cons q rest ih =>
    obtain ⟨k, e⟩ := q
    simp only [keys, List.map_cons, List.mem_cons, not_or] at h
    simp only [mapInsert]
    split
    · simp [mapFind]
    · rw [if_neg h.1]
      have hk : ¬ k = key := fun hh => h.1 hh.symm
      simp only [mapFind, hk, if_false]
      exact ih h.2

theorem findDevByID_mem {m : DevMap} {clientID : Nat} {p : String × LWM2MDevice}
    (h : findDevByID m clientID = some p) : p ∈ m ∧ p.2.getID = clientID := by
  induction m with
  | nil => simp [findDevByID] at h
  | cons q rest ih =>
    obtain ⟨k, e⟩ := q
    by_cases hk : e.getID = clientID
    · simp only [findDevByID, hk, if_true, Option.some.injEq] at h
      subst h
      exact ⟨List.mem_cons_self _ _, hk⟩
    · simp only [findDevByID, hk, if_false] at h
      exact ⟨List.mem_cons_of_mem _ (ih h).1, (ih h).2⟩

/-- When no other directory entry has the internal ID, the scan by ID finds the
entry of the Device that has it. -/
theorem findDevByID_of_unique {m : DevMap} {clientID : Nat} {q : String × LWM2MDevice}
    (hmem : q ∈ m) (hid : q.2.getID = clientID)
    (huniq : ∀ p ∈ m, p.2.getID = clientID → p = q) :
    findDevByID m clientID = some q := by
  induction m with
  | nil => simp at hmem
  | cons r rest ih =>
    obtain ⟨k, e⟩ := r
    by_cases hk : e.getID = clientID
    · simp only [findDevByID, hk, if_true]
      rw [huniq (k, e) (List.mem_cons_self _ _) hk]
    · simp only [findDevByID, hk, if_false]
      rcases List.mem_cons.mp hmem with h1 | h1
      · rw [h1] at hid
        exact absurd hid hk
      · exact ih h1 (fun p hp => huniq p (List.mem_cons_of_mem _ hp))

/-! ### The device built at registration -/

theorem addInstances_name_addr (objId : Nat) (l : List Nat) (d : LWM2MDevice) :
    (addInstances objId l d).m_name = d.m_name ∧ (addInstances objId l d).addr = d.addr := by
  induction l generalizing d with
  | nil => exact ⟨rfl, rfl⟩
  | cons i rest ih =>
    simp only [addInstances]
    exact ih _

theorem addObjects_name_addr (l : List lwm2m_client_object_t) (d : LWM2MDevice) :
    (addObjects l d).m_name = d.m_name ∧ (addObjects l d).addr = d.addr := by
  induction l generalizing d with
  | nil => exact ⟨rfl, rfl⟩
  | cons o rest ih =>
    simp only [addObjects]
    exact ⟨(ih _).1.trans (addInstances_name_addr _ _ _).1,
      (ih _).2.trans (addInstances_name_addr _ _ _).2⟩

theorem newDevice_getName (newAddr : Nat) (targetP : lwm2m_client_t) :
    (newDevice newAddr targetP).getName = targetP.name :=
  (addObjects_name_addr _ _).1

theorem newDevice_addr (newAddr : Nat) (targetP : lwm2m_client_t) :
    (newDevice newAddr targetP).addr = newAddr :=
  (addObjects_name_addr _ _).2

/-! ### Registration, replacement, deregistration (monitorCb) -/

theorem not_mem_keys_of_mapFind_none {m : DevMap} {key : String}
    (h : mapFind m key = none) : key ∉ keys m := by
  induction m with
  | nil => simp [keys]
  | cons q rest ih =>
    obtain ⟨k, e⟩ := q
    by_cases hk : k = key
    · simp [mapFind, hk] at h
    · simp only [mapFind, hk, if_false] at h
      simp only [keys, List.map_cons, List.mem_cons, not_or]
      exact ⟨fun hh => hk hh.symm, ih h⟩

theorem addr_mem_liveAddrs {s : LWM2MServer} {p : String × LWM2MDevice}
    (h : p ∈ s.m_devMap) : p.2.addr ∈ liveAddrs s := by
  unfold liveAddrs
  exact List.mem_append_left _ (List.mem_map_of_mem (fun p => p.2.addr) h)

theorem monitorCb_changed_eq (devNameSize : Nat)
    (getLifetime : lwm2m_context_t → LWM2MDevice → Int)
    (s : LWM2MServer) (lwm2mH : lwm2m_context_t) (clientID : Nat) (now : Int) (newAddr : Nat) :
    monitorCb devNameSize getLifetime s lwm2mH clientID COAP_204_CHANGED now newAddr = s := by
  simp [monitorCb, COAP_204_CHANGED, COAP_201_CREATED, COAP_202_DELETED]

/-- C7: at a server whose directory holds the Device of client 1, a monitoring
callback with status COAP_204_CHANGED for client 1 leaves the server as it was:
the lifecycle queue stays empty and holds no Updated event. -/
theorem monitorCb_changed_pushes_no_event :
    monitorCb 32 exLifetime exServer exContext 1 COAP_204_CHANGED 1000 8 = exServer
    ∧ (monitorCb 32 exLifetime exServer exContext 1 COAP_204_CHANGED 1000 8).m_devEv = []
    ∧ (⟨⟨strncpy "sensor-01" 32⟩, e_lwm2m_serverobserver_event_update⟩ : s_devEvent_t) ∉
        (monitorCb 32 exLifetime exServer exContext 1 COAP_204_CHANGED 1000 8).m_devEv := by
  rw [monitorCb_changed_eq]
  decide

/-! ### The directory invariant -/

theorem dirInv_mapErase {m : DevMap} (key : String) (h : DirInv m) :
    DirInv (mapErase m key) :=
  ⟨nodup_keys_mapErase key h.1, fun p hp => h.2 p (mem_of_mem_mapErase hp)⟩

theorem dirInv_mapInsert {m : DevMap} {d : LWM2MDevice} (h : DirInv m)
    (hkey : d.getName ∉ keys m) : DirInv (mapInsert m d.getName d) := by
  constructor
  · have hp := keys_mapInsert_perm d hkey
    exact (List.Perm.nodup_iff hp).mpr (List.nodup_cons.mpr ⟨hkey, h.1⟩)
  · intro p hp
    rcases mem_mapInsert hp with h1 | h1
    · exact h.2 p h1
    · rw [h1]

theorem monitorCb_devMap_created_some
    (devNameSize : Nat) (getLifetime : lwm2m_context_t → LWM2MDevice → Int)
    (s : LWM2MServer) (lwm2mH : lwm2m_context_t) (clientID : Nat) (now : Int) (newAddr : Nat)
    (targetP : lwm2m_client_t)
    (hcli : lwm2m_list_find lwm2mH.clientList clientID = some targetP) :
    (monitorCb devNameSize getLifetime s lwm2mH clientID COAP_201_CREATED now newAddr).m_devMap
      = mapInsert
          (match mapFind s.m_devMap targetP.name with
            | some _ => mapErase s.m_devMap targetP.name
            | none => s.m_devMap)
          (newDevice newAddr targetP).getName (newDevice newAddr targetP) := by
  cases hf : mapFind s.m_devMap targetP.name <;>
    simp [monitorCb, hcli, hf, moveToDeleted]

theorem monitorCb_preserves_dirInv
    (devNameSize : Nat) (getLifetime : lwm2m_context_t → LWM2MDevice → Int)
    (s : LWM2MServer) (lwm2mH : lwm2m_context_t) (clientID : Nat) (status : Int) (now : Int)
    (newAddr : Nat) (h : DirInv s.m_devMap) :
    DirInv (monitorCb devNameSize getLifetime s lwm2mH clientID status now newAddr).m_devMap := by
  by_cases h1 : status = COAP_201_CREATED
  · subst h1
    cases hcli : lwm2m_list_find lwm2mH.clientList clientID with
    | none => simpa [monitorCb, hcli] using h
    | some targetP =>
      rw [monitorCb_devMap_created_some _ _ _ _ _ _ _ _ hcli]
      cases hf : mapFind s.m_devMap targetP.name with
      | none =>
        apply dirInv_mapInsert h
        rw [newDevice_getName]
        exact not_mem_keys_of_mapFind_none hf
      | some d =>
        apply dirInv_mapInsert (dirInv_mapErase _ h)
        rw [newDevice_getName]
        exact not_mem_keys_mapErase _ h.1
  · by_cases h2 : status = COAP_202_DELETED
    · subst h2
      cases hf : findDevByID s.m_devMap clientID with
      | none => simpa [monitorCb, hf, h1] using h
      | some p =>
        obtain ⟨k, d⟩ := p
        simp only [monitorCb, h1, if_false, if_true, hf, moveToDeleted]
        exact dirInv_mapErase _ h
    · simpa [monitorCb, h1, h2] using h

theorem runMonitor_preserves_dirInv
    (devNameSize : Nat) (getLifetime : lwm2m_context_t → LWM2MDevice → Int)
    (calls : List MonitorCall) (s : LWM2MServer) (h : DirInv s.m_devMap) :
    DirInv (runMonitor devNameSize getLifetime s calls).m_devMap := by
  induction calls generalizing s with
  | nil => exact h
  | cons c rest ih =>
    simp only [runMonitor]
    exact ih _ (monitorCb_preserves_dirInv _ _ _ _ _ _ _ _ h)

theorem dirInv_empty : DirInv LWM2MServer.empty.m_devMap :=
  ⟨List.nodup_nil, fun _ hp => absurd hp (List.not_mem_nil _)⟩

/-- C8: in every state reached from the empty server by a sequence of
monitoring callbacks (of any status), every directory entry (k, D) satisfies
D.getName() = k, and the lookup getLWM2MDevice of D's name returns D. -/
theorem directory_entry_keyed_by_name
    (devNameSize : Nat) (getLifetime : lwm2m_context_t → LWM2MDevice → Int)
    (calls : List MonitorCall) (k : String) (D : LWM2MDevice)
    (h : (k, D) ∈ (runMonitor devNameSize getLifetime LWM2MServer.empty calls).m_devMap) :
    D.getName = k
    ∧ getLWM2MDevice (runMonitor devNameSize getLifetime LWM2MServer.empty calls).m_devMap
        D.getName = some D := by
  have hinv := runMonitor_preserves_dirInv devNameSize getLifetime calls _ dirInv_empty
  have hk : D.getName = k := hinv.2 _ h
  refine ⟨hk, ?_⟩
  rw [getLWM2MDevice_eq_mapFind, hk]
  exact mapFind_of_mem hinv.1 h

/-- The directory entry made by the registration of sensor-01 at the empty
server. -/
theorem directory_entry_keyed_by_name_witness :
    exDevice.getName = "sensor-01"
    ∧ getLWM2MDevice (runMonitor 32 exLifetime LWM2MServer.empty
        [⟨exContext, 1, COAP_201_CREATED, 1000, 7⟩]).m_devMap exDevice.getName = some exDevice :=
  directory_entry_keyed_by_name 32 exLifetime [⟨exContext, 1, COAP_201_CREATED, 1000, 7⟩]
    "sensor-01" exDevice (by decide)

/-! ### Event fan-out -/

theorem notifyObservers_eq (os : List Nat) (param : s_lwm2m_serverobserver_event_param_t)
    (ev : e_lwm2m_serverobserver_event_t) (log : List ServerNotify) :
    notifyObservers os param ev log = log ++ os.map (fun o => ⟨o, param, ev⟩) := by
  induction os generalizing log with
  | nil => simp [notifyObservers]
  | cons o rest ih => simp [notifyObservers, ih]

theorem checkEventsLoop_eq (os : List Nat) (q : List s_devEvent_t) (log : List ServerNotify) :
    checkEventsLoop os q log = ([], log ++ fifoDeliveries q os) := by
  induction q generalizing log with
  | nil => simp [checkEventsLoop, fifoDeliveries]
  | cons ev rest ih =>
    simp only [checkEventsLoop, ih, notifyObservers_eq]
    simp [fifoDeliveries]

/-- C10: for every lifecycle queue content and observer list, checkEvents
leaves the queue empty, changes nothing else of the server, and makes exactly
the notify calls of the FIFO rule after those made before: each event of the
queue to every observer, events in queue order, observers in registration
order within one event. -/
theorem checkEvents_delivers_fifo (s : LWM2MServer) (log : List ServerNotify) :
    checkEvents s log
      = ({ s with m_devEv := [] }, log ++ fifoDeliveries s.m_devEv s.m_vectObs) := by
  simp [checkEvents, checkEventsLoop_eq]

/-! ### Blocking and non-blocking read and write -/

theorem writeEpilogue_zero (p : s_lwm2m_obsparams_t) : writeEpilogue 0 p = ⟨0, p⟩ := by
  unfold writeEpilogue
  split <;> rfl

/-- Every blocking write whose submission is accepted and whose wait loop ends
returns 0, whatever the terminal status. -/
theorem write_blocking_accepted_ret
    (lwm2m_data_parse : lwm2m_uri_t → List Nat → Int → Nat → List lwm2m_data_t)
    (lwm2mH : lwm2m_context_t) (r : ResourcePtr) (val : String) (spins : List (List DmCall))
    (t : lwm2m_client_t × lwm2m_uri_t) (p2 : s_lwm2m_obsparams_t)
    (hres : resolveTarget true lwm2mH r = some t)
    (hwait : waitLoop lwm2m_data_parse spins { zeroSlot with status := NO_ERROR }
      = Outcome.returns p2) :
    write lwm2m_data_parse true lwm2mH (some r) val none COAP_NO_ERROR spins
      = Outcome.returns ⟨0, p2⟩ := by
  simp [write, hres, hwait, writeEpilogue_zero]

/-- C1: a blocking write of "X" to resource /3/0/0 of the registered device
sensor-01, accepted by the library and answered with COAP_400_BAD_REQUEST,
returns 0 (not a negative value); the slot ends with status
COAP_400_BAD_REQUEST. -/
theorem write_blocking_bad_request_returns_zero :
    write exParse true exContext (some exResPtr) "X" none COAP_NO_ERROR [[exBadRequest]]
      = Outcome.returns
          ⟨0, ⟨1, some exUri, COAP_400_BAD_REQUEST, 0, none, 0, some [], 0⟩⟩ := by
  decide

/-- The return value of a blocking read whose submission is accepted and whose
wait loop ends with the slot `p2`. -/
theorem read_blocking_accepted_ret
    (lwm2m_data_parse : lwm2m_uri_t → List Nat → Int → Nat → List lwm2m_data_t)
    (lwm2mH : lwm2m_context_t) (r : ResourcePtr) (spins : List (List DmCall))
    (t : lwm2m_client_t × lwm2m_uri_t) (p2 : s_lwm2m_obsparams_t)
    (hres : resolveTarget true lwm2mH r = some t)
    (hwait : waitLoop lwm2m_data_parse spins { zeroSlot with status := NO_ERROR }
      = Outcome.returns p2) :
    read lwm2m_data_parse true lwm2mH (some r) none COAP_NO_ERROR spins
      = Outcome.returns
          (if p2.status = CONTENT_2_05 then ⟨toInt8 p2.dataLen, some p2.data, p2⟩
           else ⟨-1, none, p2⟩) := by
  by_cases h : p2.status = CONTENT_2_05 <;> simp [read, hres, hwait, h]

/-- The conversion to `int8_t` keeps the values 0 to 127. -/
theorem toInt8_of_small (x : Int) (h0 : 0 ≤ x) (h1 : x < 128) : toInt8 x = x := by
  unfold toInt8
  omega

set_option maxRecDepth 100000 in
/-- C2: a blocking read of resource /3/0/0 of the registered device
sensor-01, accepted by the library and answered with CONTENT_2_05 and a
payload parsed into 128 elements, ends with status CONTENT_2_05 and parsed
length 128 in the slot and returns -128: a negative value, not the length. -/
theorem read_blocking_length_128_returns_negative :
    ∃ res : ReadResult,
      read exParse true exContext (some exResPtr) none COAP_NO_ERROR [[exContent128]]
        = Outcome.returns res
      ∧ res.slot.status = CONTENT_2_05 ∧ res.slot.dataLen = 128 ∧ res.ret = -128 := by
  refine ⟨_, read_blocking_accepted_ret exParse exContext exResPtr [[exContent128]]
    (exClient, exUri) ⟨1, some exUri, COAP_205_CONTENT, 0,
      some ⟨exParse exUri (List.replicate 128 0) 128 0, 0⟩, 128, some (List.replicate 128 0), 128⟩
    (by decide) (by decide), ?_, ?_, ?_⟩ <;> decide

/-- C3, as stated, fails: a non-blocking read with a caller's slot whose status
is CHANGED_2_04, rejected by the library with COAP_404_NOT_FOUND, returns -1
and leaves the slot with status NO_ERROR, not with its status before the call. -/
theorem read_rejected_overwrites_status :
    read exParse true exContext (some exResPtr) (some exUsedSlot) COAP_404_NOT_FOUND []
      = Outcome.returns ⟨-1, none, { exUsedSlot with status := NO_ERROR }⟩
    ∧ exUsedSlot.status = CHANGED_2_04
    ∧ ({ exUsedSlot with status := NO_ERROR } : s_lwm2m_obsparams_t).status = NO_ERROR
    ∧ ({ exUsedSlot with status := NO_ERROR } : s_lwm2m_obsparams_t) ≠ exUsedSlot := by
  decide

/-- C3, amended: for every read or write called with a caller-supplied slot,
if the request is submitted and the library rejects it (the result of
lwm2m_dm_read / lwm2m_dm_write differs from COAP_NO_ERROR) then the call
returns -1, a negative value, and the slot is as before the call except for
its status, which is NO_ERROR. -/
theorem read_write_rejected_slot
    (lwm2m_data_parse : lwm2m_uri_t → List Nat → Int → Nat → List lwm2m_data_t)
    (lwm2mH : lwm2m_context_t) (r : ResourcePtr) (val : String)
    (p : s_lwm2m_obsparams_t) (lwm2mRet : Int) (spins : List (List DmCall))
    (t : lwm2m_client_t × lwm2m_uri_t)
    (hres : resolveTarget true lwm2mH r = some t)
    (hrej : lwm2mRet ≠ COAP_NO_ERROR) :
    read lwm2m_data_parse true lwm2mH (some r) (some p) lwm2mRet spins
      = Outcome.returns ⟨-1, none, { p with status := NO_ERROR }⟩
    ∧ write lwm2m_data_parse true lwm2mH (some r) val (some p) lwm2mRet spins
      = Outcome.returns ⟨-1, { p with status := NO_ERROR }⟩
    ∧ (-1 : Int) < 0 := by
  refine ⟨?_, ?_, by decide⟩
  · simp [read, hres, hrej]
  · simp [write, hres, hrej, writeEpilogue, NO_ERROR, CHANGED_2_04]

/-- A read and a write on /3/0/0 with a used slot, rejected with
COAP_404_NOT_FOUND. -/
theorem read_write_rejected_slot_witness :
    read exParse true exContext (some exResPtr) (some exUsedSlot) COAP_404_NOT_FOUND []
      = Outcome.returns ⟨-1, none, { exUsedSlot with status := NO_ERROR }⟩
    ∧ write exParse true exContext (some exResPtr) "X" (some exUsedSlot) COAP_404_NOT_FOUND []
      = Outcome.returns ⟨-1, { exUsedSlot with status := NO_ERROR }⟩
    ∧ (-1 : Int) < 0 :=
  read_write_rejected_slot exParse exContext exResPtr "X" exUsedSlot COAP_404_NOT_FOUND []
    (exClient, exUri) (by decide) (by decide)

/-! ### Alternation of Registered and Deregistered events -/

theorem strncpy_of_length_le {name : String} {size : Nat} (h : name.length ≤ size) :
    strncpy name size = name.toList := by
  unfold strncpy
  exact List.take_of_length_le h

theorem toList_injective {a b : String} (h : a.toList = b.toList) : a = b := by
  cases a
  cases b
  simp_all [String.toList]

theorem otherKind_otherKind (k : e_lwm2m_serverobserver_event_t) :
    otherKind (otherKind k) = k := by
  cases k <;> rfl

theorem alternatesFrom_append_singleton (first k : e_lwm2m_serverobserver_event_t)
    (l : List e_lwm2m_serverobserver_event_t) :
    alternatesFrom first (l ++ [k])
      = (alternatesFrom first l &&
          decide (k = if l.length % 2 = 0 then first else otherKind first)) := by
  induction l generalizing first with
  | nil => simp [alternatesFrom]
  | cons a rest ih =>
    show (decide (a = first) && alternatesFrom (otherKind first) (rest ++ [k]))
      = ((decide (a = first) && alternatesFrom (otherKind first) rest) &&
          decide (k = if (rest.length + 1) % 2 = 0 then first else otherKind first))
    rw [ih (otherKind first), Bool.and_assoc]
    rcases Nat.mod_two_eq_zero_or_one rest.length with h | h
    · have h1 : (rest.length + 1) % 2 = 1 := by omega
      simp [h, h1]
    · have h1 : (rest.length + 1) % 2 = 0 := by omega
      simp [h, h1, otherKind_otherKind]

theorem regDeregKinds_append_singleton (dn : List Char) (q : List s_devEvent_t)
    (ev : s_devEvent_t) :
    regDeregKinds dn (q ++ [ev])
      = regDeregKinds dn q ++
          (if ev.param.devName = dn ∧
              (ev.event = e_lwm2m_serverobserver_event_register ∨
               ev.event = e_lwm2m_serverobserver_event_deregister)
           then [ev.event] else []) := by
  unfold regDeregKinds
  rw [List.filter_append, List.map_append]
  congr 1
  by_cases h : ev.param.devName = dn ∧
      (ev.event = e_lwm2m_serverobserver_event_register ∨
       ev.event = e_lwm2m_serverobserver_event_deregister)
  · rw [if_pos h, List.filter_cons_of_pos (by simpa using h)]
    rfl
  · rw [if_neg h, List.filter_cons_of_neg (by simpa using h)]
    rfl

theorem histInv_register {size : Nat} {s : LWM2MServer} (d : LWM2MDevice)
    (h : HistInv size s) (hlen : d.getName.length ≤ size)
    (hkey : d.getName ∉ keys s.m_devMap) :
    HistInv size
      { s with
        m_devMap := mapInsert s.m_devMap d.getName d
        m_devEv := s.m_devEv ++
          [mkEvent size d.getName e_lwm2m_serverobserver_event_register] } := by
  obtain ⟨hdir, hlens, hhist⟩ := h
  have hperm := keys_mapInsert_perm d hkey
  refine ⟨dirInv_mapInsert hdir hkey, ?_, ?_⟩
  · intro k hk
    rcases List.mem_cons.mp (hperm.subset hk) with h1 | h1
    · rw [h1]
      exact hlen
    · exact hlens k h1
  · intro dn
    obtain ⟨halt, hopen⟩ := hhist dn
    simp only [regDeregKinds_append_singleton, mkEvent, strncpy_of_length_le hlen]
    by_cases hdn : d.getName.toList = dn
    · have hnone : ¬ ∃ k ∈ keys s.m_devMap, k.toList = dn := by
        rintro ⟨k, hk, hkd⟩
        apply hkey
        rw [← toList_injective (hkd.trans hdn.symm)]
        exact hk
      have hev : (regDeregKinds dn s.m_devEv).length % 2 = 0 := by
        rcases Nat.mod_two_eq_zero_or_one (regDeregKinds dn s.m_devEv).length with h0 | h1
        · exact h0
        · exact absurd (hopen.mp h1) hnone
      rw [if_pos ⟨hdn, Or.inl trivial⟩, alternatesFrom_append_singleton, halt, hev]
      refine ⟨by simp, ?_⟩
      constructor
      · intro _
        exact ⟨d.getName, hperm.symm.subset (List.mem_cons_self _ _), hdn⟩
      · intro _
        rw [List.length_append, List.length_singleton]
        omega
    · rw [if_neg (fun hh => hdn hh.1), List.append_nil]
      refine ⟨halt, hopen.trans ?_⟩
      constructor
      · rintro ⟨k, hk, hkd⟩
        exact ⟨k, hperm.symm.subset (List.mem_cons_of_mem _ hk), hkd⟩
      · rintro ⟨k, hk, hkd⟩
        rcases List.mem_cons.mp (hperm.subset hk) with h1 | h1
        · exact absurd (h1 ▸ hkd) hdn
        · exact ⟨k, h1, hkd⟩

theorem histInv_moveToDeleted {size : Nat} {s : LWM2MServer}
    (getLifetime : lwm2m_context_t → LWM2MDevice → Int) (lwm2mH : lwm2m_context_t) (now : Int)
    {key : String} {d : LWM2MDevice}
    (h : HistInv size s) (hmem : (key, d) ∈ s.m_devMap) :
    HistInv size (moveToDeleted size getLifetime lwm2mH now s key d) := by
  obtain ⟨hdir, hlens, hhist⟩ := h
  have hname : d.getName = key := hdir.2 _ hmem
  have hkeymem : key ∈ keys s.m_devMap := List.mem_map_of_mem Prod.fst hmem
  have hlen : key.length ≤ size := hlens key hkeymem
  have hsub := keys_mapErase_sublist s.m_devMap key
  refine ⟨dirInv_mapErase key hdir, fun k hk => hlens k (hsub.subset hk), ?_⟩
  intro dn
  obtain ⟨halt, hopen⟩ := hhist dn
  simp only [moveToDeleted, regDeregKinds_append_singleton, mkEvent, hname,
    strncpy_of_length_le hlen]
  by_cases hdn : key.toList = dn
  · have hodd : (regDeregKinds dn s.m_devEv).length % 2 = 1 := hopen.mpr ⟨key, hkeymem, hdn⟩
    rw [if_pos ⟨hdn, Or.inr trivial⟩, alternatesFrom_append_singleton, halt, hodd]
    refine ⟨by simp [otherKind], ?_⟩
    constructor
    · intro hh
      rw [List.length_append, List.length_singleton] at hh
      omega
    · rintro ⟨k, hk, hkd⟩
      have : k = key := toList_injective (hkd.trans hdn.symm)
      rw [this] at hk
      exact absurd hk (not_mem_keys_mapErase key hdir.1)
  · rw [if_neg (fun hh => hdn hh.1), List.append_nil]
    refine ⟨halt, hopen.trans ?_⟩
    constructor
    · rintro ⟨k, hk, hkd⟩
      have hne : k ≠ key := fun hh => hdn (hh ▸ hkd)
      exact ⟨k, mem_keys_mapErase_of_ne hne hk, hkd⟩
    · rintro ⟨k, hk, hkd⟩
      exact ⟨k, hsub.subset hk, hkd⟩

theorem monitorCb_preserves_histInv
    (devNameSize : Nat) (getLifetime : lwm2m_context_t → LWM2MDevice → Int)
    (s : LWM2MServer) (lwm2mH : lwm2m_context_t) (clientID : Nat) (status : Int) (now : Int)
    (newAddr : Nat) (h : HistInv devNameSize s)
    (hnames : ∀ t, lwm2m_list_find lwm2mH.clientList clientID = some t →
      t.name.length ≤ devNameSize) :
    HistInv devNameSize
      (monitorCb devNameSize getLifetime s lwm2mH clientID status now newAddr) := by
  by_cases h1 : status = COAP_201_CREATED
  · subst h1
    cases hcli : lwm2m_list_find lwm2mH.clientList clientID with
    | none => simpa [monitorCb, hcli] using h
    | some targetP =>
      have hlen : (newDevice newAddr targetP).getName.length ≤ devNameSize := by
        rw [newDevice_getName]
        exact hnames _ hcli
      cases hf : mapFind s.m_devMap targetP.name with
      | none =>
        have hkey : (newDevice newAddr targetP).getName ∉ keys s.m_devMap := by
          rw [newDevice_getName]
          exact not_mem_keys_of_mapFind_none hf
        simpa [monitorCb, hcli, hf] using histInv_register _ h hlen hkey
      | some d =>
        have h2 := histInv_moveToDeleted getLifetime lwm2mH now h (mapFind_mem hf)
        have hkey : (newDevice newAddr targetP).getName ∉
            keys (moveToDeleted devNameSize getLifetime lwm2mH now s targetP.name d).m_devMap := by
          rw [newDevice_getName]
          exact not_mem_keys_mapErase _ h.1.1
        simpa [monitorCb, hcli, hf] using histInv_register _ h2 hlen hkey
  · by_cases h2 : status = COAP_202_DELETED
    · subst h2
      cases hf : findDevByID s.m_devMap clientID with
      | none => simpa [monitorCb, hf, h1] using h
      | some p =>
        obtain ⟨k, d⟩ := p
        simpa [monitorCb, h1, hf] using
          histInv_moveToDeleted getLifetime lwm2mH now h (findDevByID_mem hf).1
    · simpa [monitorCb, h1, h2] using h

theorem runMonitor_preserves_histInv
    (devNameSize : Nat) (getLifetime : lwm2m_context_t → LWM2MDevice → Int)
    (calls : List MonitorCall) (s : LWM2MServer) (h : HistInv devNameSize s)
    (hnames : ∀ c ∈ calls, ∀ t, lwm2m_list_find c.lwm2mH.clientList c.clientID = some t →
      t.name.length ≤ devNameSize) :
    HistInv devNameSize (runMonitor devNameSize getLifetime s calls) := by
  induction calls generalizing s with
  | nil => exact h
  | cons c rest ih =>
    simp only [runMonitor]
    apply ih
    · exact monitorCb_preserves_histInv _ _ _ _ _ _ _ _ h
        (hnames c (List.mem_cons_self _ _))
    · intro c1 hc1
      exact hnames c1 (List.mem_cons_of_mem _ hc1)

theorem histInv_empty (size : Nat) : HistInv size LWM2MServer.empty := by
  refine ⟨dirInv_empty, ?_, ?_⟩
  · intro k hk
    simp [LWM2MServer.empty, keys] at hk
  · intro dn
    simp [LWM2MServer.empty, keys, regDeregKinds, alternatesFrom]

/-- C9, as stated, fails: with a devName buffer of 16 bytes, the registration
of the clients temperature-sensor-01 and temperature-sensor-02 pushes two
Registered events with the same devName value (the first 16 characters) and no
Deregistered event between them. -/
theorem registered_twice_with_one_devName :
    (runMonitor 16 exLifetime LWM2MServer.empty exCallsLongNames).m_devEv
      = [⟨⟨"temperature-sens".toList⟩, e_lwm2m_serverobserver_event_register⟩,
         ⟨⟨"temperature-sens".toList⟩, e_lwm2m_serverobserver_event_register⟩]
    ∧ alternatesFrom e_lwm2m_serverobserver_event_register
        (regDeregKinds "temperature-sens".toList
          (runMonitor 16 exLifetime LWM2MServer.empty exCallsLongNames).m_devEv) = false := by
  decide

/-- The same happens for every size of the devName buffer: two clients whose
names agree on the first `n` characters and differ after them are registered
with the same devName value. -/
theorem registered_twice_for_every_buffer_size (n : Nat)
    (getLifetime : lwm2m_context_t → LWM2MDevice → Int) :
    alternatesFrom e_lwm2m_serverobserver_event_register
      (regDeregKinds (List.replicate n 'a')
        (runMonitor n getLifetime LWM2MServer.empty (longNamesCalls n)).m_devEv) = false := by
  have hne : String.mk (List.replicate n 'a' ++ ['1']) ≠ String.mk (List.replicate n 'a' ++ ['2']) := by
    intro h
    have h1 := congrArg String.toList h
    simp [String.toList] at h1
  have hcp : ∀ c : Char, strncpy (String.mk (List.replicate n 'a' ++ [c])) n = List.replicate n 'a' := by
    intro c
    simp [strncpy, String.toList, List.take_append_eq_append_take]
  simp [longNamesCalls, longNamesContext, runMonitor, monitorCb, lwm2m_list_find,
    LWM2MServer.empty, mapFind, mapInsert, newDevice_getName, mkEvent, hcp, hne,
    regDeregKinds, alternatesFrom, otherKind]

/-- C9, amended: for every sequence of monitoring callbacks applied to an
initially empty server in which the name of every client a callback is for
fits the devName buffer (at most sizeof(devName) characters), and for every
devName value, the Registered and Deregistered events pushed to the lifecycle
queue with that devName alternate between the two kinds and begin with
Registered. -/
theorem registered_deregistered_alternate
    (devNameSize : Nat) (getLifetime : lwm2m_context_t → LWM2MDevice → Int)
    (calls : List MonitorCall) (devName : List Char)
    (hnames : ∀ c ∈ calls, ∀ t, lwm2m_list_find c.lwm2mH.clientList c.clientID = some t →
      t.name.length ≤ devNameSize) :
    alternatesFrom e_lwm2m_serverobserver_event_register
      (regDeregKinds devName
        (runMonitor devNameSize getLifetime LWM2MServer.empty calls).m_devEv) = true :=
  ((runMonitor_preserves_histInv devNameSize getLifetime calls _ (histInv_empty devNameSize)
    hnames).2.2 devName).1

/-- The history of sensor-01 over a registration, a replacement and a
deregistration, with a buffer of 32 bytes. -/
theorem registered_deregistered_alternate_witness :
    alternatesFrom e_lwm2m_serverobserver_event_register
      (regDeregKinds "sensor-01".toList
        (runMonitor 32 exLifetime LWM2MServer.empty
          [⟨exContext, 1, COAP_201_CREATED, 1000, 7⟩, ⟨exContext, 1, COAP_201_CREATED, 1010, 8⟩,
           ⟨exContext, 1, COAP_202_DELETED, 1020, 9⟩]).m_devEv) = true :=
  registered_deregistered_alternate 32 exLifetime
    [⟨exContext, 1, COAP_201_CREATED, 1000, 7⟩, ⟨exContext, 1, COAP_201_CREATED, 1010, 8⟩,
     ⟨exContext, 1, COAP_202_DELETED, 1020, 9⟩] "sensor-01".toList (by decide)

/-! ### The directory stays in key order -/

theorem strLess_trans {a b c : List Char} (hab : strLess a b = true) (hbc : strLess b c = true) :
    strLess a c = true := by
  induction a generalizing b c with
  | nil =>
    cases b with
    | nil => simp [strLess] at hab
    | cons y ys =>
      cases c with
      | nil => simp [strLess] at hbc
      | cons z zs => simp [strLess]
  | cons x xs ih =>
    cases b with
    | nil => simp [strLess] at hab
    | cons y ys =>
      cases c with
      | nil => simp [strLess] at hbc
      | cons z zs =>
        simp only [strLess] at hab hbc ⊢
        by_cases h1 : x.toNat < y.toNat
        · by_cases h2 : y.toNat < z.toNat
          · have : x.toNat < z.toNat := by omega
            simp [this]
          · by_cases h3 : z.toNat < y.toNat
            · simp [h2, h3] at hbc
            · have : x.toNat < z.toNat := by omega
              simp [this]
        · by_cases h1b : y.toNat < x.toNat
          · simp [h1, h1b] at hab
          · simp only [h1, h1b, if_false] at hab
            by_cases h2 : y.toNat < z.toNat
            · have : x.toNat < z.toNat := by omega
              simp [this]
            · by_cases h3 : z.toNat < y.toNat
              · simp [h2, h3] at hbc
              · simp only [h2, h3, if_false] at hbc
                have h4 : ¬ x.toNat < z.toNat := by omega
                have h5 : ¬ z.toNat < x.toNat := by omega
                simp only [h4, h5, if_false]
                exact ih hab hbc

theorem strLess_total {a b : List Char} (h1 : strLess a b = false) (h2 : a ≠ b) :
    strLess b a = true := by
  induction a generalizing b with
  | nil =>
    cases b with
    | nil => exact absurd rfl h2
    | cons y ys => simp [strLess] at h1
  | cons x xs ih =>
    cases b with
    | nil => simp [strLess]
    | cons y ys =>
      simp only [strLess] at h1 ⊢
      by_cases hxy : x.toNat < y.toNat
      · simp [hxy] at h1
      · by_cases hyx : y.toNat < x.toNat
        · simp [hyx]
        · simp only [hxy, hyx, if_false] at h1 ⊢
          have hn : x.toNat = y.toNat := by omega
          have hc : x = y := Char.eq_of_val_eq (UInt32.toNat.inj hn)
          apply ih h1
          intro hh
          exact h2 (by rw [hc, hh])

theorem sortedKeys_mapErase {m : DevMap} (key : String) (h : SortedKeys m) :
    SortedKeys (mapErase m key) :=
  List.Pairwise.sublist (keys_mapErase_sublist m key) h

theorem sortedKeys_mapInsert {m : DevMap} (key : String) (v : LWM2MDevice)
    (h : SortedKeys m) : SortedKeys (mapInsert m key v) := by
  induction m with
  | nil => simp [mapInsert, SortedKeys, keys]
  | cons q rest ih =>
    obtain ⟨k, e⟩ := q
    have hrest : SortedKeys rest := (List.pairwise_cons.mp h).2
    have hk : ∀ a ∈ keys rest, strLess k.toList a.toList = true := (List.pairwise_cons.mp h).1
    simp only [mapInsert]
    by_cases h1 : strLess key.toList k.toList = true
    · rw [if_pos h1]
      refine List.pairwise_cons.mpr ⟨?_, h⟩
      intro a ha
      rcases List.mem_cons.mp ha with h2 | h2
      · rw [h2]
        exact h1
      · exact strLess_trans h1 (hk a h2)
    · rw [if_neg h1]
      by_cases h2 : key = k
      · rw [if_pos h2]
        exact h
      · rw [if_neg h2]
        have hlt : strLess k.toList key.toList = true :=
          strLess_total (by simpa using h1) (fun hh => h2 (toList_injective hh))
        refine List.pairwise_cons.mpr ⟨?_, ih hrest⟩
        intro a ha
        obtain ⟨p, hp, hpa⟩ := List.mem_map.mp ha
        rcases mem_mapInsert hp with h3 | h3
        · rw [← hpa]
          exact hk _ (List.mem_map_of_mem Prod.fst h3)
        · rw [← hpa, h3]
          exact hlt

/-- Every monitoring callback keeps the directory in increasing key order, so
the scans from `begin()` visit the devices in the order of `std::map`. -/
theorem monitorCb_preserves_sortedKeys
    (devNameSize : Nat) (getLifetime : lwm2m_context_t → LWM2MDevice → Int)
    (s : LWM2MServer) (lwm2mH : lwm2m_context_t) (clientID : Nat) (status : Int) (now : Int)
    (newAddr : Nat) (h : SortedKeys s.m_devMap) :
    SortedKeys
      (monitorCb devNameSize getLifetime s lwm2mH clientID status now newAddr).m_devMap := by
  by_cases h1 : status = COAP_201_CREATED
  · subst h1
    cases hcli : lwm2m_list_find lwm2mH.clientList clientID with
    | none => simpa [monitorCb, hcli] using h
    | some targetP =>
      rw [monitorCb_devMap_created_some _ _ _ _ _ _ _ _ hcli]
      apply sortedKeys_mapInsert
      cases hf : mapFind s.m_devMap targetP.name with
      | none => exact h
      | some d => exact sortedKeys_mapErase _ h
  · by_cases h2 : status = COAP_202_DELETED
    · subst h2
      cases hf : findDevByID s.m_devMap clientID with
      | none => simpa [monitorCb, hf, h1] using h
      | some p =>
        obtain ⟨k, d⟩ := p
        simp only [monitorCb, h1, if_false, if_true, hf, moveToDeleted]
        exact sortedKeys_mapErase _ h
    · simpa [monitorCb, h1, h2] using h

theorem runMonitor_sortedKeys
    (devNameSize : Nat) (getLifetime : lwm2m_context_t → LWM2MDevice → Int)
    (calls : List MonitorCall) (s : LWM2MServer) (h : SortedKeys s.m_devMap) :
    SortedKeys (runMonitor devNameSize getLifetime s calls).m_devMap := by
  induction calls generalizing s with
  | nil => exact h
  | cons c rest ih =>
    simp only [runMonitor]
    exact ih _ (monitorCb_preserves_sortedKeys _ _ _ _ _ _ _ _ h)

/-! ### The registries as association lists -/

theorem obsFind_obsErase_ne {κ α : Type} [DecidableEq κ] (m : List (κ × α)) {k key : κ}
    (h : k ≠ key) : obsFind (obsErase m key) k = obsFind m k := by
  induction m with
  | nil => rfl
  | cons q rest ih =>
    obtain ⟨k1, v⟩ := q
    by_cases h1 : k1 = key
    · have h2 : ¬ k1 = k := fun hh => h (hh.symm.trans h1)
      simp [obsErase, obsFind, h1, h2, h1 ▸ h2]
    · by_cases h2 : k1 = k
      · subst h2
        simp [obsErase, obsFind, h1]
      · simp [obsErase, obsFind, h1, h2, ih]

theorem obsFind_eq_none_iff {κ α : Type} [DecidableEq κ] (m : List (κ × α)) (key : κ) :
    obsFind m key = none ↔ key ∉ m.map Prod.fst := by
  induction m with
  | nil => simp [obsFind]
  | cons q rest ih =>
    obtain ⟨k1, v⟩ := q
    by_cases h1 : k1 = key
    · simp [obsFind, h1]
    · have h2 : ¬ key = k1 := fun hh => h1 hh.symm
      simp [obsFind, h1, h2, ih]

theorem obsFind_obsErase_self {κ α : Type} [DecidableEq κ] (m : List (κ × α)) (key : κ)
    (hnd : (m.map Prod.fst).Nodup) : obsFind (obsErase m key) key = none := by
  induction m with
  | nil => rfl
  | cons q rest ih =>
    obtain ⟨k1, v⟩ := q
    simp only [List.map_cons, List.nodup_cons] at hnd
    by_cases h1 : k1 = key
    · simp only [obsErase, h1, if_true]
      rw [obsFind_eq_none_iff]
      rw [← h1]
      exact hnd.1
    · simp [obsErase, obsFind, h1, ih hnd.2]

theorem keys_obsErase_sublist {κ α : Type} [DecidableEq κ] (m : List (κ × α)) (key : κ) :
    ((obsErase m key).map Prod.fst).Sublist (m.map Prod.fst) := by
  induction m with
  | nil => simp [obsErase]
  | cons q rest ih =>
    obtain ⟨k1, v⟩ := q
    by_cases h1 : k1 = key
    · simp only [obsErase, h1, if_true, List.map_cons]
      exact List.sublist_cons_self _ _
    · simp only [obsErase, h1, if_false, List.map_cons]
      exact List.Sublist.cons₂ _ ih

theorem nodup_keys_obsErase {κ α : Type} [DecidableEq κ] {m : List (κ × α)} (key : κ)
    (hnd : (m.map Prod.fst).Nodup) : ((obsErase m key).map Prod.fst).Nodup :=
  List.Nodup.sublist (keys_obsErase_sublist m key) hnd

/-! ### The grace sweep (checkDeletedDevices, deletedObserveParams) -/

theorem checkDeletedDevicesLoop_head (now : Int) (k : Nat) (g : List s_devDel_t)
    (r : ObsRegistry) (h : s_devDel_t)
    (hh : (checkDeletedDevicesLoop (constTime now) k g r).1.head? = some h) : now ≤ h.tot := by
  induction g generalizing k r with
  | nil => simp [checkDeletedDevicesLoop] at hh
  | cons it rest ih =>
    by_cases hlt : it.tot < now
    · simp only [checkDeletedDevicesLoop, constTime, hlt, if_true] at hh
      exact ih _ _ hh
    · simp only [checkDeletedDevicesLoop, constTime, hlt, if_false, List.head?_cons,
        Option.some.injEq] at hh
      rw [← hh]
      omega

theorem checkDeletedDevicesLoop_suffix (time : Nat → Int) (k : Nat) (g : List s_devDel_t)
    (r : ObsRegistry) : ∃ pre, g = pre ++ (checkDeletedDevicesLoop time k g r).1 := by
  induction g generalizing k r with
  | nil => exact ⟨[], rfl⟩
  | cons it rest ih =>
    by_cases hlt : it.tot < time k
    · simp only [checkDeletedDevicesLoop, hlt, if_true]
      obtain ⟨pre, hpre⟩ := ih (k + 1)
        (match it.p_dev with
         | some d => deletedObserveParams (some d) r
         | none => r)
      exact ⟨it :: pre, by rw [List.cons_append, ← hpre]⟩
    · simp only [checkDeletedDevicesLoop, hlt, if_false]
      exact ⟨[], rfl⟩

/-- C11, as stated, fails: the Device sensor-01, deregistered at time 1000 with
lifetime 0, gets the deadline 1000; a sweep run at time 1000 does not evict it,
and the head of the list after the sweep has a deadline that is not above the
time of the sweep. -/
theorem sweep_at_deadline_keeps_head :
    (monitorCb 32 exLifetimeZero exServer exContext 1 COAP_202_DELETED 1000 8).m_devDel
      = [⟨some exDevice, 1000⟩]
    ∧ (checkDeletedDevices (constTime 1000)
        (monitorCb 32 exLifetimeZero exServer exContext 1 COAP_202_DELETED 1000 8)
        exRegistry).1.m_devDel = [⟨some exDevice, 1000⟩] := by
  decide

/-- C11, amended: for every grace list and time now (the clock shows now
during the whole sweep), checkDeletedDevices evicts the head entry whenever
head.deadline < now and leaves the list as it is when now <= head.deadline, so
that after the sweep the list is empty or its head has deadline >= now; an
entry with lifetime 0 (deadline equal to the deregistration time) is evicted
from the head by a sweep at a later time value, not by one at the same value. -/
theorem checkDeletedDevices_evicts_head_while_deadline_lt
    (now : Int) (s : LWM2MServer) (r : ObsRegistry) :
    (∀ h, (checkDeletedDevices (constTime now) s r).1.m_devDel.head? = some h → now ≤ h.tot)
    ∧ (∀ it rest, s.m_devDel = it :: rest → it.tot < now →
        ∃ pre, rest = pre ++ (checkDeletedDevices (constTime now) s r).1.m_devDel)
    ∧ (∀ it rest, s.m_devDel = it :: rest → now ≤ it.tot →
        (checkDeletedDevices (constTime now) s r).1.m_devDel = s.m_devDel) := by
  refine ⟨?_, ?_, ?_⟩
  · intro h hh
    exact checkDeletedDevicesLoop_head now 0 s.m_devDel r h hh
  · intro it rest hs hlt
    simp only [checkDeletedDevices, hs, checkDeletedDevicesLoop, constTime, hlt, if_true]
    exact checkDeletedDevicesLoop_suffix _ _ _ _
  · intro it rest hs hle
    have hlt : ¬ it.tot < now := by omega
    simp [checkDeletedDevices, hs, checkDeletedDevicesLoop, constTime, hlt]

/-- The Device sensor-01, deregistered at time 1000 with lifetime 0, is evicted
by the sweep at time 1001. -/
theorem checkDeletedDevices_evicts_head_while_deadline_lt_witness :
    ∃ pre, ([] : List s_devDel_t) = pre ++ (checkDeletedDevices (constTime 1001)
        (monitorCb 32 exLifetimeZero exServer exContext 1 COAP_202_DELETED 1000 8)
        exRegistry).1.m_devDel :=
  (checkDeletedDevices_evicts_head_while_deadline_lt 1001
    (monitorCb 32 exLifetimeZero exServer exContext 1 COAP_202_DELETED 1000 8)
    exRegistry).2.1 ⟨some exDevice, 1000⟩ [] (by decide) (by decide)

theorem checkDeletedDevicesLoop_obsObjMap (time : Nat → Int) (k : Nat)
    (g : List s_devDel_t) (r : ObsRegistry) :
    (checkDeletedDevicesLoop time k g r).2.m_obsObjMap = r.m_obsObjMap := by
  induction g generalizing k r with
  | nil => rfl
  | cons it rest ih =>
    by_cases hlt : it.tot < time k
    · simp only [checkDeletedDevicesLoop, hlt, if_true]
      rw [ih]
      cases it.p_dev <;> rfl
    · simp only [checkDeletedDevicesLoop, hlt, if_false]

/-- No sweep changes the Object registry. -/
theorem checkDeletedDevices_obsObjMap (time : Nat → Int) (s : LWM2MServer) (r : ObsRegistry) :
    (checkDeletedDevices time s r).2.m_obsObjMap = r.m_obsObjMap :=
  checkDeletedDevicesLoop_obsObjMap time 0 s.m_devDel r

/-- C12: the sweep at time 1000 of a grace list that holds the Device at
address 7 with deadline 900, with Entries for a Resource and for an Object of
that Device, evicts the Device and removes the Resource Entry; the Object
registry still holds the Entry whose key is the Object of the evicted Device. -/
theorem sweep_leaves_object_entry_of_evicted_device :
    (checkDeletedDevices (constTime 1000) exServerGrace exRegistry).1.m_devDel = []
    ∧ (checkDeletedDevices (constTime 1000) exServerGrace exRegistry).2.m_obsResMap = []
    ∧ (checkDeletedDevices (constTime 1000) exServerGrace exRegistry).2.m_obsObjMap
        = [(⟨7, 0⟩, ⟨101, zeroSlot⟩)]
    ∧ (⟨7, 0⟩ : ObjKey).dev = exDeviceRes.addr
    ∧ (⟨7, 0⟩ : ObjKey).obj < exDeviceRes.m_objVect.length := by
  decide

theorem obsFind_obsErase_of_none {κ α : Type} [DecidableEq κ] (m : List (κ × α)) (k key : κ)
    (h : obsFind m k = none) : obsFind (obsErase m key) k = none := by
  rw [obsFind_eq_none_iff] at h ⊢
  exact fun hh => h ((keys_obsErase_sublist m key).subset hh)

theorem deleteResParams_nodup (dev obj : Nat) (l : List LWM2MResource) (j : Nat)
    (m : List (ResKey × ObsEntry)) (hnd : (m.map Prod.fst).Nodup) :
    ((deleteResParams dev obj l j m).map Prod.fst).Nodup := by
  induction l generalizing j m with
  | nil => exact hnd
  | cons x rest ih =>
    simp only [deleteResParams]
    split
    · exact ih _ _ (nodup_keys_obsErase _ hnd)
    · exact ih _ _ hnd

theorem deleteResParams_keeps_none (dev obj : Nat) (l : List LWM2MResource) (j : Nat)
    (m : List (ResKey × ObsEntry)) (k : ResKey) (h : obsFind m k = none) :
    obsFind (deleteResParams dev obj l j m) k = none := by
  induction l generalizing j m with
  | nil => exact h
  | cons x rest ih =>
    simp only [deleteResParams]
    split
    · exact ih _ _ (obsFind_obsErase_of_none _ _ _ h)
    · exact ih _ _ h

theorem deleteResParams_removes (dev obj : Nat) (l : List LWM2MResource) (j : Nat)
    (m : List (ResKey × ObsEntry)) (hnd : (m.map Prod.fst).Nodup) (k : ResKey)
    (hdev : k.dev = dev) (hobj : k.obj = obj) (hlo : j ≤ k.res) (hhi : k.res < j + l.length) :
    obsFind (deleteResParams dev obj l j m) k = none := by
  induction l generalizing j m with
  | nil => simp at hhi; omega
  | cons x rest ih =>
    by_cases hj : k.res = j
    · have hk : k = ⟨dev, obj, j⟩ := by
        cases k
        simp_all
      simp only [deleteResParams]
      split
      · apply deleteResParams_keeps_none
        rw [hk]
        exact obsFind_obsErase_self _ _ hnd
      · apply deleteResParams_keeps_none
        rw [hk]
        assumption
    · have hhi1 : k.res < j + 1 + rest.length := by
        simp only [List.length_cons] at hhi
        omega
      simp only [deleteResParams]
      split
      · exact ih _ _ (nodup_keys_obsErase _ hnd) (by omega) hhi1
      · exact ih _ _ hnd (by omega) hhi1

theorem deleteObjParams_nodup (dev : Nat) (os : List LWM2MObject) (i : Nat)
    (m : List (ResKey × ObsEntry)) (hnd : (m.map Prod.fst).Nodup) :
    ((deleteObjParams dev os i m).map Prod.fst).Nodup := by
  induction os generalizing i m with
  | nil => exact hnd
  | cons o rest ih =>
    simp only [deleteObjParams]
    exact ih _ _ (deleteResParams_nodup _ _ _ _ _ hnd)

theorem deleteObjParams_keeps_none (dev : Nat) (os : List LWM2MObject) (i : Nat)
    (m : List (ResKey × ObsEntry)) (k : ResKey) (h : obsFind m k = none) :
    obsFind (deleteObjParams dev os i m) k = none := by
  induction os generalizing i m with
  | nil => exact h
  | cons o rest ih =>
    simp only [deleteObjParams]
    exact ih _ _ (deleteResParams_keeps_none _ _ _ _ _ _ h)

theorem deleteObjParams_removes (dev : Nat) (os : List LWM2MObject) (i : Nat)
    (m : List (ResKey × ObsEntry)) (hnd : (m.map Prod.fst).Nodup) (k : ResKey)
    (hdev : k.dev = dev) (hlo : i ≤ k.obj) (o : LWM2MObject)
    (ho : os[k.obj - i]? = some o) (hres : k.res < o.m_resVect.length) :
    obsFind (deleteObjParams dev os i m) k = none := by
  induction os generalizing i m with
  | nil => simp at ho
  | cons x rest ih =>
    simp only [deleteObjParams]
    by_cases hi : k.obj = i
    · have hx : x = o := by
        rw [hi, Nat.sub_self] at ho
        simpa using ho
      apply deleteObjParams_keeps_none
      rw [hx]
      exact deleteResParams_removes dev i o.m_resVect 0 m hnd k hdev hi (Nat.zero_le _)
        (by omega)
    · have hsub : k.obj - i = (k.obj - (i + 1)) + 1 := by omega
      rw [hsub, List.getElem?_cons_succ] at ho
      exact ih _ _ (deleteResParams_nodup _ _ _ _ _ hnd) (by omega) ho

/-- The Resource half of the purge: after deletedObserveParams for the Device
`d` the Resource registry (a map) holds no Entry whose key is a Resource of `d`. -/
theorem deletedObserveParams_removes_resource_entries (d : LWM2MDevice) (r : ObsRegistry)
    (hnd : (r.m_obsResMap.map Prod.fst).Nodup) (k : ResKey) (hk : k.isOf d) :
    obsFind (deletedObserveParams (some d) r).m_obsResMap k = none := by
  obtain ⟨hdev, o, ho, hres⟩ := hk
  exact deleteObjParams_removes d.addr d.m_objVect 0 r.m_obsResMap hnd k hdev (Nat.zero_le _) o
    (by simpa using ho) hres

/-! ### Notification fan-out (notifyObjCb, notifyResCb) -/

theorem notifyObjInner_fst (r : LWM2MResource) (arr l : List lwm2m_data_t) (i : Nat)
    (p : s_lwm2m_obsparams_t) (log : List ResNotify) :
    ∃ x, (notifyObjInner r arr l i p log).1 = { p with data := x } := by
  induction l generalizing i p log with
  | nil => exact ⟨p.data, rfl⟩
  | cons cur rest ih =>
    simp only [notifyObjInner]
    split
    · obtain ⟨x, hx⟩ := ih (i + 1) { p with data := some ⟨arr, i⟩ }
        (log ++ [(r, { p with data := some ⟨arr, i⟩ })])
      exact ⟨x, hx⟩
    · exact ih (i + 1) p log

theorem notifyObjInner_snd (r : LWM2MResource) (arr l : List lwm2m_data_t) (i : Nat)
    (p : s_lwm2m_obsparams_t) (log : List ResNotify) :
    (notifyObjInner r arr l i p log).2
      = log ++ ((l.enumFrom i).filter (fun ie => decide (ie.2.id = r.m_resId))).map
          (fun ie => (r, { p with data := some ⟨arr, ie.1⟩ })) := by
  induction l generalizing i p log with
  | nil => simp [notifyObjInner]
  | cons cur rest ih =>
    simp only [notifyObjInner, List.enumFrom_cons, LWM2MResource.getResId]
    by_cases h : cur.id = r.m_resId
    · rw [if_pos h, ih, List.filter_cons_of_pos (by simpa using h)]
      simp
    · rw [if_neg h, ih, List.filter_cons_of_neg (by simpa using h)]

theorem notifyObjOuter_snd (arr : List lwm2m_data_t) (rs : List LWM2MResource)
    (p : s_lwm2m_obsparams_t) (log : List ResNotify) :
    (notifyObjOuter arr rs p log).2 = log ++ expectedObjNotifications rs arr p := by
  induction rs generalizing p log with
  | nil => simp [notifyObjOuter, expectedObjNotifications]
  | cons it rest ih =>
    obtain ⟨x, hx⟩ := notifyObjInner_fst it arr arr 0 p log
    simp only [notifyObjOuter]
    rw [ih, notifyObjInner_snd, hx]
    simp [expectedObjNotifications]

/-- C17: for an Object notification with an Entry for the handle, a directory
Device matching the client ID and an Object O matching the URI, and for every
parsed payload: the observer notifications made are, for each Resource R of O
in turn, one call per payload element whose id is R's Resource ID, with a
pointer to exactly that element as data; so every call made is for a Resource
of O and a payload element with its id: elements that match no Resource and
Resources whose id is not in the payload get no call. -/
theorem notifyObjCb_fans_out_by_resource_id
    (lwm2m_data_parse : lwm2m_uri_t → List Nat → Int → Nat → List lwm2m_data_t)
    (m_devMap : DevMap) (clientID : Nat) (uriP : lwm2m_uri_t) (status : Int) (format : Nat)
    (data : List Nat) (dataLength : Int) (userData : ObjKey) (r : ObsRegistry)
    (it : ObsEntry) (q : String × LWM2MDevice) (O : LWM2MObject)
    (hentry : obsFind r.m_obsObjMap userData = some it)
    (hdev : findDevByID m_devMap clientID = some q)
    (hinst : LWM2M_URI_IS_SET_INSTANCE uriP = true)
    (hobj : q.2.getObject uriP.objectId (uriP.instanceId % 2 ^ 8) = some O) :
    (notifyObjCb lwm2m_data_parse m_devMap clientID uriP status format data dataLength
        userData r).2
      = expectedObjNotifications O.m_resVect (lwm2m_data_parse uriP data dataLength format)
          { storeCallbackArgs it.params clientID uriP status format data dataLength with
            buffer := none }
    ∧ ∀ R p, (R, p) ∈ (notifyObjCb lwm2m_data_parse m_devMap clientID uriP status format data
          dataLength userData r).2 →
        R ∈ O.m_resVect ∧
        ∃ i e, (lwm2m_data_parse uriP data dataLength format)[i]? = some e ∧
          e.id = R.m_resId ∧
          p.data = some ⟨lwm2m_data_parse uriP data dataLength format, i⟩ := by
  have hlog : (notifyObjCb lwm2m_data_parse m_devMap clientID uriP status format data dataLength
        userData r).2
      = expectedObjNotifications O.m_resVect (lwm2m_data_parse uriP data dataLength format)
          { storeCallbackArgs it.params clientID uriP status format data dataLength with
            buffer := none } := by
    obtain ⟨k, d⟩ := q
    have hdev1 : findDevByID m_devMap
        (storeCallbackArgs it.params clientID uriP status format data dataLength).clientID
        = some (k, d) := hdev
    simp only [notifyObjCb, hentry, hdev1, hinst, if_true]
    simp only at hobj
    rw [hobj]
    simp [notifyObjOuter_snd]
  refine ⟨hlog, ?_⟩
  intro R p hmem
  rw [hlog] at hmem
  simp only [expectedObjNotifications, List.mem_flatMap, List.mem_map, List.mem_filter,
    decide_eq_true_eq] at hmem
  obtain ⟨R1, hR1, ⟨i, e⟩, ⟨hie, hid⟩, heq⟩ := hmem
  simp only [Prod.mk.injEq] at heq
  obtain ⟨hR, hp⟩ := heq
  subst hR
  refine ⟨hR1, i, e, ?_, hid, ?_⟩
  · have := List.mk_mem_enumFrom_iff_le_and_getElem?_sub.mp hie
    simpa using this.2
  · rw [← hp]

/-- The notification for Object (3,0) of sensor-01, which has the Resources 0
and 1, with a payload of the elements 0, 1 and 7. -/
theorem notifyObjCb_fans_out_by_resource_id_witness :
    (notifyObjCb exParse exDirectoryTwoRes 1 exUriObj 0 0 [0, 1, 7] 3 ⟨7, 0⟩ exRegistry).2
      = expectedObjNotifications [⟨0, [5]⟩, ⟨1, [6]⟩] (exParse exUriObj [0, 1, 7] 3 0)
          { storeCallbackArgs zeroSlot 1 exUriObj 0 0 [0, 1, 7] 3 with buffer := none }
    ∧ ∀ R p, (R, p) ∈ (notifyObjCb exParse exDirectoryTwoRes 1 exUriObj 0 0 [0, 1, 7] 3 ⟨7, 0⟩
          exRegistry).2 →
        R ∈ ([⟨0, [5]⟩, ⟨1, [6]⟩] : List LWM2MResource) ∧
        ∃ i e, (exParse exUriObj [0, 1, 7] 3 0)[i]? = some e ∧
          e.id = R.m_resId ∧
          p.data = some ⟨exParse exUriObj [0, 1, 7] 3 0, i⟩ :=
  notifyObjCb_fans_out_by_resource_id exParse exDirectoryTwoRes 1 exUriObj 0 0 [0, 1, 7] 3
    ⟨7, 0⟩ exRegistry ⟨101, zeroSlot⟩ ("sensor-01", exDeviceTwoRes)
    ⟨3, 0, [⟨0, [5]⟩, ⟨1, [6]⟩]⟩ (by decide) (by decide) (by decide) (by decide)

theorem obsFind_obsStore_self {κ : Type} [DecidableEq κ] (m : List (κ × ObsEntry)) (key : κ)
    (p : s_lwm2m_obsparams_t) (e : ObsEntry) (h : obsFind m key = some e) :
    obsFind (obsStore m key p) key = some ⟨e.addr, p⟩ := by
  induction m with
  | nil => simp [obsFind] at h
  | cons q rest ih =>
    obtain ⟨k1, v⟩ := q
    by_cases h1 : k1 = key
    · simp only [obsFind, h1, if_true, Option.some.injEq] at h
      simp [obsStore, obsFind, h1, h]
    · simp only [obsFind, h1, if_false] at h
      simp [obsStore, obsFind, h1, ih h]

/-- C18: a Resource notification whose handle has an Entry, whose client ID
matches a directory Device and whose URI resolves to the Resource R of that
Device makes exactly one call of R's observer list, with the slot of the Entry,
whose data points to the parsed payload when parsing yields at least one
element (and is NULL otherwise); the Entry in the registry holds that slot.
When the handle has no Entry, no call is made and the registry is unchanged. -/
theorem notifyResCb_notifies_resource_once
    (lwm2m_data_parse : lwm2m_uri_t → List Nat → Int → Nat → List lwm2m_data_t)
    (m_devMap : DevMap) (clientID : Nat) (uriP : lwm2m_uri_t) (status : Int) (format : Nat)
    (data : List Nat) (dataLength : Int) (userData : ResKey) (r : ObsRegistry) :
    (∀ (it : ObsEntry) (q : String × LWM2MDevice) (O : LWM2MObject) (R : LWM2MResource),
      obsFind r.m_obsResMap userData = some it →
      findDevByID m_devMap clientID = some q →
      LWM2M_URI_IS_SET_INSTANCE uriP = true →
      q.2.getObject uriP.objectId (uriP.instanceId % 2 ^ 8) = some O →
      LWM2M_URI_IS_SET_RESOURCE uriP = true →
      O.getResource uriP.resourceId = some R →
      (notifyResCb lwm2m_data_parse m_devMap clientID uriP status format data dataLength
          userData r).2
        = [(R, { storeCallbackArgs it.params clientID uriP status format data dataLength with
                 data := if 0 < (lwm2m_data_parse uriP data dataLength format).length
                         then some ⟨lwm2m_data_parse uriP data dataLength format, 0⟩
                         else none })]
      ∧ obsFind (notifyResCb lwm2m_data_parse m_devMap clientID uriP status format data
          dataLength userData r).1.m_obsResMap userData
        = some ⟨it.addr,
            { storeCallbackArgs it.params clientID uriP status format data dataLength with
              data := if 0 < (lwm2m_data_parse uriP data dataLength format).length
                      then some ⟨lwm2m_data_parse uriP data dataLength format, 0⟩
                      else none }⟩)
    ∧ (obsFind r.m_obsResMap userData = none →
      notifyResCb lwm2m_data_parse m_devMap clientID uriP status format data dataLength
          userData r = (r, [])) := by
  constructor
  · intro it q O R hentry hdev hinst hobj hresflag hres
    obtain ⟨k, d⟩ := q
    have hdev1 : findDevByID m_devMap
        (storeCallbackArgs it.params clientID uriP status format data dataLength).clientID
        = some (k, d) := hdev
    simp only at hobj
    simp only [notifyResCb, hentry, hdev1, hinst, if_true, hobj, hresflag, hres]
    refine ⟨?_, ?_⟩
    · simp [storeCallbackArgs]
    · rw [obsFind_obsStore_self _ _ _ _ hentry]
      simp [storeCallbackArgs]
  · intro hno
    simp [notifyResCb, hno]

/-- The notification for Resource /3/0/0 of sensor-01 with a payload of one
element. -/
theorem notifyResCb_notifies_resource_once_witness :
    (notifyResCb exParse exDirectory 1 exUri 0 0 [42] 1 ⟨7, 0, 0⟩ exRegistry).2
        = [(⟨0, [5]⟩, { storeCallbackArgs zeroSlot 1 exUri 0 0 [42] 1 with
                 data := if 0 < (exParse exUri [42] 1 0).length
                         then some ⟨exParse exUri [42] 1 0, 0⟩
                         else none })]
      ∧ obsFind (notifyResCb exParse exDirectory 1 exUri 0 0 [42] 1 ⟨7, 0, 0⟩
          exRegistry).1.m_obsResMap ⟨7, 0, 0⟩
        = some ⟨100,
            { storeCallbackArgs zeroSlot 1 exUri 0 0 [42] 1 with
              data := if 0 < (exParse exUri [42] 1 0).length
                      then some ⟨exParse exUri [42] 1 0, 0⟩
                      else none }⟩ :=
  (notifyResCb_notifies_resource_once exParse exDirectory 1 exUri 0 0 [42] 1 ⟨7, 0, 0⟩
    exRegistry).1 ⟨100, zeroSlot⟩ ("sensor-01", exDeviceRes) ⟨3, 0, [⟨0, [5]⟩]⟩ ⟨0, [5]⟩
    (by decide) (by decide) (by decide) (by decide) (by decide) (by decide)

/-! ### Notified Resources belong to the directory -/

theorem uriObject_mem {d : LWM2MDevice} {uriP : lwm2m_uri_t} {o : LWM2MObject}
    (h : uriObject d uriP = some o) : o ∈ d.m_objVect := by
  unfold uriObject at h
  split at h
  · exact List.mem_of_find?_eq_some h
  · simp at h

theorem uriResource_mem {po : Option LWM2MObject} {uriP : lwm2m_uri_t} {res : LWM2MResource}
    (h : uriResource po uriP = some res) : ∃ o, po = some o ∧ res ∈ o.m_resVect := by
  unfold uriResource at h
  cases po with
  | none => simp at h
  | some o =>
    simp only at h
    split at h
    · exact ⟨o, rfl, List.mem_of_find?_eq_some h⟩
    · simp at h

theorem notifyResCb_eq
    (lwm2m_data_parse : lwm2m_uri_t → List Nat → Int → Nat → List lwm2m_data_t)
    (m_devMap : DevMap) (clientID : Nat) (uriP : lwm2m_uri_t) (status : Int) (format : Nat)
    (data : List Nat) (dataLength : Int) (userData : ResKey) (r : ObsRegistry) :
    notifyResCb lwm2m_data_parse m_devMap clientID uriP status format data dataLength userData r
      = match obsFind r.m_obsResMap userData with
        | none => (r, [])
        | some it =>
          match findDevByID m_devMap clientID with
          | none =>
              ({ r with
                  m_obsResMap := obsStore r.m_obsResMap userData
                    (storeCallbackArgs it.params clientID uriP status format data dataLength) },
               [])
          | some q =>
            match uriResource (uriObject q.2 uriP) uriP with
            | some res =>
                ({ r with
                    m_obsResMap := obsStore r.m_obsResMap userData
                      { storeCallbackArgs it.params clientID uriP status format data
                          dataLength with
                        data :=
                          if ((lwm2m_data_parse uriP data dataLength format).length : Int) > 0
                          then some ⟨lwm2m_data_parse uriP data dataLength format, 0⟩
                          else none } },
                 [(res,
                    { storeCallbackArgs it.params clientID uriP status format data
                        dataLength with
                      data :=
                        if ((lwm2m_data_parse uriP data dataLength format).length : Int) > 0
                        then some ⟨lwm2m_data_parse uriP data dataLength format, 0⟩
                        else none })])
            | none =>
                ({ r with
                    m_obsResMap := obsStore r.m_obsResMap userData
                      (storeCallbackArgs it.params clientID uriP status format data dataLength) },
                 []) := by
  unfold notifyResCb
  cases obsFind r.m_obsResMap userData with
  | none => rfl
  | some it =>
    show (match findDevByID m_devMap clientID with
      | none => _
      | some (_, p_dev) => _) = _
    cases findDevByID m_devMap clientID with
    | none => rfl
    | some q =>
      obtain ⟨k, d⟩ := q
      rfl

theorem notifyObjCb_eq
    (lwm2m_data_parse : lwm2m_uri_t → List Nat → Int → Nat → List lwm2m_data_t)
    (m_devMap : DevMap) (clientID : Nat) (uriP : lwm2m_uri_t) (status : Int) (format : Nat)
    (data : List Nat) (dataLength : Int) (userData : ObjKey) (r : ObsRegistry) :
    notifyObjCb lwm2m_data_parse m_devMap clientID uriP status format data dataLength userData r
      = match obsFind r.m_obsObjMap userData with
        | none => (r, [])
        | some it =>
          match findDevByID m_devMap clientID with
          | none =>
              ({ r with
                  m_obsObjMap := obsStore r.m_obsObjMap userData
                    (storeCallbackArgs it.params clientID uriP status format data dataLength) },
               [])
          | some q =>
            match uriObject q.2 uriP with
            | some o =>
                ({ r with
                    m_obsObjMap := obsStore r.m_obsObjMap userData
                      (notifyObjOuter (lwm2m_data_parse uriP data dataLength format) o.m_resVect
                        { storeCallbackArgs it.params clientID uriP status format data
                            dataLength with buffer := none } []).1 },
                 (notifyObjOuter (lwm2m_data_parse uriP data dataLength format) o.m_resVect
                    { storeCallbackArgs it.params clientID uriP status format data
                        dataLength with buffer := none } []).2)
            | none =>
                ({ r with
                    m_obsObjMap := obsStore r.m_obsObjMap userData
                      (storeCallbackArgs it.params clientID uriP status format data dataLength) },
                 []) := by
  unfold notifyObjCb
  cases obsFind r.m_obsObjMap userData with
  | none => rfl
  | some it =>
    show (match findDevByID m_devMap clientID with
      | none => _
      | some (_, p_dev) => _) = _
    cases findDevByID m_devMap clientID with
    | none => rfl
    | some q =>
      obtain ⟨k, d⟩ := q
      rfl

theorem rwObjInner_log (r : LWM2MResource) (arr : List lwm2m_data_t) (cur n idx : Nat)
    (p : s_lwm2m_obsparams_t) (log : List ResNotify)
    (res : Nat × s_lwm2m_obsparams_t × List ResNotify)
    (h : rwObjInner r arr cur n idx p log = some res) :
    ∀ x ∈ res.2.2, x ∈ log ∨ x.1 = r := by
  induction n generalizing idx p log with
  | zero =>
    simp only [rwObjInner, Option.some.injEq] at h
    subst h
    exact fun x hx => Or.inl hx
  | succ n ih =>
    simp only [rwObjInner] at h
    cases harr : arr[idx]? with
    | none => simp [harr] at h
    | some e =>
      simp only [harr] at h
      split at h
      · intro x hx
        rcases ih _ _ _ h x hx with h1 | h1
        · rcases List.mem_append.mp h1 with h2 | h2
          · exact Or.inl h2
          · simp only [List.mem_singleton] at h2
            exact Or.inr (by rw [h2])
        · exact Or.inr h1
      · exact ih _ _ _ h

theorem rwObjOuter_log (arr : List lwm2m_data_t) (ret : Nat) (rs : List LWM2MResource)
    (idx : Nat) (p : s_lwm2m_obsparams_t) (log : List ResNotify)
    (res : Nat × s_lwm2m_obsparams_t × List ResNotify)
    (h : rwObjOuter arr ret rs idx p log = some res) :
    ∀ x ∈ res.2.2, x ∈ log ∨ x.1 ∈ rs := by
  induction rs generalizing idx p log with
  | nil =>
    simp only [rwObjOuter, Option.some.injEq] at h
    subst h
    exact fun x hx => Or.inl hx
  | cons r rest ih =>
    simp only [rwObjOuter] at h
    cases hin : rwObjInner r arr idx ret idx p log with
    | none => simp [hin] at h
    | some t =>
      obtain ⟨idx1, p1, log1⟩ := t
      simp only [hin] at h
      intro x hx
      rcases ih _ _ _ h x hx with h1 | h1
      · rcases rwObjInner_log _ _ _ _ _ _ _ _ hin x h1 with h2 | h2
        · exact Or.inl h2
        · exact Or.inr (by rw [h2]; exact List.mem_cons_self _ _)
      · exact Or.inr (List.mem_cons_of_mem _ h1)

theorem expectedObjNotifications_mem {rs : List LWM2MResource} {payload : List lwm2m_data_t}
    {base : s_lwm2m_obsparams_t} {x : ResNotify}
    (h : x ∈ expectedObjNotifications rs payload base) : x.1 ∈ rs := by
  simp only [expectedObjNotifications, List.mem_flatMap, List.mem_map] at h
  obtain ⟨R, hR, ie, _, heq⟩ := h
  rw [← heq]
  exact hR

theorem readWriteResCb_log_mem
    (lwm2m_data_parse : lwm2m_uri_t → List Nat → Int → Nat → List lwm2m_data_t)
    (m_devMap : DevMap) (clientID : Nat) (uriP : lwm2m_uri_t) (status : Int) (format : Nat)
    (data : List Nat) (dataLength : Int) (slot slot1 : s_lwm2m_obsparams_t)
    (log : List ResNotify)
    (hcb : readWriteResCb lwm2m_data_parse m_devMap clientID uriP status format data dataLength
      slot = some (slot1, log)) (x : ResNotify) (hmem : x ∈ log) :
    ∃ q, findDevByID m_devMap clientID = some q ∧
      ∃ o, uriObject q.2 uriP = some o ∧ x.1 ∈ o.m_resVect := by
  cases hdev : findDevByID m_devMap clientID with
  | none =>
    simp only [readWriteResCb, hdev, Option.some.injEq, Prod.mk.injEq] at hcb
    rw [← hcb.2] at hmem
    exact absurd hmem (List.not_mem_nil _)
  | some q =>
    obtain ⟨k, d⟩ := q
    simp only [readWriteResCb, hdev] at hcb
    have hfo : (if LWM2M_URI_IS_SET_INSTANCE uriP = true then
        d.getObject uriP.objectId (uriP.instanceId % 2 ^ 8) else none) = uriObject d uriP := rfl
    rw [hfo] at hcb
    cases hgo : uriObject d uriP with
    | none =>
      simp only [hgo, Option.some.injEq, Prod.mk.injEq] at hcb
      rw [← hcb.2] at hmem
      exact absurd hmem (List.not_mem_nil _)
    | some o =>
      simp only [hgo] at hcb
      cases hres : (if LWM2M_URI_IS_SET_RESOURCE uriP = true then
          o.getResource uriP.resourceId else none) with
      | some res =>
        simp only [hres, Option.some.injEq, Prod.mk.injEq] at hcb
        rw [← hcb.2] at hmem
        exact absurd hmem (List.not_mem_nil _)
      | none =>
        simp only [hres] at hcb
        cases hout : rwObjOuter (lwm2m_data_parse uriP data dataLength format)
            (lwm2m_data_parse uriP data dataLength format).length o.m_resVect 0
            { clientID := clientID, uriP := some uriP, status := status, format := format,
              data := none, dataLen := slot.dataLen, buffer := none, bufferLen := dataLength }
            [] with
        | none =>
          rw [hout] at hcb
          exact absurd hcb (by simp)
        | some t =>
          obtain ⟨idx1, p1, log1⟩ := t
          rw [hout] at hcb
          simp only [Option.some.injEq, Prod.mk.injEq] at hcb
          rw [← hcb.2] at hmem
          rcases rwObjOuter_log _ _ _ _ _ _ _ hout x hmem with h1 | h1
          · exact absurd h1 (List.not_mem_nil _)
          · exact ⟨(k, d), rfl, o, hgo, h1⟩

/-- C19: every Resource whose observers are invoked by notifyResCb, by
notifyObjCb or by readWriteResCb belongs to an Object of a Device that is in
the directory at the call and has the client ID as internal ID; a callback
whose client ID is the internal ID of no directory Device invokes no
observer. -/
theorem notified_resource_is_in_directory
    (lwm2m_data_parse : lwm2m_uri_t → List Nat → Int → Nat → List lwm2m_data_t)
    (m_devMap : DevMap) (clientID : Nat) (uriP : lwm2m_uri_t) (status : Int) (format : Nat)
    (data : List Nat) (dataLength : Int) :
    (∀ (userData : ResKey) (r : ObsRegistry) (R : LWM2MResource) (p : s_lwm2m_obsparams_t),
      (R, p) ∈ (notifyResCb lwm2m_data_parse m_devMap clientID uriP status format data
        dataLength userData r).2 → InDirectory m_devMap clientID R)
    ∧ (∀ (userData : ObjKey) (r : ObsRegistry) (R : LWM2MResource) (p : s_lwm2m_obsparams_t),
      (R, p) ∈ (notifyObjCb lwm2m_data_parse m_devMap clientID uriP status format data
        dataLength userData r).2 → InDirectory m_devMap clientID R)
    ∧ (∀ (slot slot1 : s_lwm2m_obsparams_t) (log : List ResNotify) (R : LWM2MResource)
        (p : s_lwm2m_obsparams_t),
      readWriteResCb lwm2m_data_parse m_devMap clientID uriP status format data dataLength slot
        = some (slot1, log) → (R, p) ∈ log → InDirectory m_devMap clientID R)
    ∧ (findDevByID m_devMap clientID = none →
        (∀ (userData : ResKey) (r : ObsRegistry),
          (notifyResCb lwm2m_data_parse m_devMap clientID uriP status format data dataLength
            userData r).2 = [])
        ∧ (∀ (userData : ObjKey) (r : ObsRegistry),
          (notifyObjCb lwm2m_data_parse m_devMap clientID uriP status format data dataLength
            userData r).2 = [])
        ∧ (∀ slot : s_lwm2m_obsparams_t, ∃ slot1,
          readWriteResCb lwm2m_data_parse m_devMap clientID uriP status format data dataLength
            slot = some (slot1, []))) := by
  refine ⟨?_, ?_, ?_, ?_⟩
  · intro userData r R p hmem
    rw [notifyResCb_eq] at hmem
    cases hentry : obsFind r.m_obsResMap userData with
    | none =>
      rw [hentry] at hmem
      exact absurd hmem (List.not_mem_nil _)
    | some it =>
      cases hdev : findDevByID m_devMap clientID with
      | none =>
        rw [hentry, hdev] at hmem
        exact absurd hmem (List.not_mem_nil _)
      | some q =>
        cases hres : uriResource (uriObject q.2 uriP) uriP with
        | none =>
          simp only [hentry, hdev, hres] at hmem
          exact absurd hmem (List.not_mem_nil _)
        | some res =>
          simp only [hentry, hdev, hres, List.mem_singleton, Prod.mk.injEq] at hmem
          obtain ⟨o, ho, hmemres⟩ := uriResource_mem hres
          rw [hmem.1]
          exact ⟨q, (findDevByID_mem hdev).1, (findDevByID_mem hdev).2, o, uriObject_mem ho,
            hmemres⟩
  · intro userData r R p hmem
    rw [notifyObjCb_eq] at hmem
    cases hentry : obsFind r.m_obsObjMap userData with
    | none =>
      rw [hentry] at hmem
      exact absurd hmem (List.not_mem_nil _)
    | some it =>
      cases hdev : findDevByID m_devMap clientID with
      | none =>
        rw [hentry, hdev] at hmem
        exact absurd hmem (List.not_mem_nil _)
      | some q =>
        cases hobj : uriObject q.2 uriP with
        | none =>
          simp only [hentry, hdev, hobj] at hmem
          exact absurd hmem (List.not_mem_nil _)
        | some o =>
          simp only [hentry, hdev, hobj, notifyObjOuter_snd, List.nil_append] at hmem
          exact ⟨q, (findDevByID_mem hdev).1, (findDevByID_mem hdev).2, o, uriObject_mem hobj,
            expectedObjNotifications_mem hmem⟩
  · intro slot slot1 log R p hcb hmem
    obtain ⟨q, hq, o, ho, hR⟩ := readWriteResCb_log_mem _ _ _ _ _ _ _ _ _ _ _ hcb (R, p) hmem
    exact ⟨q, (findDevByID_mem hq).1, (findDevByID_mem hq).2, o, uriObject_mem ho, hR⟩
  · intro hno
    refine ⟨?_, ?_, ?_⟩
    · intro userData r
      rw [notifyResCb_eq]
      cases hentry : obsFind r.m_obsResMap userData with
      | none => rfl
      | some it => simp only [hno]
    · intro userData r
      rw [notifyObjCb_eq]
      cases hentry : obsFind r.m_obsObjMap userData with
      | none => rfl
      | some it => simp only [hno]
    · intro slot
      refine ⟨{ slot with
        clientID := clientID, uriP := some uriP, status := status, format := format,
        data := none, buffer := some data, bufferLen := dataLength }, ?_⟩
      simp only [readWriteResCb, hno]

/-- The Resource 0 notified by the Object notification for (3,0) of sensor-01
belongs to the directory Device with internal ID 1. -/
theorem notified_resource_is_in_directory_witness :
    InDirectory exDirectoryTwoRes 1 ⟨0, [5]⟩ :=
  (notified_resource_is_in_directory exParse exDirectoryTwoRes 1 exUriObj 0 0 [0, 1, 7] 3).2.1
    ⟨7, 0⟩ exRegistry ⟨0, [5]⟩
    { storeCallbackArgs zeroSlot 1 exUriObj 0 0 [0, 1, 7] 3 with
      buffer := none, data := some ⟨exParse exUriObj [0, 1, 7] 3 0, 0⟩ }
    (by decide)

/-! ### observe: what the calls do to the registries -/

theorem obsPtrs_obsStore {κ : Type} [DecidableEq κ] (m : List (κ × ObsEntry)) (key : κ)
    (p : s_lwm2m_obsparams_t) : obsPtrs (obsStore m key p) = obsPtrs m := by
  induction m with
  | nil => rfl
  | cons q rest ih =>
    obtain ⟨k1, e⟩ := q
    by_cases h1 : k1 = key
    · simp [obsStore, obsPtrs, h1]
    · simp only [obsStore, h1, if_false, obsPtrs, List.map_cons]
      exact congrArg _ ih

theorem obsPtrs_obsErase {κ : Type} [DecidableEq κ] (m : List (κ × ObsEntry)) (key : κ) :
    obsPtrs (obsErase m key) = obsErase (obsPtrs m) key := by
  induction m with
  | nil => rfl
  | cons q rest ih =>
    obtain ⟨k1, e⟩ := q
    by_cases h1 : k1 = key
    · simp [obsErase, obsPtrs, h1]
    · simp only [obsErase, h1, if_false, obsPtrs, List.map_cons]
      exact congrArg _ ih

theorem obsFind_obsPtrs {κ : Type} [DecidableEq κ] (m : List (κ × ObsEntry)) (key : κ) :
    obsFind (obsPtrs m) key = (obsFind m key).map (fun e => e.addr) := by
  induction m with
  | nil => rfl
  | cons q rest ih =>
    obtain ⟨k1, e⟩ := q
    by_cases h1 : k1 = key
    · simp [obsFind, obsPtrs, h1]
    · simp only [obsFind, h1, if_false, obsPtrs, List.map_cons]
      exact ih

theorem notifyResCb_regPtrs
    (lwm2m_data_parse : lwm2m_uri_t → List Nat → Int → Nat → List lwm2m_data_t)
    (m_devMap : DevMap) (clientID : Nat) (uriP : lwm2m_uri_t) (status : Int) (format : Nat)
    (data : List Nat) (dataLength : Int) (userData : ResKey) (r : ObsRegistry) :
    regPtrs (notifyResCb lwm2m_data_parse m_devMap clientID uriP status format data dataLength
      userData r).1 = regPtrs r := by
  rw [notifyResCb_eq]
  cases obsFind r.m_obsResMap userData with
  | none => rfl
  | some it =>
    cases findDevByID m_devMap clientID with
    | none => simp [regPtrs, obsPtrs_obsStore]
    | some q =>
      cases hres : uriResource (uriObject q.2 uriP) uriP with
      | none => simp [regPtrs, obsPtrs_obsStore, hres]
      | some res => simp [regPtrs, obsPtrs_obsStore, hres]

theorem notifyObjCb_regPtrs
    (lwm2m_data_parse : lwm2m_uri_t → List Nat → Int → Nat → List lwm2m_data_t)
    (m_devMap : DevMap) (clientID : Nat) (uriP : lwm2m_uri_t) (status : Int) (format : Nat)
    (data : List Nat) (dataLength : Int) (userData : ObjKey) (r : ObsRegistry) :
    regPtrs (notifyObjCb lwm2m_data_parse m_devMap clientID uriP status format data dataLength
      userData r).1 = regPtrs r := by
  rw [notifyObjCb_eq]
  cases obsFind r.m_obsObjMap userData with
  | none => rfl
  | some it =>
    cases findDevByID m_devMap clientID with
    | none => simp [regPtrs, obsPtrs_obsStore]
    | some q =>
      cases hobj : uriObject q.2 uriP with
      | none => simp [regPtrs, obsPtrs_obsStore, hobj]
      | some o => simp [regPtrs, obsPtrs_obsStore, hobj]

theorem runObsCalls_regPtrs
    (lwm2m_data_parse : lwm2m_uri_t → List Nat → Int → Nat → List lwm2m_data_t)
    (calls : List ObsCall) (r : ObsRegistry) :
    regPtrs (runObsCalls lwm2m_data_parse calls r) = regPtrs r := by
  induction calls generalizing r with
  | nil => rfl
  | cons c rest ih =>
    cases c with
    | res userData c =>
      simp only [runObsCalls]
      rw [ih, notifyResCb_regPtrs]
    | obj userData c =>
      simp only [runObsCalls]
      rw [ih, notifyObjCb_regPtrs]

/-! ### runServer: socket errors -/

/-- C20, the run that differs: in an iteration in which `select` returns 1
with the socket readable and `recvfrom` returns -1, runServer returns 0. -/
theorem runServer_recvfrom_error_returns_zero :
    (runServer exStep exHandlePacket exRecvError exLoopState).selectCalled = true
    ∧ 0 < exRecvError.selectResult ∧ exRecvError.fdIsSet = true
    ∧ (runServer exStep exHandlePacket exRecvError exLoopState).recvfromCalled = true
    ∧ exRecvError.numBytes < 0
    ∧ (runServer exStep exHandlePacket exRecvError exLoopState).ret = 0 := by
  decide

/-- C20 as the code has it: in every iteration in which `select` is called and
returns a negative result runServer returns -1; in every iteration in which
`recvfrom` is called (select reported the socket readable) runServer returns
0, whatever `recvfrom` returns, and a `recvfrom` result that is not positive
hands nothing to `lwm2m_handle_packet`. -/
theorem runServer_select_error_fails_recvfrom_result_ignored
    (lwm2m_step : LoopState → Int × LoopState)
    (lwm2m_handle_packet : List Nat → Int → Nat → LoopState → LoopState)
    (env : LoopEnv) (s : LoopState) :
    ((runServer lwm2m_step lwm2m_handle_packet env s).selectCalled = true →
        env.selectResult < 0 →
        (runServer lwm2m_step lwm2m_handle_packet env s).ret = -1)
    ∧ ((runServer lwm2m_step lwm2m_handle_packet env s).recvfromCalled = true →
        (runServer lwm2m_step lwm2m_handle_packet env s).ret = 0
        ∧ 0 < env.selectResult ∧ env.fdIsSet = true)
    ∧ ((runServer lwm2m_step lwm2m_handle_packet env s).recvfromCalled = true →
        env.numBytes ≤ 0 →
        (runServer lwm2m_step lwm2m_handle_packet env s).handled = none) := by
  unfold runServer
  simp only []
  split
  · simp
  · split
    · simp
    · split
      · rename_i hsel
        simp [hsel]
      · rename_i hsel
        split
        · rename_i hpos
          split
          · rename_i hfd
            split
            · rename_i hnum
              have hn : ¬ env.numBytes ≤ 0 := not_le.2 hnum
              split
              · simp [hsel, hpos, hfd, hn]
              · split
                · simp [hsel, hpos, hfd, hn]
                · simp [hsel, hpos, hfd]
            · simp [hsel, hpos, hfd]
          · simp [hsel]
        · simp [hsel]

/-- C20 as the code has it, at an iteration in which `select` returns -1 (the
return value is -1) and at one in which `recvfrom` returns -1 (the return
value is 0 and nothing is handed to the library). -/
theorem runServer_select_error_fails_recvfrom_result_ignored_witness :
    ((runServer exStep exHandlePacket exSelectError exLoopState).selectCalled = true
      ∧ exSelectError.selectResult < 0
      ∧ (runServer exStep exHandlePacket exSelectError exLoopState).ret = -1)
    ∧ ((runServer exStep exHandlePacket exRecvError exLoopState).recvfromCalled = true
      ∧ exRecvError.numBytes ≤ 0
      ∧ (runServer exStep exHandlePacket exRecvError exLoopState).ret = 0
      ∧ (runServer exStep exHandlePacket exRecvError exLoopState).handled = none) :=
  ⟨⟨by decide, by decide,
    (runServer_select_error_fails_recvfrom_result_ignored exStep exHandlePacket exSelectError
      exLoopState).1 (by decide) (by decide)⟩,
   ⟨by decide, by decide,
    ((runServer_select_error_fails_recvfrom_result_ignored exStep exHandlePacket exRecvError
      exLoopState).2.1 (by decide)).1,
    (runServer_select_error_fails_recvfrom_result_ignored exStep exHandlePacket exRecvError
      exLoopState).2.2 (by decide) (by decide)⟩⟩


/-! ### The grace sweep removes the longest expired prefix -/

theorem checkDeletedDevicesLoop_dropWhile (now : Int) (k : Nat) (g : List s_devDel_t)
    (r : ObsRegistry) :
    (checkDeletedDevicesLoop (constTime now) k g r).1
      = g.dropWhile (fun it => decide (it.tot < now)) := by
  induction g generalizing k r with
  | nil => rfl
  | cons it rest ih =>
    by_cases hlt : it.tot < now
    · simp only [checkDeletedDevicesLoop, constTime, hlt, if_true, List.dropWhile_cons,
        decide_True]
      exact ih _ _
    · simp [checkDeletedDevicesLoop, constTime, hlt, List.dropWhile_cons]

theorem dropWhile_append_of_all {α : Type} (p : α → Bool) (pre : List α) (x : α)
    (rest : List α) (hpre : ∀ e ∈ pre, p e = true) (hx : p x = false) :
    (pre ++ x :: rest).dropWhile p = x :: rest := by
  induction pre with
  | nil => simp [List.dropWhile_cons, hx]
  | cons a l ih =>
    have ha : p a = true := hpre a (List.mem_cons_self _ _)
    simp only [List.cons_append, List.dropWhile_cons, ha, if_true]
    exact ih (fun e he => hpre e (List.mem_cons_of_mem _ he))

/-- C26: for every grace list g and time now (the clock shows now during the
whole sweep), checkDeletedDevices removes exactly the longest prefix of g whose
entries all have deadline < now: g is a prefix of entries with deadline < now
followed by the list left, unchanged and in order, and the list left is empty
or begins with an entry that has not expired; whenever g is such a prefix
followed by an entry that has not expired and any rest, that entry and the
whole rest are kept, whatever the deadlines in the rest. -/
theorem checkDeletedDevices_removes_longest_expired_front
    (now : Int) (s : LWM2MServer) (r : ObsRegistry) :
    (∃ pre, s.m_devDel = pre ++ (checkDeletedDevices (constTime now) s r).1.m_devDel
        ∧ (∀ e ∈ pre, e.tot < now)
        ∧ (∀ h, (checkDeletedDevices (constTime now) s r).1.m_devDel.head? = some h →
            now ≤ h.tot))
    ∧ (∀ (pre : List s_devDel_t) (it : s_devDel_t) (rest : List s_devDel_t),
        s.m_devDel = pre ++ it :: rest → (∀ e ∈ pre, e.tot < now) → now ≤ it.tot →
        (checkDeletedDevices (constTime now) s r).1.m_devDel = it :: rest) := by
  have hd : (checkDeletedDevices (constTime now) s r).1.m_devDel
      = s.m_devDel.dropWhile (fun it => decide (it.tot < now)) :=
    checkDeletedDevicesLoop_dropWhile now 0 s.m_devDel r
  refine ⟨⟨s.m_devDel.takeWhile (fun it => decide (it.tot < now)), ?_, ?_, ?_⟩, ?_⟩
  · rw [hd, List.takeWhile_append_dropWhile]
  · intro e he
    simpa using List.mem_takeWhile_imp he
  · intro h hh
    exact checkDeletedDevicesLoop_head now 0 s.m_devDel r h hh
  · intro pre it rest hs hpre hit
    rw [hd, hs]
    exact dropWhile_append_of_all _ pre it rest (fun e he => by simpa using hpre e he)
      (by simpa using hit)

/-- C26 at the grace list with deadlines 900, 1100, 950 swept at time 1000:
the first entry is removed, the second has not expired and is kept, and so is
the third, whose deadline has passed. -/
theorem checkDeletedDevices_removes_longest_expired_front_witness :
    exServerGraceMixed.m_devDel
        = [⟨some exDeviceRes, 900⟩] ++ ⟨some exDevice, 1100⟩ :: [⟨some exDeviceTwoRes, 950⟩]
    ∧ (∀ e ∈ [(⟨some exDeviceRes, 900⟩ : s_devDel_t)], e.tot < 1000)
    ∧ (1000 : Int) ≤ (⟨some exDevice, 1100⟩ : s_devDel_t).tot
    ∧ (⟨some exDeviceTwoRes, 950⟩ : s_devDel_t).tot < 1000
    ∧ (checkDeletedDevices (constTime 1000) exServerGraceMixed exRegistry).1.m_devDel
        = [⟨some exDevice, 1100⟩, ⟨some exDeviceTwoRes, 950⟩] :=
  ⟨by decide, by decide, by decide, by decide,
    (checkDeletedDevices_removes_longest_expired_front 1000 exServerGraceMixed exRegistry).2
      [⟨some exDeviceRes, 900⟩] ⟨some exDevice, 1100⟩ [⟨some exDeviceTwoRes, 950⟩]
      (by decide) (by decide) (by decide)⟩


/-! ### write: calls that submit nothing, the NULL Resource -/

/-- The return value of a write (Resource not NULL) on a server that is not
alive: the last statement of write decides by the status the slot holds. -/
theorem write_not_alive_ret
    (lwm2m_data_parse : lwm2m_uri_t → List Nat → Int → Nat → List lwm2m_data_t)
    (lwm2mH : lwm2m_context_t) (r : ResourcePtr) (val : String) (p : s_lwm2m_obsparams_t)
    (lwm2mRet : Int) (spins : List (List DmCall)) :
    write lwm2m_data_parse false lwm2mH (some r) val (some p) lwm2mRet spins
      = Outcome.returns ⟨if p.status = CHANGED_2_04 then 0 else -1, p⟩ := by
  by_cases h : p.status = CHANGED_2_04 <;> simp [write, writeEpilogue, h]

/-- The return value of a write (Resource not NULL) whose checks find no
parent Object, no Device or no registered client of the Device name. -/
theorem write_unresolved_ret
    (lwm2m_data_parse : lwm2m_uri_t → List Nat → Int → Nat → List lwm2m_data_t)
    (isAlive : Bool) (lwm2mH : lwm2m_context_t) (r : ResourcePtr) (val : String)
    (p : s_lwm2m_obsparams_t) (lwm2mRet : Int) (spins : List (List DmCall))
    (hres : resolveTarget isAlive lwm2mH r = none) :
    write lwm2m_data_parse isAlive lwm2mH (some r) val (some p) lwm2mRet spins
      = Outcome.returns ⟨if p.status = CHANGED_2_04 then 0 else -1, p⟩ := by
  cases isAlive <;> by_cases h : p.status = CHANGED_2_04 <;>
    simp [write, writeEpilogue, h, hres]

/-- The return value of a read in the same situations: -1, whatever the slot
holds. -/
theorem read_unsubmitted_ret
    (lwm2m_data_parse : lwm2m_uri_t → List Nat → Int → Nat → List lwm2m_data_t)
    (isAlive : Bool) (lwm2mH : lwm2m_context_t) (r : ResourcePtr)
    (p : s_lwm2m_obsparams_t) (lwm2mRet : Int) (spins : List (List DmCall))
    (hres : isAlive = false ∨ resolveTarget isAlive lwm2mH r = none) :
    read lwm2m_data_parse isAlive lwm2mH (some r) (some p) lwm2mRet spins
      = Outcome.returns ⟨-1, none, p⟩ := by
  rcases hres with h | h
  · simp [read, h]
  · cases isAlive <;> simp [read, h]

/-- C22: a write with a caller's slot that still holds status CHANGED_2_04
from an earlier transaction returns 0, not a negative value, although no
request is submitted: on a server that is not alive, for a Resource without
parent Object, for a Resource whose Object has no Device and for a Device name
that is not registered; the slot is untouched. A read in the first of these
situations returns -1. -/
theorem write_unsubmitted_stale_changed_returns_zero :
    exUsedSlot.status = CHANGED_2_04
    ∧ write exParse false exContext (some exResPtr) "X" (some exUsedSlot) COAP_NO_ERROR []
        = Outcome.returns ⟨0, exUsedSlot⟩
    ∧ write exParse true exContext (some exResPtrNoObject) "X" (some exUsedSlot) COAP_NO_ERROR []
        = Outcome.returns ⟨0, exUsedSlot⟩
    ∧ write exParse true exContext (some exResPtrNoDevice) "X" (some exUsedSlot) COAP_NO_ERROR []
        = Outcome.returns ⟨0, exUsedSlot⟩
    ∧ write exParse true exContextNoClient (some exResPtr) "X" (some exUsedSlot) COAP_NO_ERROR []
        = Outcome.returns ⟨0, exUsedSlot⟩
    ∧ read exParse false exContext (some exResPtr) (some exUsedSlot) COAP_NO_ERROR []
        = Outcome.returns ⟨-1, none, exUsedSlot⟩ := by
  decide

/-- C23: write called with a NULL Resource evaluates `p_res->getObject()`: the
NULL test in front of it only sets `ret`, the dereference that follows is not
inside an `if( ret == 0 )` block, so the call runs into undefined behaviour
for every state and every other argument; read in the same situation returns
-1 without touching the Resource. -/
theorem write_null_resource_faults
    (lwm2m_data_parse : lwm2m_uri_t → List Nat → Int → Nat → List lwm2m_data_t)
    (isAlive : Bool) (lwm2mH : lwm2m_context_t) (val : String)
    (p_cbParams : Option s_lwm2m_obsparams_t) (lwm2mRet : Int) (spins : List (List DmCall)) :
    write lwm2m_data_parse isAlive lwm2mH none val p_cbParams lwm2mRet spins = Outcome.fault
    ∧ ∃ slot, read lwm2m_data_parse isAlive lwm2mH none p_cbParams lwm2mRet spins
        = Outcome.returns ⟨-1, none, slot⟩ := by
  refine ⟨rfl, ?_⟩
  cases p_cbParams with
  | none => exact ⟨zeroSlot, rfl⟩
  | some p => exact ⟨p, rfl⟩


/-! ### The Object branch of readWriteResCb against notifyObjCb -/

/-- The inner loop of the Object branch of readWriteResCb advances
`p_lwm2mData` once per round and reads every position it passes. -/
theorem rwObjInner_some (r : LWM2MResource) (arr : List lwm2m_data_t) (cur n idx : Nat)
    (p : s_lwm2m_obsparams_t) (log : List ResNotify)
    (res : Nat × s_lwm2m_obsparams_t × List ResNotify)
    (h : rwObjInner r arr cur n idx p log = some res) :
    res.1 = idx + n ∧ (0 < n → idx + n ≤ arr.length) := by
  induction n generalizing idx p log with
  | zero =>
    simp only [rwObjInner, Option.some.injEq] at h
    subst h
    exact ⟨rfl, fun h0 => absurd h0 (by decide)⟩
  | succ n ih =>
    simp only [rwObjInner] at h
    cases harr : arr[idx]? with
    | none => simp [harr] at h
    | some e =>
      have hlt : idx < arr.length := by
        by_contra hn
        rw [List.getElem?_eq_none (Nat.le_of_not_lt hn)] at harr
        exact absurd harr (by simp)
      simp only [harr] at h
      split at h
      · obtain ⟨h1, h2⟩ := ih _ _ _ h
        refine ⟨by omega, fun _ => ?_⟩
        by_cases hn : 0 < n
        · have := h2 hn
          omega
        · omega
      · obtain ⟨h1, h2⟩ := ih _ _ _ h
        refine ⟨by omega, fun _ => ?_⟩
        by_cases hn : 0 < n
        · have := h2 hn
          omega
        · omega

/-- With two Resources or more and a payload that is not empty, the loops of
the Object branch of readWriteResCb read `p_lwm2mData->id` behind the last
element: the pointer is not set back for the second Resource. -/
theorem rwObjOuter_two_resources (arr : List lwm2m_data_t) (r1 r2 : LWM2MResource)
    (rest : List LWM2MResource) (p : s_lwm2m_obsparams_t) (log : List ResNotify)
    (hlen : 0 < arr.length) :
    rwObjOuter arr arr.length (r1 :: r2 :: rest) 0 p log = none := by
  simp only [rwObjOuter]
  cases h1 : rwObjInner r1 arr 0 arr.length 0 p log with
  | none => rfl
  | some t1 =>
    obtain ⟨idx1, p1, log1⟩ := t1
    have hi : idx1 = 0 + arr.length := (rwObjInner_some _ _ _ _ _ _ _ _ h1).1
    simp only []
    cases h2 : rwObjInner r2 arr idx1 arr.length idx1 p1 log1 with
    | none => rfl
    | some t2 =>
      have := (rwObjInner_some _ _ _ _ _ _ _ _ h2).2 hlen
      omega

/-- Every DM response for an Object (instance flag set, Resource flag not set)
of a directory Device that has two Resources or more, with a payload parsed
into at least one element, makes readWriteResCb read behind the parsed array. -/
theorem readWriteResCb_object_branch_reads_past_array
    (lwm2m_data_parse : lwm2m_uri_t → List Nat → Int → Nat → List lwm2m_data_t)
    (m_devMap : DevMap) (clientID : Nat) (uriP : lwm2m_uri_t) (status : Int) (format : Nat)
    (data : List Nat) (dataLength : Int) (slot : s_lwm2m_obsparams_t)
    (q : String × LWM2MDevice) (o : LWM2MObject) (r1 r2 : LWM2MResource)
    (rest : List LWM2MResource)
    (hdev : findDevByID m_devMap clientID = some q)
    (hobj : uriObject q.2 uriP = some o)
    (hflag : LWM2M_URI_IS_SET_RESOURCE uriP = false)
    (hrs : o.m_resVect = r1 :: r2 :: rest)
    (hlen : 0 < (lwm2m_data_parse uriP data dataLength format).length) :
    readWriteResCb lwm2m_data_parse m_devMap clientID uriP status format data dataLength slot
      = none := by
  obtain ⟨k, d⟩ := q
  simp only [readWriteResCb, hdev]
  have hfo : (if LWM2M_URI_IS_SET_INSTANCE uriP = true then
      d.getObject uriP.objectId (uriP.instanceId % 2 ^ 8) else none) = uriObject d uriP := rfl
  rw [hfo, hobj]
  simp only [hflag, Bool.false_eq_true, if_false, hrs]
  rw [rwObjOuter_two_resources _ _ _ _ _ _ hlen]

/-- C25: the Object branch of readWriteResCb and notifyObjCb differ. For the
Object /3/0 of sensor-01 with the one Resource 0 and a payload parsed into the
elements with ids 1, 0, readWriteResCb notifies Resource 0 with the element of
id 1 (the first of the array) where notifyObjCb notifies it with the element
of id 0; for the Object with the Resources 0 and 1 and a payload parsed into
the one element of id 0, readWriteResCb reads a payload index that is not
below the parsed length where notifyObjCb notifies Resource 0 once. -/
theorem readWriteResCb_object_branch_differs_from_notifyObjCb :
    (readWriteResCb exParse exDirectory 1 exUriObj COAP_205_CONTENT 0 [1, 0] 2 zeroSlot).map
        (fun x => notifiedElements x.2)
      = some [(⟨0, [5]⟩, some ⟨1, ""⟩)]
    ∧ notifiedElements
        (notifyObjCb exParse exDirectory 1 exUriObj COAP_205_CONTENT 0 [1, 0] 2 ⟨7, 0⟩
          exRegistry).2
      = [(⟨0, [5]⟩, some ⟨0, ""⟩)]
    ∧ readWriteResCb exParse exDirectoryTwoRes 1 exUriObj COAP_205_CONTENT 0 [0] 1 zeroSlot
      = none
    ∧ notifiedElements
        (notifyObjCb exParse exDirectoryTwoRes 1 exUriObj COAP_205_CONTENT 0 [0] 1 ⟨7, 0⟩
          exRegistry).2
      = [(⟨0, [5]⟩, some ⟨0, ""⟩)] := by
  decide


/-! ### Replacement and deregistration within the bounds of devName and of int -/

theorem toInt32_of_range (x : Int) (h0 : -2 ^ 31 ≤ x) (h1 : x < 2 ^ 31) : toInt32 x = x := by
  unfold toInt32
  omega

/-- The deadline offset `getLifetime() * 2` for a lifetime whose double is an
`int`. -/
theorem toInt32_double (L : Int) (h0 : -2 ^ 30 ≤ L) (h1 : L < 2 ^ 30) :
    toInt32 (toInt32 L * 2) = 2 * L := by
  rw [toInt32_of_range L (by omega) (by omega), toInt32_of_range (L * 2) (by omega) (by omega)]
  omega

/-- A name longer than the devName buffer is not what the buffer holds. -/
theorem strncpy_ne_of_length_gt {name : String} {size : Nat} (h : size < name.length) :
    strncpy name size ≠ name.toList := by
  intro heq
  have h1 := congrArg List.length heq
  have h3 : name.toList.length = name.length := by cases name; rfl
  simp only [strncpy, List.length_take, h3] at h1
  omega

/-- C4, the run that differs: with a devName buffer of 16 bytes and the Device
temperature-sensor-01 in the directory, the COAP_201_CREATED callback for the
client of that name appends Deregistered and Registered with devName
temperature-sens, which is not the name. -/
theorem replacement_events_carry_cut_name :
    mapFind exServerLongName.m_devMap "temperature-sensor-01" = some exDeviceLongName
    ∧ (monitorCb 16 exLifetime exServerLongName exContextLongNames 1 COAP_201_CREATED 1000
        8).m_devEv
      = [⟨⟨"temperature-sens".toList⟩, e_lwm2m_serverobserver_event_deregister⟩,
         ⟨⟨"temperature-sens".toList⟩, e_lwm2m_serverobserver_event_register⟩]
    ∧ "temperature-sens".toList ≠ "temperature-sensor-01".toList := by
  decide

/-- C4 as the code has it: when the directory already holds a Device named n
(the entry at key n is a Device whose getName is n) and n fits the devName
buffer (at most sizeof(devName) characters), a monitoring callback with
status COAP_201_CREATED for a client named n appends exactly two events to the
lifecycle queue: first Deregistered, then Registered, both with devName n. -/
theorem monitorCb_created_existing_pushes_two_events
    (devNameSize : Nat) (getLifetime : lwm2m_context_t → LWM2MDevice → Int)
    (s : LWM2MServer) (lwm2mH : lwm2m_context_t) (clientID : Nat) (now : Int) (newAddr : Nat)
    (targetP : lwm2m_client_t) (D : LWM2MDevice) (n : String)
    (hcli : lwm2m_list_find lwm2mH.clientList clientID = some targetP)
    (hname : targetP.name = n)
    (hdir : mapFind s.m_devMap n = some D)
    (hD : D.getName = n)
    (hfit : n.length ≤ devNameSize) :
    (monitorCb devNameSize getLifetime s lwm2mH clientID COAP_201_CREATED now newAddr).m_devEv
      = s.m_devEv ++
          [⟨⟨n.toList⟩, e_lwm2m_serverobserver_event_deregister⟩,
           ⟨⟨n.toList⟩, e_lwm2m_serverobserver_event_register⟩] := by
  subst hname
  simp [monitorCb, hcli, hdir, moveToDeleted, mkEvent, hD, newDevice_getName,
    strncpy_of_length_le hfit]

/-- The replacement of sensor-01 at the example server with a devName buffer
of 32 bytes: the queue grows by Deregistered, Registered, both with devName
sensor-01. -/
theorem monitorCb_created_existing_pushes_two_events_witness :
    (monitorCb 32 exLifetime exServer exContext 1 COAP_201_CREATED 1000 8).m_devEv
      = exServer.m_devEv ++
          [⟨⟨"sensor-01".toList⟩, e_lwm2m_serverobserver_event_deregister⟩,
           ⟨⟨"sensor-01".toList⟩, e_lwm2m_serverobserver_event_register⟩] :=
  monitorCb_created_existing_pushes_two_events 32 exLifetime exServer exContext 1 1000 8
    exClient exDevice "sensor-01" (by decide) (by decide) (by decide) (by decide) (by decide)

/-- C5, the run that differs: the Device sensor-01 with lifetime 2^30 is
replaced at time 1000; the product `getLifetime() * 2` does not fit `int`, and
the deadline stored in the grace list is 1000 - 2^31, not 1000 + 2 * 2^30. -/
theorem replacement_deadline_wraps_at_lifetime_two_pow_30 :
    mapFind exServer.m_devMap "sensor-01" = some exDevice
    ∧ exLifetimeHuge exContext exDevice = 2 ^ 30
    ∧ (monitorCb 32 exLifetimeHuge exServer exContext 1 COAP_201_CREATED 1000 8).m_devDel
      = [⟨some exDevice, 1000 - 2 ^ 31⟩]
    ∧ (1000 - 2 ^ 31 : Int) ≠ 1000 + 2 * exLifetimeHuge exContext exDevice := by
  decide

/-- C5 as the code has it: when the directory (a well-formed map) already
holds a Device D under the name n, with a lifetime L whose double is an `int`
(-2^30 <= L < 2^30), after a monitoring callback with status
COAP_201_CREATED for a client named n at time now, with newAddr the address
of the newly allocated Device (not the address of any Device the server
owns): the directory maps n to the Device built for the client at newAddr,
which is not D, and D is the last entry of the delete grace list, with
deadline now + 2 * L. -/
theorem monitorCb_created_existing_replaces_device
    (devNameSize : Nat) (getLifetime : lwm2m_context_t → LWM2MDevice → Int)
    (s : LWM2MServer) (lwm2mH : lwm2m_context_t) (clientID : Nat) (now : Int) (newAddr : Nat)
    (targetP : lwm2m_client_t) (D : LWM2MDevice) (n : String)
    (hmap : (keys s.m_devMap).Nodup)
    (hcli : lwm2m_list_find lwm2mH.clientList clientID = some targetP)
    (hname : targetP.name = n)
    (hdir : mapFind s.m_devMap n = some D)
    (hnew : newAddr ∉ liveAddrs s)
    (hL0 : -2 ^ 30 ≤ getLifetime lwm2mH D) (hL1 : getLifetime lwm2mH D < 2 ^ 30) :
    mapFind (monitorCb devNameSize getLifetime s lwm2mH clientID COAP_201_CREATED now
        newAddr).m_devMap n = some (newDevice newAddr targetP)
    ∧ (newDevice newAddr targetP).addr = newAddr
    ∧ newDevice newAddr targetP ≠ D
    ∧ (monitorCb devNameSize getLifetime s lwm2mH clientID COAP_201_CREATED now
        newAddr).m_devDel = s.m_devDel ++ [⟨some D, now + 2 * getLifetime lwm2mH D⟩]
    ∧ (monitorCb devNameSize getLifetime s lwm2mH clientID COAP_201_CREATED now
        newAddr).m_devDel.getLast? = some ⟨some D, now + 2 * getLifetime lwm2mH D⟩ := by
  subst hname
  have hdel : (monitorCb devNameSize getLifetime s lwm2mH clientID COAP_201_CREATED now
      newAddr).m_devDel = s.m_devDel ++ [⟨some D, now + 2 * getLifetime lwm2mH D⟩] := by
    simp [monitorCb, hcli, hdir, moveToDeleted, toInt32_double _ hL0 hL1]
  refine ⟨?_, newDevice_addr _ _, ?_, hdel, ?_⟩
  · simp only [monitorCb, hcli, hdir, moveToDeleted, if_true, newDevice_getName]
    exact mapFind_mapInsert _ (not_mem_keys_mapErase _ hmap)
  · intro heq
    apply hnew
    have h1 := addr_mem_liveAddrs (mapFind_mem hdir)
    rw [← heq, newDevice_addr] at h1
    exact h1
  · rw [hdel]
    simp

/-- The replacement of sensor-01 at the example server, new Device at address 8,
lifetime 60, time 1000: deadline 1120. -/
theorem monitorCb_created_existing_replaces_device_witness :
    mapFind (monitorCb 32 exLifetime exServer exContext 1 COAP_201_CREATED 1000
        8).m_devMap "sensor-01" = some (newDevice 8 exClient)
    ∧ (newDevice 8 exClient).addr = 8
    ∧ newDevice 8 exClient ≠ exDevice
    ∧ (monitorCb 32 exLifetime exServer exContext 1 COAP_201_CREATED 1000
        8).m_devDel = exServer.m_devDel ++ [⟨some exDevice, 1000 + 2 * exLifetime exContext exDevice⟩]
    ∧ (monitorCb 32 exLifetime exServer exContext 1 COAP_201_CREATED 1000
        8).m_devDel.getLast? = some ⟨some exDevice, 1000 + 2 * exLifetime exContext exDevice⟩ :=
  monitorCb_created_existing_replaces_device 32 exLifetime exServer exContext 1 1000 8
    exClient exDevice "sensor-01" (by decide) (by decide) (by decide) (by decide) (by decide)
    (by decide) (by decide)

/-- C6, the runs that differ: the deregistration of temperature-sensor-01 with
a devName buffer of 16 bytes appends Deregistered with devName
temperature-sens, which is not the name of the Device; the deregistration of
sensor-01 with lifetime 2^30 at time 1000 stores the deadline 1000 - 2^31, not
1000 + 2 * 2^30. -/
theorem deregistration_cuts_name_and_wraps_deadline :
    findDevByID exServerLongName.m_devMap 1 = some (exDeviceLongName.getName, exDeviceLongName)
    ∧ (monitorCb 16 exLifetime exServerLongName exContextLongNames 1 COAP_202_DELETED 1000
        8).m_devEv = [⟨⟨"temperature-sens".toList⟩, e_lwm2m_serverobserver_event_deregister⟩]
    ∧ "temperature-sens".toList ≠ exDeviceLongName.getName.toList
    ∧ findDevByID exServer.m_devMap 1 = some (exDevice.getName, exDevice)
    ∧ (monitorCb 32 exLifetimeHuge exServer exContext 1 COAP_202_DELETED 1000 8).m_devDel
      = [⟨some exDevice, 1000 - 2 ^ 31⟩]
    ∧ (1000 - 2 ^ 31 : Int) ≠ 1000 + 2 * exLifetimeHuge exContext exDevice := by
  decide

/-- C6 as the code has it: when the scan of the directory (a well-formed map)
for a Device whose internal ID equals the client ID of a COAP_202_DELETED
callback finds the Device D under its name, the name of D fits the devName
buffer (at most sizeof(devName) characters) and the double of the lifetime of
D is an `int` (-2^30 <= lifetime(D) < 2^30), then afterwards D's name is
absent from the directory, D is the last entry of the delete grace list with
deadline now + 2 * lifetime(D), and exactly one event, Deregistered with D's
name as devName, has been appended to the lifecycle queue. -/
theorem monitorCb_deleted_moves_device_to_grace
    (devNameSize : Nat) (getLifetime : lwm2m_context_t → LWM2MDevice → Int)
    (s : LWM2MServer) (lwm2mH : lwm2m_context_t) (clientID : Nat) (now : Int) (newAddr : Nat)
    (D : LWM2MDevice)
    (hmap : (keys s.m_devMap).Nodup)
    (hfind : findDevByID s.m_devMap clientID = some (D.getName, D))
    (hfit : D.getName.length ≤ devNameSize)
    (hL0 : -2 ^ 30 ≤ getLifetime lwm2mH D) (hL1 : getLifetime lwm2mH D < 2 ^ 30) :
    D.getName ∉ keys (monitorCb devNameSize getLifetime s lwm2mH clientID COAP_202_DELETED now
        newAddr).m_devMap
    ∧ getLWM2MDevice (monitorCb devNameSize getLifetime s lwm2mH clientID COAP_202_DELETED now
        newAddr).m_devMap D.getName = none
    ∧ (monitorCb devNameSize getLifetime s lwm2mH clientID COAP_202_DELETED now
        newAddr).m_devDel = s.m_devDel ++ [⟨some D, now + 2 * getLifetime lwm2mH D⟩]
    ∧ (monitorCb devNameSize getLifetime s lwm2mH clientID COAP_202_DELETED now
        newAddr).m_devDel.getLast? = some ⟨some D, now + 2 * getLifetime lwm2mH D⟩
    ∧ (monitorCb devNameSize getLifetime s lwm2mH clientID COAP_202_DELETED now
        newAddr).m_devEv = s.m_devEv ++
          [⟨⟨D.getName.toList⟩, e_lwm2m_serverobserver_event_deregister⟩] := by
  have hst : monitorCb devNameSize getLifetime s lwm2mH clientID COAP_202_DELETED now newAddr
      = moveToDeleted devNameSize getLifetime lwm2mH now s D.getName D := by
    simp [monitorCb, hfind, COAP_202_DELETED, COAP_201_CREATED]
  have hkey : D.getName ∉ keys (mapErase s.m_devMap D.getName) :=
    not_mem_keys_mapErase _ hmap
  rw [hst]
  refine ⟨hkey, ?_, ?_, ?_, ?_⟩
  · rw [getLWM2MDevice_eq_mapFind]
    exact mapFind_eq_none hkey
  · simp [moveToDeleted, toInt32_double _ hL0 hL1]
  · simp [moveToDeleted, toInt32_double _ hL0 hL1]
  · simp [moveToDeleted, mkEvent, strncpy_of_length_le hfit]

/-- The deregistration of client 1 (sensor-01, lifetime 60) at the example
server at time 1000 with a devName buffer of 32 bytes. -/
theorem monitorCb_deleted_moves_device_to_grace_witness :
    exDevice.getName ∉ keys (monitorCb 32 exLifetime exServer exContext 1 COAP_202_DELETED 1000
        8).m_devMap
    ∧ getLWM2MDevice (monitorCb 32 exLifetime exServer exContext 1 COAP_202_DELETED 1000
        8).m_devMap exDevice.getName = none
    ∧ (monitorCb 32 exLifetime exServer exContext 1 COAP_202_DELETED 1000
        8).m_devDel = exServer.m_devDel ++ [⟨some exDevice, 1000 + 2 * exLifetime exContext exDevice⟩]
    ∧ (monitorCb 32 exLifetime exServer exContext 1 COAP_202_DELETED 1000
        8).m_devDel.getLast? = some ⟨some exDevice, 1000 + 2 * exLifetime exContext exDevice⟩
    ∧ (monitorCb 32 exLifetime exServer exContext 1 COAP_202_DELETED 1000
        8).m_devEv = exServer.m_devEv ++
          [⟨⟨exDevice.getName.toList⟩, e_lwm2m_serverobserver_event_deregister⟩] :=
  monitorCb_deleted_moves_device_to_grace 32 exLifetime exServer exContext 1 1000 8
    exDevice (by decide) (by decide) (by decide) (by decide) (by decide)


/-! ### The grace sweeps of a wait, as erasures -/

theorem obsErase_of_none {κ α : Type} [DecidableEq κ] (m : List (κ × α)) (key : κ)
    (h : obsFind m key = none) : obsErase m key = m := by
  induction m with
  | nil => rfl
  | cons q rest ih =>
    obtain ⟨k1, v⟩ := q
    by_cases h1 : k1 = key
    · simp [obsFind, h1] at h
    · simp only [obsFind, h1, if_false] at h
      simp [obsErase, h1, ih h]

theorem eraseKeys_cons {κ α : Type} [DecidableEq κ] (k : κ) (ks : List κ) (m : List (κ × α)) :
    eraseKeys (k :: ks) m = eraseKeys ks (obsErase m k) := rfl

theorem eraseKeys_append {κ α : Type} [DecidableEq κ] (ks1 ks2 : List κ) (m : List (κ × α)) :
    eraseKeys (ks1 ++ ks2) m = eraseKeys ks2 (eraseKeys ks1 m) := by
  simp [eraseKeys, List.foldl_append]

theorem deleteResParams_eq_eraseKeys (dev obj : Nat) (l : List LWM2MResource) (j : Nat)
    (m : List (ResKey × ObsEntry)) :
    deleteResParams dev obj l j m = eraseKeys (resKeys dev obj l j) m := by
  induction l generalizing j m with
  | nil => rfl
  | cons x rest ih =>
    simp only [deleteResParams, resKeys, eraseKeys_cons]
    cases hf : obsFind m ⟨dev, obj, j⟩ with
    | none =>
      simp only []
      rw [obsErase_of_none m _ hf]
      exact ih _ _
    | some e =>
      simp only []
      exact ih _ _

theorem deleteObjParams_eq_eraseKeys (dev : Nat) (os : List LWM2MObject) (i : Nat)
    (m : List (ResKey × ObsEntry)) :
    deleteObjParams dev os i m = eraseKeys (objKeys dev os i) m := by
  induction os generalizing i m with
  | nil => rfl
  | cons o rest ih =>
    simp only [deleteObjParams, objKeys, eraseKeys_append]
    rw [ih, deleteResParams_eq_eraseKeys]

/-- The sweep of checkDeletedDevices does to the registries what the erasure
of the handles of `sweptKeys` does to the Resource registry. -/
theorem checkDeletedDevicesLoop_eq_eraseKeys (time : Nat → Int) (k : Nat)
    (g : List s_devDel_t) (r : ObsRegistry) :
    (checkDeletedDevicesLoop time k g r).2
      = { r with m_obsResMap := eraseKeys (sweptKeys time k g) r.m_obsResMap } := by
  induction g generalizing k r with
  | nil => rfl
  | cons it rest ih =>
    by_cases hlt : it.tot < time k
    · simp only [checkDeletedDevicesLoop, sweptKeys, hlt, if_true, eraseKeys_append]
      rw [ih]
      cases it.p_dev with
      | none => rfl
      | some d =>
        simp only [deletedObserveParams, deleteObjParams_eq_eraseKeys]
    · simp only [checkDeletedDevicesLoop, sweptKeys, hlt, if_false]
      rfl

theorem sweepPasses_eq_eraseKeys (used : List ObsPass) (r : ObsRegistry) :
    sweepPasses used r = { r with m_obsResMap := eraseKeys (passKeys used) r.m_obsResMap } := by
  induction used generalizing r with
  | nil => rfl
  | cons p rest ih =>
    have h1 : sweepPasses (p :: rest) r
        = sweepPasses rest (checkDeletedDevicesLoop p.time 0 p.m_devDel r).2 := rfl
    rw [h1, ih, checkDeletedDevicesLoop_eq_eraseKeys]
    simp [passKeys, eraseKeys_append]

theorem obsPtrs_eraseKeys {κ : Type} [DecidableEq κ] (ks : List κ) (m : List (κ × ObsEntry)) :
    obsPtrs (eraseKeys ks m) = eraseKeys ks (obsPtrs m) := by
  induction ks generalizing m with
  | nil => rfl
  | cons k rest ih => rw [eraseKeys_cons, eraseKeys_cons, ih, obsPtrs_obsErase]

/-- The registries (as maps to Entry pointers) after the sweeps of a sequence
of `runServer()` calls. -/
theorem regPtrs_sweepPasses (used : List ObsPass) (r : ObsRegistry) :
    regPtrs (sweepPasses used r)
      = (eraseKeys (passKeys used) (regPtrs r).1, (regPtrs r).2) := by
  rw [sweepPasses_eq_eraseKeys]
  simp [regPtrs, obsPtrs_eraseKeys]

theorem regPtrs_runObsPass
    (lwm2m_data_parse : lwm2m_uri_t → List Nat → Int → Nat → List lwm2m_data_t)
    (p : ObsPass) (r : ObsRegistry) :
    regPtrs (runObsPass lwm2m_data_parse p r) = regPtrs (sweepPasses [p] r) := by
  unfold runObsPass
  rw [runObsCalls_regPtrs]
  rfl

theorem regPtrs_sweepPasses_congr (used : List ObsPass) {r1 r2 : ObsRegistry}
    (h : regPtrs r1 = regPtrs r2) : regPtrs (sweepPasses used r1) = regPtrs (sweepPasses used r2) := by
  rw [regPtrs_sweepPasses, regPtrs_sweepPasses, h]

theorem sweepPasses_append (u1 u2 : List ObsPass) (r : ObsRegistry) :
    sweepPasses (u1 ++ u2) r = sweepPasses u2 (sweepPasses u1 r) := by
  simp [sweepPasses, List.foldl_append]

/-- The wait loop of observe ends only after a status that differs from -1 has
been read; the registries are then those at the start of the wait with the
grace sweeps of the `runServer()` calls made applied (callbacks store into
Entries only). -/
theorem obsWaitLoop_returns
    (lwm2m_data_parse : lwm2m_uri_t → List Nat → Int → Nat → List lwm2m_data_t)
    (status : ObsRegistry → Option Int) (spins : List ObsPass) (r r3 : ObsRegistry)
    (h : obsWaitLoop lwm2m_data_parse status spins r = Outcome.returns r3) :
    (∃ used rest, spins = used ++ rest ∧ regPtrs r3 = regPtrs (sweepPasses used r))
    ∧ ∃ st, status r3 = some st ∧ st ≠ -1 := by
  induction spins generalizing r with
  | nil =>
    simp only [obsWaitLoop] at h
    cases hs : status r with
    | none => simp [hs] at h
    | some st =>
      simp only [hs] at h
      by_cases hst : st ≠ -1
      · simp only [hst, if_true, Outcome.returns.injEq, ne_eq, not_false_eq_true] at h
        subst h
        exact ⟨⟨[], [], rfl, rfl⟩, st, hs, hst⟩
      · simp [hst] at h
  | cons spin rest ih =>
    simp only [obsWaitLoop] at h
    cases hs : status (runObsPass lwm2m_data_parse spin r) with
    | none => simp [hs] at h
    | some st =>
      simp only [hs] at h
      by_cases hst : st ≠ -1
      · simp only [hst, if_true, Outcome.returns.injEq, ne_eq, not_false_eq_true] at h
        subst h
        exact ⟨⟨[spin], rest, rfl, regPtrs_runObsPass _ _ _⟩, st, hs, hst⟩
      · simp only [hst, if_false] at h
        obtain ⟨⟨used, rest2, hsp, hp⟩, h2⟩ := ih _ h
        refine ⟨⟨spin :: used, rest2, by rw [hsp]; rfl, ?_⟩, h2⟩
        rw [hp, regPtrs_sweepPasses_congr used (regPtrs_runObsPass lwm2m_data_parse spin r)]
        rfl


/-! ### observe: what the calls do to the registries -/

theorem observeRes_prepare_true (r : ObsRegistry) (key : ResKey) (newEntry : Nat) :
    (match obsFind r.m_obsResMap key with
      | none => { r with m_obsResMap := obsInsert r.m_obsResMap key ⟨newEntry, zeroSlot⟩ }
      | some _ => r)
      = { r with m_obsResMap := obsInsert r.m_obsResMap key ⟨newEntry, zeroSlot⟩ } := by
  cases hf : obsFind r.m_obsResMap key with
  | none => rfl
  | some e => simp [obsInsert, hf]

theorem observeObj_prepare_true (r : ObsRegistry) (key : ObjKey) (newEntry : Nat) :
    (match obsFind r.m_obsObjMap key with
      | none => { r with m_obsObjMap := obsInsert r.m_obsObjMap key ⟨newEntry, zeroSlot⟩ }
      | some _ => r)
      = { r with m_obsObjMap := obsInsert r.m_obsObjMap key ⟨newEntry, zeroSlot⟩ } := by
  cases hf : obsFind r.m_obsObjMap key with
  | none => rfl
  | some e => simp [obsInsert, hf]

theorem obsFind_none_of_obsPtrs_eq {κ : Type} [DecidableEq κ] {m1 m2 : List (κ × ObsEntry)}
    {key : κ} (hp : obsPtrs m1 = obsPtrs m2) (h : obsFind m2 key = none) :
    obsFind m1 key = none := by
  have h1 := obsFind_obsPtrs m1 key
  have h2 := obsFind_obsPtrs m2 key
  rw [hp, h2, h] at h1
  cases hf : obsFind m1 key with
  | none => rfl
  | some e => simp [hf] at h1

theorem obsFind_obsInsert_self {κ α : Type} [DecidableEq κ] (m : List (κ × α)) (key : κ)
    (v : α) : ∃ e, obsFind (obsInsert m key v) key = some e := by
  cases hf : obsFind m key with
  | none => exact ⟨v, by simp [obsInsert, hf, obsFind]⟩
  | some e => exact ⟨e, by simp [obsInsert, hf]⟩

theorem entryStatus_none_of_find {κ : Type} [DecidableEq κ] {m : List (κ × ObsEntry)} {key : κ}
    (h : obsFind m key = none) : entryStatus m key = none := by
  simp [entryStatus, h]

/-- The status of the Entry of a handle after observe( H, true ) has found or
made the Entry and stored the sentinel. -/
theorem entryStatus_prepared {κ : Type} [DecidableEq κ] (m : List (κ × ObsEntry)) (key : κ)
    (e : ObsEntry) :
    entryStatus (setEntryStatus (obsInsert m key e) key (-1)) key = some (-1) := by
  obtain ⟨e1, he1⟩ := obsFind_obsInsert_self m key e
  simp only [setEntryStatus, he1, entryStatus]
  rw [obsFind_obsStore_self _ _ _ _ he1]


/-! ### The wait loop of read and write -/

/-- The wait loop of read and write with a slot at the sentinel and loop
passes in which nothing arrives: after any number of passes it is still
running. -/
theorem waitLoop_idle
    (lwm2m_data_parse : lwm2m_uri_t → List Nat → Int → Nat → List lwm2m_data_t)
    (n : Nat) (p : s_lwm2m_obsparams_t) (hp : p.status = NO_ERROR) :
    waitLoop lwm2m_data_parse (List.replicate n []) p = Outcome.hangs := by
  induction n with
  | zero => simp [waitLoop, hp]
  | succ n ih => simp [List.replicate_succ, waitLoop, runCalls, hp, ih]

/-- The wait loop of read and write ends only with a status that differs from
the sentinel. -/
theorem waitLoop_returns
    (lwm2m_data_parse : lwm2m_uri_t → List Nat → Int → Nat → List lwm2m_data_t)
    (spins : List (List DmCall)) (p p2 : s_lwm2m_obsparams_t)
    (h : waitLoop lwm2m_data_parse spins p = Outcome.returns p2) : p2.status ≠ NO_ERROR := by
  induction spins generalizing p with
  | nil =>
    simp only [waitLoop] at h
    split at h
    · rename_i hs
      simp only [Outcome.returns.injEq] at h
      subst h
      exact hs
    · exact absurd h (by simp)
  | cons spin rest ih =>
    simp only [waitLoop] at h
    cases hr : runCalls lwm2m_data_parse spin p with
    | none => simp [hr] at h
    | some p1 =>
      simp only [hr] at h
      split at h
      · rename_i hs
        simp only [Outcome.returns.injEq] at h
        subst h
        exact hs
      · exact ih _ h

/-- A blocking read or write whose submission is accepted returns only with a
status in its slot that differs from the sentinel NO_ERROR. -/
theorem read_write_blocking_returns_status
    (lwm2m_data_parse : lwm2m_uri_t → List Nat → Int → Nat → List lwm2m_data_t)
    (lwm2mH : lwm2m_context_t) (r : ResourcePtr) (val : String) (spins : List (List DmCall))
    (t : lwm2m_client_t × lwm2m_uri_t) (hres : resolveTarget true lwm2mH r = some t) :
    (∀ res, read lwm2m_data_parse true lwm2mH (some r) none COAP_NO_ERROR spins
        = Outcome.returns res → res.slot.status ≠ NO_ERROR)
    ∧ (∀ res, write lwm2m_data_parse true lwm2mH (some r) val none COAP_NO_ERROR spins
        = Outcome.returns res → res.slot.status ≠ NO_ERROR) := by
  constructor
  · intro res hret
    simp only [read, hres, Bool.not_true, Bool.false_eq_true, if_false, ne_eq,
      not_true_eq_false] at hret
    split at hret
    · rename_i p2 hw
      have hs := waitLoop_returns _ _ _ _ hw
      split at hret
      · simp only [Outcome.returns.injEq] at hret
        subst hret
        exact hs
      · simp only [Outcome.returns.injEq] at hret
        subst hret
        exact hs
    · exact absurd hret (by simp)
    · exact absurd hret (by simp)
  · intro res hret
    simp only [write, hres, Bool.not_true, Bool.false_eq_true, if_false, ne_eq,
      not_true_eq_false] at hret
    split at hret
    · rename_i p2 hw
      have hs := waitLoop_returns _ _ _ _ hw
      simp only [writeEpilogue_zero, Outcome.returns.injEq] at hret
      subst hret
      exact hs
    · exact absurd hret (by simp)
    · exact absurd hret (by simp)


/-- The calls of the library a returning `observeRes` has made: one when it
returns 0, never more than one, each for the handle and of the kind asked for. -/
theorem observeRes_requests
    (lwm2m_data_parse : lwm2m_uri_t → List Nat → Int → Nat → List lwm2m_data_t)
    (isAlive : Bool) (lwm2mH : lwm2m_context_t) (r : ObsRegistry) (h : ResHandle)
    (observe : Bool) (newEntry : Nat) (lwm2mRet : Int) (spins : List ObsPass)
    (res : ObserveResult ResKey)
    (hret : observeRes lwm2m_data_parse isAlive lwm2mH r (some h) observe newEntry lwm2mRet spins
      = Outcome.returns res) :
    (res.ret = 0 → res.requests.length = 1)
    ∧ (∀ q ∈ res.requests, q.cancel = (!observe) ∧ q.userData = h.key) := by
  simp only [observeRes] at hret
  cases halive : isAlive with
  | false =>
    simp only [halive, Bool.not_false, if_true, Outcome.returns.injEq] at hret
    subst hret
    exact ⟨fun h0 => absurd h0 (by simp), by simp⟩
  | true =>
    simp only [halive, Bool.not_true, Bool.false_eq_true, if_false] at hret
    split at hret
    · simp only [Outcome.returns.injEq] at hret
      subst hret
      exact ⟨fun h0 => absurd h0 (by simp), by simp⟩
    · split at hret
      · simp only [Outcome.returns.injEq] at hret
        subst hret
        exact ⟨fun h0 => absurd h0 (by simp), by simp⟩
      · split at hret
        · split at hret
          · split at hret
            · simp only [Outcome.returns.injEq] at hret
              subst hret
              exact ⟨fun _ => rfl, by simp⟩
            · simp only [Outcome.returns.injEq] at hret
              subst hret
              exact ⟨fun _ => rfl, by simp⟩
          · simp only [Outcome.returns.injEq] at hret
            subst hret
            exact ⟨fun h0 => absurd h0 (by simp), by simp⟩
        · exact absurd hret (by simp)
        · exact absurd hret (by simp)

/-- The calls of the library a returning `observeObj` has made. -/
theorem observeObj_requests
    (lwm2m_data_parse : lwm2m_uri_t → List Nat → Int → Nat → List lwm2m_data_t)
    (isAlive : Bool) (lwm2mH : lwm2m_context_t) (r : ObsRegistry) (h : ObjHandle)
    (observe : Bool) (newEntry : Nat) (lwm2mRet : Int) (spins : List ObsPass)
    (res : ObserveResult ObjKey)
    (hret : observeObj lwm2m_data_parse isAlive lwm2mH r (some h) observe newEntry lwm2mRet spins
      = Outcome.returns res) :
    (res.ret = 0 → res.requests.length = 1)
    ∧ (∀ q ∈ res.requests, q.cancel = (!observe) ∧ q.userData = h.key) := by
  simp only [observeObj] at hret
  cases halive : isAlive with
  | false =>
    simp only [halive, Bool.not_false, if_true, Outcome.returns.injEq] at hret
    subst hret
    exact ⟨fun h0 => absurd h0 (by simp), by simp⟩
  | true =>
    simp only [halive, Bool.not_true, Bool.false_eq_true, if_false] at hret
    split at hret
    · simp only [Outcome.returns.injEq] at hret
      subst hret
      exact ⟨fun h0 => absurd h0 (by simp), by simp⟩
    · split at hret
      · simp only [Outcome.returns.injEq] at hret
        subst hret
        exact ⟨fun h0 => absurd h0 (by simp), by simp⟩
      · split at hret
        · split at hret
          · split at hret
            · simp only [Outcome.returns.injEq] at hret
              subst hret
              exact ⟨fun _ => rfl, by simp⟩
            · simp only [Outcome.returns.injEq] at hret
              subst hret
              exact ⟨fun _ => rfl, by simp⟩
          · simp only [Outcome.returns.injEq] at hret
            subst hret
            exact ⟨fun h0 => absurd h0 (by simp), by simp⟩
        · exact absurd hret (by simp)
        · exact absurd hret (by simp)


/-! ### Erasures and lookups -/

theorem obsFind_eraseKeys_of_none {κ α : Type} [DecidableEq κ] (ks : List κ) (m : List (κ × α))
    (k : κ) (h : obsFind m k = none) : obsFind (eraseKeys ks m) k = none := by
  induction ks generalizing m with
  | nil => exact h
  | cons a rest ih =>
    rw [eraseKeys_cons]
    exact ih _ (obsFind_obsErase_of_none _ _ _ h)

theorem obsFind_eraseKeys_of_not_mem {κ α : Type} [DecidableEq κ] (ks : List κ)
    (m : List (κ × α)) (k : κ) (h : k ∉ ks) : obsFind (eraseKeys ks m) k = obsFind m k := by
  induction ks generalizing m with
  | nil => rfl
  | cons a rest ih =>
    rw [eraseKeys_cons, ih _ (fun hh => h (List.mem_cons_of_mem _ hh))]
    exact obsFind_obsErase_ne m (fun hh => h (by rw [hh]; exact List.mem_cons_self _ _))

theorem obsFind_obsPtrs_none {κ : Type} [DecidableEq κ] (m : List (κ × ObsEntry)) (key : κ) :
    obsFind (obsPtrs m) key = none ↔ obsFind m key = none := by
  rw [obsFind_obsPtrs]
  cases obsFind m key <;> simp

theorem mem_resKeys (dev obj : Nat) (l : List LWM2MResource) (j : Nat) (k : ResKey)
    (h : k ∈ resKeys dev obj l j) : k.dev = dev := by
  induction l generalizing j with
  | nil => exact absurd h (List.not_mem_nil _)
  | cons x rest ih =>
    simp only [resKeys, List.mem_cons] at h
    rcases h with h | h
    · rw [h]
    · exact ih _ h

theorem mem_objKeys (dev : Nat) (os : List LWM2MObject) (i : Nat) (k : ResKey)
    (h : k ∈ objKeys dev os i) : k.dev = dev := by
  induction os generalizing i with
  | nil => exact absurd h (List.not_mem_nil _)
  | cons o rest ih =>
    simp only [objKeys, List.mem_append] at h
    rcases h with h | h
    · exact mem_resKeys _ _ _ _ _ h
    · exact ih _ h

/-- A handle the sweep looks up points into a Device of the grace list. -/
theorem mem_sweptKeys (time : Nat → Int) (i : Nat) (g : List s_devDel_t) (k : ResKey)
    (h : k ∈ sweptKeys time i g) : ∃ e ∈ g, ∃ d, e.p_dev = some d ∧ d.addr = k.dev := by
  induction g generalizing i with
  | nil => exact absurd h (List.not_mem_nil _)
  | cons it rest ih =>
    simp only [sweptKeys] at h
    split at h
    · rcases List.mem_append.1 h with h1 | h1
      · cases hd : it.p_dev with
        | none => simp [hd] at h1
        | some d =>
          simp only [hd] at h1
          exact ⟨it, List.mem_cons_self _ _, d, hd, (mem_objKeys _ _ _ _ h1).symm⟩
      · obtain ⟨e, he, d, hd, ha⟩ := ih _ h1
        exact ⟨e, List.mem_cons_of_mem _ he, d, hd, ha⟩
    · exact absurd h (List.not_mem_nil _)

theorem not_mem_passKeys (spins : List ObsPass) (k : ResKey) (h : GraceFree k.dev spins) :
    k ∉ passKeys spins := by
  intro hk
  simp only [passKeys, List.mem_flatMap] at hk
  obtain ⟨p, hp, hk⟩ := hk
  obtain ⟨e, he, d, hd, ha⟩ := mem_sweptKeys _ _ _ _ hk
  exact h p hp e he (by rw [hd, ← ha]; rfl)


/-! ### observe: the registries at the return -/

/-- A `runServer()` call adds no node to the Resource registry. -/
theorem obsFind_runObsPass_res_none
    (lwm2m_data_parse : lwm2m_uri_t → List Nat → Int → Nat → List lwm2m_data_t)
    (p : ObsPass) (r : ObsRegistry) (key : ResKey) (h0 : obsFind r.m_obsResMap key = none) :
    obsFind (runObsPass lwm2m_data_parse p r).m_obsResMap key = none := by
  have hp : obsPtrs (runObsPass lwm2m_data_parse p r).m_obsResMap
      = eraseKeys (passKeys [p]) (obsPtrs r.m_obsResMap) := by
    have h1 := congrArg Prod.fst (regPtrs_runObsPass lwm2m_data_parse p r)
    rw [regPtrs_sweepPasses] at h1
    exact h1
  rw [← obsFind_obsPtrs_none, hp]
  exact obsFind_eraseKeys_of_none _ _ _ ((obsFind_obsPtrs_none _ _).2 h0)

/-- A `runServer()` call leaves the Object registry (as a map to Entry
pointers) as it is. -/
theorem obsPtrs_runObsPass_obj
    (lwm2m_data_parse : lwm2m_uri_t → List Nat → Int → Nat → List lwm2m_data_t)
    (p : ObsPass) (r : ObsRegistry) :
    obsPtrs (runObsPass lwm2m_data_parse p r).m_obsObjMap = obsPtrs r.m_obsObjMap := by
  have h1 := congrArg Prod.snd (regPtrs_runObsPass lwm2m_data_parse p r)
  rw [regPtrs_sweepPasses] at h1
  exact h1

/-- With no Entry for the handle the wait loop of the Resource overload reads
the status through a NULL pointer at its first pass, whatever the
`runServer()` call does. -/
theorem obsWaitLoop_res_without_entry
    (lwm2m_data_parse : lwm2m_uri_t → List Nat → Int → Nat → List lwm2m_data_t)
    (key : ResKey) (spins : List ObsPass) (r : ObsRegistry)
    (h0 : obsFind r.m_obsResMap key = none) :
    obsWaitLoop lwm2m_data_parse (fun x => entryStatus x.m_obsResMap key) spins r
      = Outcome.fault := by
  cases spins with
  | nil => simp [obsWaitLoop, entryStatus_none_of_find h0]
  | cons spin rest =>
    have h1 := entryStatus_none_of_find
      (obsFind_runObsPass_res_none lwm2m_data_parse spin r key h0)
    simp [obsWaitLoop, h1]

/-- The same for the Object overload. -/
theorem obsWaitLoop_obj_without_entry
    (lwm2m_data_parse : lwm2m_uri_t → List Nat → Int → Nat → List lwm2m_data_t)
    (key : ObjKey) (spins : List ObsPass) (r : ObsRegistry)
    (h0 : obsFind r.m_obsObjMap key = none) :
    obsWaitLoop lwm2m_data_parse (fun x => entryStatus x.m_obsObjMap key) spins r
      = Outcome.fault := by
  cases spins with
  | nil => simp [obsWaitLoop, entryStatus_none_of_find h0]
  | cons spin rest =>
    have h1 := entryStatus_none_of_find
      (obsFind_none_of_obsPtrs_eq (obsPtrs_runObsPass_obj lwm2m_data_parse spin r) h0)
    simp [obsWaitLoop, h1]

/-- Every observe( H, false ) for a Resource handle without Entry, on an alive
server with the Device of H registered and the cancel submission accepted,
reads `p_cbData->status` with `p_cbData == NULL`. -/
theorem observeRes_cancel_without_entry_faults
    (lwm2m_data_parse : lwm2m_uri_t → List Nat → Int → Nat → List lwm2m_data_t)
    (lwm2mH : lwm2m_context_t) (r : ObsRegistry) (h : ResHandle) (newEntry : Nat)
    (spins : List ObsPass) (t : lwm2m_client_t × lwm2m_uri_t)
    (h0 : obsFind r.m_obsResMap h.key = none)
    (hres : resolveTarget true lwm2mH h.ptr = some t) :
    observeRes lwm2m_data_parse true lwm2mH r (some h) false newEntry COAP_NO_ERROR spins
      = Outcome.fault := by
  simp [observeRes, h0, hres, obsWaitLoop_res_without_entry lwm2m_data_parse h.key spins r h0]

/-- Every observe( H, false ) for an Object handle without Entry, on an alive
server with the Device of H registered and the cancel submission accepted,
reads `p_cbData->status` with `p_cbData == NULL`. -/
theorem observeObj_cancel_without_entry_faults
    (lwm2m_data_parse : lwm2m_uri_t → List Nat → Int → Nat → List lwm2m_data_t)
    (lwm2mH : lwm2m_context_t) (r : ObsRegistry) (h : ObjHandle) (newEntry : Nat)
    (spins : List ObsPass) (t : lwm2m_client_t × lwm2m_uri_t)
    (h0 : obsFind r.m_obsObjMap h.key = none)
    (hres : resolveTargetObj true lwm2mH h.ptr = some t) :
    observeObj lwm2m_data_parse true lwm2mH r (some h) false newEntry COAP_NO_ERROR spins
      = Outcome.fault := by
  simp [observeObj, h0, hres, obsWaitLoop_obj_without_entry lwm2m_data_parse h.key spins r h0]

/-- C24: observe( H, false ) for the handle of /3/0/0 and for the handle of
/3/0 of the registered Device sensor-01, neither with an Entry, on an alive
server with the cancel submission accepted, does not return: `p_cbData` is
still NULL when the wait loop reads `p_cbData->status`, whether a notification
arrives in the first pass or not. -/
theorem observe_cancel_without_entry_dereferences_null :
    obsFind exNoEntries.m_obsResMap exResHandle.key = none
    ∧ obsFind exNoEntries.m_obsObjMap exObjHandle.key = none
    ∧ resolveTarget true exContext exResHandle.ptr = some (exClient, exUri)
    ∧ resolveTargetObj true exContext exObjHandle.ptr = some (exClient, exUriObj)
    ∧ observeRes exParse true exContext exNoEntries (some exResHandle) false 100 COAP_NO_ERROR []
        = Outcome.fault
    ∧ observeRes exParse true exContext exNoEntries (some exResHandle) false 100 COAP_NO_ERROR
        [exQuietPass [exResAnswer]] = Outcome.fault
    ∧ observeObj exParse true exContext exNoEntries (some exObjHandle) false 101 COAP_NO_ERROR []
        = Outcome.fault
    ∧ observeObj exParse true exContext exNoEntries (some exObjHandle) false 101 COAP_NO_ERROR
        [exQuietPass [exObjAnswer]] = Outcome.fault := by
  decide


/-! ### observe: the round trip, the repeated call, the failed call -/

/-- The wait loop of observe with the status of the Entry at the sentinel -1
and `runServer()` calls that leave it there: after any number of calls it is
still running. -/
theorem obsWaitLoop_hangs
    (lwm2m_data_parse : lwm2m_uri_t → List Nat → Int → Nat → List lwm2m_data_t)
    (status : ObsRegistry → Option Int) (spins : List ObsPass) (r : ObsRegistry)
    (hs : status r = some (-1))
    (hkeep : ∀ p ∈ spins, ∀ x, status x = some (-1) →
      status (runObsPass lwm2m_data_parse p x) = some (-1)) :
    obsWaitLoop lwm2m_data_parse status spins r = Outcome.hangs := by
  induction spins generalizing r with
  | nil => simp [obsWaitLoop, hs]
  | cons p rest ih =>
    have h1 := hkeep p (List.mem_cons_self _ _) r hs
    simp only [obsWaitLoop, h1]
    simp only [ne_eq, not_true_eq_false, if_false]
    exact ih _ h1 (fun q hq => hkeep q (List.mem_cons_of_mem _ hq))

/-- A `runServer()` call that makes no callback and whose grace list holds no
Device at the address the handle points into leaves the Entry of the handle
as it is. -/
theorem entryStatus_runObsPass_res
    (lwm2m_data_parse : lwm2m_uri_t → List Nat → Int → Nat → List lwm2m_data_t)
    (p : ObsPass) (x : ObsRegistry) (key : ResKey) (hc : p.calls = [])
    (hg : GraceFree key.dev [p]) :
    entryStatus (runObsPass lwm2m_data_parse p x).m_obsResMap key
      = entryStatus x.m_obsResMap key := by
  have hk : key ∉ passKeys [p] := not_mem_passKeys [p] key hg
  have hk2 : key ∉ sweptKeys p.time 0 p.m_devDel := by simpa [passKeys] using hk
  unfold runObsPass
  rw [hc]
  simp only [runObsCalls, checkDeletedDevicesLoop_eq_eraseKeys, entryStatus]
  rw [obsFind_eraseKeys_of_not_mem _ _ _ hk2]

/-- A `runServer()` call that makes no callback leaves the Object registry as
it is. -/
theorem entryStatus_runObsPass_obj
    (lwm2m_data_parse : lwm2m_uri_t → List Nat → Int → Nat → List lwm2m_data_t)
    (p : ObsPass) (x : ObsRegistry) (key : ObjKey) (hc : p.calls = []) :
    entryStatus (runObsPass lwm2m_data_parse p x).m_obsObjMap key
      = entryStatus x.m_obsObjMap key := by
  unfold runObsPass
  rw [hc]
  simp only [runObsCalls, checkDeletedDevicesLoop_eq_eraseKeys]

theorem graceFree_single {dev : Nat} {spins : List ObsPass} (h : GraceFree dev spins)
    (p : ObsPass) (hp : p ∈ spins) : GraceFree dev [p] := by
  intro q hq
  rw [List.mem_singleton] at hq
  subst hq
  exact h q hp

theorem observeRes_true_idle
    (lwm2m_data_parse : lwm2m_uri_t → List Nat → Int → Nat → List lwm2m_data_t)
    (lwm2mH : lwm2m_context_t) (r : ObsRegistry) (h : ResHandle) (newEntry : Nat)
    (spins : List ObsPass) (t : lwm2m_client_t × lwm2m_uri_t)
    (hres : resolveTarget true lwm2mH h.ptr = some t)
    (hc : ∀ p ∈ spins, p.calls = []) (hg : GraceFree h.key.dev spins) :
    observeRes lwm2m_data_parse true lwm2mH r (some h) true newEntry COAP_NO_ERROR spins
      = Outcome.hangs := by
  have hw := obsWaitLoop_hangs lwm2m_data_parse (fun x => entryStatus x.m_obsResMap h.key) spins
    { r with
      m_obsResMap :=
        setEntryStatus (obsInsert r.m_obsResMap h.key ⟨newEntry, zeroSlot⟩) h.key (-1) }
    (entryStatus_prepared _ _ _)
    (fun p hp x hx => by
      simp only []
      rw [entryStatus_runObsPass_res lwm2m_data_parse p x h.key (hc p hp)
        (graceFree_single hg p hp)]
      exact hx)
  simp only [observeRes, if_true, observeRes_prepare_true, hres, Bool.not_true,
    Bool.false_eq_true, if_false, ne_eq, not_true_eq_false]
  rw [hw]

theorem observeObj_true_idle
    (lwm2m_data_parse : lwm2m_uri_t → List Nat → Int → Nat → List lwm2m_data_t)
    (lwm2mH : lwm2m_context_t) (r : ObsRegistry) (h : ObjHandle) (newEntry : Nat)
    (spins : List ObsPass) (t : lwm2m_client_t × lwm2m_uri_t)
    (hres : resolveTargetObj true lwm2mH h.ptr = some t)
    (hc : ∀ p ∈ spins, p.calls = []) :
    observeObj lwm2m_data_parse true lwm2mH r (some h) true newEntry COAP_NO_ERROR spins
      = Outcome.hangs := by
  have hw := obsWaitLoop_hangs lwm2m_data_parse (fun x => entryStatus x.m_obsObjMap h.key) spins
    { r with
      m_obsObjMap :=
        setEntryStatus (obsInsert r.m_obsObjMap h.key ⟨newEntry, zeroSlot⟩) h.key (-1) }
    (entryStatus_prepared _ _ _)
    (fun p hp x hx => by
      simp only []
      rw [entryStatus_runObsPass_obj lwm2m_data_parse p x h.key (hc p hp)]
      exact hx)
  simp only [observeObj, if_true, observeObj_prepare_true, hres, Bool.not_true,
    Bool.false_eq_true, if_false, ne_eq, not_true_eq_false]
  rw [hw]

/-- An observe( H, true ) for a Resource handle whose submission is accepted
returns only with a status of the Entry that differs from the sentinel -1. -/
theorem observeRes_true_returns_status
    (lwm2m_data_parse : lwm2m_uri_t → List Nat → Int → Nat → List lwm2m_data_t)
    (lwm2mH : lwm2m_context_t) (r : ObsRegistry) (h : ResHandle) (newEntry : Nat)
    (spins : List ObsPass) (t : lwm2m_client_t × lwm2m_uri_t)
    (res : ObserveResult ResKey)
    (hres : resolveTarget true lwm2mH h.ptr = some t)
    (hret : observeRes lwm2m_data_parse true lwm2mH r (some h) true newEntry COAP_NO_ERROR spins
      = Outcome.returns res) :
    ∃ st, entryStatus res.reg.m_obsResMap h.key = some st ∧ st ≠ -1 := by
  simp only [observeRes, if_true, observeRes_prepare_true, hres, Bool.not_true,
    Bool.false_eq_true, if_false, ne_eq, not_true_eq_false] at hret
  split at hret
  · rename_i r3 hw
    obtain ⟨_, hst⟩ := obsWaitLoop_returns _ _ _ _ _ hw
    split at hret
    · simp only [Outcome.returns.injEq] at hret
      subst hret
      exact hst
    · simp only [Outcome.returns.injEq] at hret
      subst hret
      exact hst
  · exact absurd hret (by simp)
  · exact absurd hret (by simp)

/-- An observe( H, true ) for an Object handle whose submission is accepted
returns only with a status of the Entry that differs from the sentinel -1. -/
theorem observeObj_true_returns_status
    (lwm2m_data_parse : lwm2m_uri_t → List Nat → Int → Nat → List lwm2m_data_t)
    (lwm2mH : lwm2m_context_t) (r : ObsRegistry) (h : ObjHandle) (newEntry : Nat)
    (spins : List ObsPass) (t : lwm2m_client_t × lwm2m_uri_t)
    (res : ObserveResult ObjKey)
    (hres : resolveTargetObj true lwm2mH h.ptr = some t)
    (hret : observeObj lwm2m_data_parse true lwm2mH r (some h) true newEntry COAP_NO_ERROR spins
      = Outcome.returns res) :
    ∃ st, entryStatus res.reg.m_obsObjMap h.key = some st ∧ st ≠ -1 := by
  simp only [observeObj, if_true, observeObj_prepare_true, hres, Bool.not_true,
    Bool.false_eq_true, if_false, ne_eq, not_true_eq_false] at hret
  split at hret
  · rename_i r3 hw
    obtain ⟨_, hst⟩ := obsWaitLoop_returns _ _ _ _ _ hw
    split at hret
    · simp only [Outcome.returns.injEq] at hret
      subst hret
      exact hst
    · simp only [Outcome.returns.injEq] at hret
      subst hret
      exact hst
  · exact absurd hret (by simp)
  · exact absurd hret (by simp)


/-- A wait that does not end in a return either: observe( H, true ) for a
Resource of a Device object on the grace list, accepted because a client of
its name is registered again; the sweep of the first `runServer()` call evicts
the Device and deletes the Entry of H, and the loop reads `p_cbData->status`
from the deleted Entry. -/
theorem observe_wait_reads_deleted_entry :
    resolveTarget true exContext exStaleHandle.ptr = some (exClient, exUri)
    ∧ observeRes exParse true exContext exNoEntries (some exStaleHandle) true 100 COAP_NO_ERROR
        [exStalePass] = Outcome.fault := by
  decide

/-- C21, the runs that differ: a blocking read, a blocking write and an
observe( H, true ) for both kinds of handle, each with its submission
accepted, are still in their wait loop after 8 passes in which no callback
arrives (for observe: `runServer()` calls without callback, the first of
which evicts the Device at address 9 from the grace list). -/
theorem wait_loop_still_spinning_after_eight_passes :
    read exParse true exContext (some exResPtr) none COAP_NO_ERROR (List.replicate 8 [])
      = Outcome.hangs
    ∧ write exParse true exContext (some exResPtr) "X" none COAP_NO_ERROR (List.replicate 8 [])
      = Outcome.hangs
    ∧ observeRes exParse true exContext exNoEntries (some exResHandle) true 100 COAP_NO_ERROR
        (exSweepPass [] :: List.replicate 7 (exQuietPass [])) = Outcome.hangs
    ∧ observeObj exParse true exContext exNoEntries (some exObjHandle) true 101 COAP_NO_ERROR
        (exSweepPass [] :: List.replicate 7 (exQuietPass [])) = Outcome.hangs := by
  decide

/-- C21 as the code has it: the wait loops have no deadline. A blocking read
or write whose submission is accepted is still in its wait loop after n
passes in which no callback arrives, for every n; an observe( H, true ),
Resource or Object handle, whose submission is accepted is still in its wait
loop after any number of `runServer()` calls that make no callback (for a
Resource handle: and whose grace sweeps find no Device that H points into);
and each of these calls returns only when the status of its slot (of the
Entry) differs from the sentinel. -/
theorem wait_loops_end_only_on_status_change
    (lwm2m_data_parse : lwm2m_uri_t → List Nat → Int → Nat → List lwm2m_data_t)
    (lwm2mH : lwm2m_context_t) :
    (∀ (r : ResourcePtr) (val : String) (t : lwm2m_client_t × lwm2m_uri_t) (n : Nat),
        resolveTarget true lwm2mH r = some t →
        read lwm2m_data_parse true lwm2mH (some r) none COAP_NO_ERROR (List.replicate n [])
          = Outcome.hangs
        ∧ write lwm2m_data_parse true lwm2mH (some r) val none COAP_NO_ERROR
            (List.replicate n []) = Outcome.hangs)
    ∧ (∀ (reg : ObsRegistry) (h : ResHandle) (newEntry : Nat)
        (t : lwm2m_client_t × lwm2m_uri_t) (spins : List ObsPass),
        resolveTarget true lwm2mH h.ptr = some t →
        (∀ p ∈ spins, p.calls = []) → GraceFree h.key.dev spins →
        observeRes lwm2m_data_parse true lwm2mH reg (some h) true newEntry COAP_NO_ERROR
          spins = Outcome.hangs)
    ∧ (∀ (reg : ObsRegistry) (h : ObjHandle) (newEntry : Nat)
        (t : lwm2m_client_t × lwm2m_uri_t) (spins : List ObsPass),
        resolveTargetObj true lwm2mH h.ptr = some t →
        (∀ p ∈ spins, p.calls = []) →
        observeObj lwm2m_data_parse true lwm2mH reg (some h) true newEntry COAP_NO_ERROR
          spins = Outcome.hangs)
    ∧ (∀ (r : ResourcePtr) (val : String) (t : lwm2m_client_t × lwm2m_uri_t)
        (spins : List (List DmCall)),
        resolveTarget true lwm2mH r = some t →
        (∀ res, read lwm2m_data_parse true lwm2mH (some r) none COAP_NO_ERROR spins
            = Outcome.returns res → res.slot.status ≠ NO_ERROR)
        ∧ (∀ res, write lwm2m_data_parse true lwm2mH (some r) val none COAP_NO_ERROR spins
            = Outcome.returns res → res.slot.status ≠ NO_ERROR))
    ∧ (∀ (reg : ObsRegistry) (h : ResHandle) (newEntry : Nat)
        (t : lwm2m_client_t × lwm2m_uri_t) (spins : List ObsPass)
        (res : ObserveResult ResKey),
        resolveTarget true lwm2mH h.ptr = some t →
        observeRes lwm2m_data_parse true lwm2mH reg (some h) true newEntry COAP_NO_ERROR spins
          = Outcome.returns res →
        ∃ st, entryStatus res.reg.m_obsResMap h.key = some st ∧ st ≠ -1)
    ∧ (∀ (reg : ObsRegistry) (h : ObjHandle) (newEntry : Nat)
        (t : lwm2m_client_t × lwm2m_uri_t) (spins : List ObsPass)
        (res : ObserveResult ObjKey),
        resolveTargetObj true lwm2mH h.ptr = some t →
        observeObj lwm2m_data_parse true lwm2mH reg (some h) true newEntry COAP_NO_ERROR spins
          = Outcome.returns res →
        ∃ st, entryStatus res.reg.m_obsObjMap h.key = some st ∧ st ≠ -1) := by
  refine ⟨?_, ?_, ?_, ?_, ?_, ?_⟩
  · intro r val t n hres
    have hw := waitLoop_idle lwm2m_data_parse n { zeroSlot with status := NO_ERROR } rfl
    constructor
    · simp [read, hres, hw]
    · simp [write, hres, hw]
  · intro reg h newEntry t spins hres hc hg
    exact observeRes_true_idle _ _ _ _ _ _ t hres hc hg
  · intro reg h newEntry t spins hres hc
    exact observeObj_true_idle _ _ _ _ _ _ t hres hc
  · intro r val t spins hres
    exact read_write_blocking_returns_status _ _ _ _ _ t hres
  · intro reg h newEntry t spins res hres hret
    exact observeRes_true_returns_status _ _ _ _ _ _ t res hres hret
  · intro reg h newEntry t spins res hres hret
    exact observeObj_true_returns_status _ _ _ _ _ _ t res hres hret

/-- C21 as the code has it, on /3/0/0 and /3/0 of sensor-01: after 30 passes
without a callback the read and the write are still waiting; after a
`runServer()` call that evicts the Device at address 9 and one that finds the
grace list empty, both without callback, the two observe calls are still
waiting; the observe that is answered returns with status 0 in its Entry. -/
theorem wait_loops_end_only_on_status_change_witness :
    resolveTarget true exContext exResPtr = some (exClient, exUri)
    ∧ resolveTargetObj true exContext exObjHandle.ptr = some (exClient, exUriObj)
    ∧ (∀ p ∈ [exSweepPass [], exQuietPass []], p.calls = [])
    ∧ GraceFree exResHandle.key.dev [exSweepPass [], exQuietPass []]
    ∧ (read exParse true exContext (some exResPtr) none COAP_NO_ERROR (List.replicate 30 [])
        = Outcome.hangs
      ∧ write exParse true exContext (some exResPtr) "X" none COAP_NO_ERROR
          (List.replicate 30 []) = Outcome.hangs)
    ∧ observeRes exParse true exContext exNoEntries (some exResHandle) true 100 COAP_NO_ERROR
        [exSweepPass [], exQuietPass []] = Outcome.hangs
    ∧ observeObj exParse true exContext exNoEntries (some exObjHandle) true 101 COAP_NO_ERROR
        [exSweepPass [], exQuietPass []] = Outcome.hangs
    ∧ ∃ st, entryStatus exResObserved.reg.m_obsResMap exResHandle.key = some st ∧ st ≠ -1 :=
  ⟨by decide, by decide, by decide, by unfold GraceFree; decide,
    (wait_loops_end_only_on_status_change exParse exContext).1 exResPtr "X" (exClient, exUri) 30
      (by decide),
    (wait_loops_end_only_on_status_change exParse exContext).2.1 exNoEntries exResHandle 100
      (exClient, exUri) [exSweepPass [], exQuietPass []] (by decide) (by decide)
      (by unfold GraceFree; decide),
    (wait_loops_end_only_on_status_change exParse exContext).2.2.1 exNoEntries exObjHandle 101
      (exClient, exUriObj) [exSweepPass [], exQuietPass []] (by decide) (by decide),
    (wait_loops_end_only_on_status_change exParse exContext).2.2.2.2.1 exNoEntries exResHandle
      100 (exClient, exUri) [exQuietPass [exResAnswer]] exResObserved (by decide) (by decide)⟩


end LWM2M
